import Mathlib

/-!
# Connection lifecycle and query execution of the universal database server

A shallow embedding of the connection registry, the `ConnectionManager`, the
idle-connection sweeper, the `close_connections` tool handler, the four
variants of the `QueryExecutor` with their dispatcher cases, and the two result
renderers of `server.js`, followed by theorems about them.

Conventions of the embedding.

* The module-level `connections` object and every effect on a driver object
  live in an explicit `World` that each operation takes and returns.
* A driver object (`sqlite3.Database`, `pg.Client`, `MongoClient`, a mysql2
  connection) is a `Handle`: a number standing for the object's identity.  A
  `new` allocates the next unused number.
* What a driver answers (handshake outcome, whether `close`/`end` throws,
  query responses) is not decided by the program: it is read from `Drivers`.
* `Date.now()` is the `now` argument of the operation that calls it.
* A thrown or rejected error is `Except.error`.
-/

namespace DatabaseMCP

/-! ## JavaScript values -/

/-- The JavaScript values that cross the modelled boundary: tool arguments,
cells of result rows and counters reported by drivers.  Numbers are integers. -/
inductive JSVal where
  | undefined
  | null
  | bool (b : Bool)
  | num (n : Int)
  | str (s : String)
  deriving DecidableEq, Repr

namespace JSVal

/-- `String(v)`, which is also what a template literal inserts for `v`. -/
def toStr : JSVal → String
  | undefined => "undefined"
  | null => "null"
  | bool true => "true"
  | bool false => "false"
  | num n => toString n
  | str s => s

/-- JavaScript truthiness. -/
def truthy : JSVal → Bool
  | undefined => false
  | null => false
  | bool b => b
  | num n => n != 0
  | str s => s != ""

/-- The operator `a || b`. -/
def or (a b : JSVal) : JSVal := if a.truthy then a else b

/-- A destructuring default `{ x = d }`: it applies only to `undefined`. -/
def orDefault (v d : JSVal) : JSVal := if v = undefined then d else v

end JSVal

/-- An `Error` object, identified by its message. -/
structure JSError where
  message : String
  deriving DecidableEq, Repr

/-- Identity of a driver object. -/
abbrev Handle := Nat

/-! ## The JavaScript `Map` -/

/-- A `Map` with string keys: its entries in insertion order. -/
abbrev JSMap (α : Type) := List (String × α)

namespace JSMap

variable {α : Type}

/-- `m.get(k)`; `none` is `undefined`. -/
def get : JSMap α → String → Option α
  | [], _ => none
  | (k', v) :: m, k => if k' = k then some v else get m k

/-- `m.has(k)`. -/
def has (m : JSMap α) (k : String) : Bool := (get m k).isSome

/-- `m.set(k, v)`: an existing key keeps its place, a new key goes last. -/
def set : JSMap α → String → α → JSMap α
  | [], k, v => [(k, v)]
  | (k', v') :: m, k, v => if k' = k then (k, v) :: m else (k', v') :: set m k v

/-- `m.delete(k)`. -/
def delete : JSMap α → String → JSMap α
  | [], _ => []
  | (k', v') :: m, k => if k' = k then m else (k', v') :: delete m k

/-- `m.clear()`. -/
def clear (_m : JSMap α) : JSMap α := []

/-- The keys of a `Map` are pairwise distinct. -/
def KeysNodup (m : JSMap α) : Prop := (m.map Prod.fst).Nodup

instance (m : JSMap α) : Decidable (KeysNodup m) := by
  unfold KeysNodup; infer_instance

end JSMap

/-! ## The registry -/

/-- The object passed to `new PostgresClient(config)` and to
`mysql.createConnection(config)`. -/
structure SQLConfig where
  host : JSVal
  port : JSVal
  database : JSVal
  user : JSVal
  password : JSVal
  deriving DecidableEq, Repr

/-- The object `{ host, port, database, connectionUri }` of the document store. -/
structure MongoConfig where
  host : JSVal
  port : JSVal
  database : JSVal
  connectionUri : String
  deriving DecidableEq, Repr

/-- Entry `{ db, lastUsed }` of `connections.sqlite`. -/
structure SQLiteConn where
  db : Handle
  lastUsed : Int
  deriving DecidableEq, Repr

/-- Entry `{ client, config, lastUsed }` of `connections.postgres`. -/
structure PostgresConn where
  client : Handle
  config : SQLConfig
  lastUsed : Int
  deriving DecidableEq, Repr

/-- Entry `{ client, db, config, lastUsed }` of `connections.mongodb`. -/
structure MongoConn where
  client : Handle
  db : Handle
  config : MongoConfig
  lastUsed : Int
  deriving DecidableEq, Repr

/-- Entry `{ connection, config, lastUsed }` of `connections.mysql`. -/
structure MySQLConn where
  connection : Handle
  config : SQLConfig
  lastUsed : Int
  deriving DecidableEq, Repr

/-- The module-level object `connections`, its four maps in property order. -/
structure Connections where
  sqlite : JSMap SQLiteConn
  postgres : JSMap PostgresConn
  mongodb : JSMap MongoConn
  mysql : JSMap MySQLConn
  deriving DecidableEq, Repr

/-- The four own properties of `connections`. -/
inductive DbType where
  | sqlite
  | postgres
  | mongodb
  | mysql
  deriving DecidableEq, Repr

/-- The property name of a map of `connections`. -/
def DbType.name : DbType → String
  | .sqlite => "sqlite"
  | .postgres => "postgres"
  | .mongodb => "mongodb"
  | .mysql => "mysql"

/-- Program state: the registry, the allocator of driver objects, and the
record of the driver calls made so far (handshakes started, `close`/`end`
calls made), oldest first. -/
structure World where
  connections : Connections
  nextHandle : Nat
  connectLog : List Handle
  closeLog : List Handle
  deriving DecidableEq, Repr

/-- The state at startup: `connections` holds four empty maps. -/
def World.init : World :=
  { connections := { sqlite := [], postgres := [], mongodb := [], mysql := [] }
    nextHandle := 0
    connectLog := []
    closeLog := [] }

/-- The keys of each of the four maps are pairwise distinct. -/
def Connections.KeysNodup (c : Connections) : Prop :=
  JSMap.KeysNodup c.sqlite ∧ JSMap.KeysNodup c.postgres ∧
  JSMap.KeysNodup c.mongodb ∧ JSMap.KeysNodup c.mysql

instance (c : Connections) : Decidable c.KeysNodup := by
  unfold Connections.KeysNodup; infer_instance

/-- For each entry, map by map, the object on which the entry is closed (`db`,
`client`, `client`, `connection`) with the entry's `lastUsed`. -/
def Connections.stamps (c : Connections) : List (Handle × Int) :=
  c.sqlite.map (fun p => (p.2.db, p.2.lastUsed)) ++
    (c.postgres.map (fun p => (p.2.client, p.2.lastUsed)) ++
      (c.mongodb.map (fun p => (p.2.client, p.2.lastUsed)) ++
        c.mysql.map (fun p => (p.2.connection, p.2.lastUsed))))

/-- The object on which each entry is closed, map by map. -/
def Connections.handles (c : Connections) : List Handle := c.stamps.map Prod.fst

/-- What the program maintains about its registry: map keys are distinct, the
registered driver objects are distinct, and each was allocated earlier. -/
def World.WF (w : World) : Prop :=
  w.connections.KeysNodup ∧ w.connections.handles.Nodup ∧
  ∀ h ∈ w.connections.handles, h < w.nextHandle

instance (w : World) : Decidable w.WF := by
  unfold World.WF; infer_instance

/-! ## The drivers -/

/-- A record of a result set: its own properties in `Object.keys` order. -/
abbrev Row := List (String × JSVal)

/-- What `this` carries in the callback of `db.run`. -/
structure RunInfo where
  changes : JSVal
  lastID : JSVal
  deriving DecidableEq, Repr

/-- The result object of `client.query` of the PostgreSQL driver, as far as
the program reads it; `rows = none` is a response without a `rows` property. -/
structure PgResult where
  rows : Option (List Row)
  rowCount : JSVal
  deriving DecidableEq, Repr

/-- The first component of what `connection.execute` of the MySQL driver
resolves to: an array of row objects for a statement that returns rows, or the
header object with `affectedRows` and `insertId` for one that does not. -/
inductive MySQLRows where
  | array (rows : List Row)
  | header (affectedRows insertId : JSVal)
  deriving DecidableEq, Repr

/-- A document of the document store, a filter, an update or an options
object, as `JSON.stringify` sees it.  Numbers are integers. -/
inductive Json where
  | null
  | bool (b : Bool)
  | num (n : Int)
  | str (s : String)
  | arr (items : List Json)
  | obj (fields : List (String × Json))

/-- The answers of the backends.  `connectError h` is the error of the
handshake started on the new driver object `h`, if it fails; `closeRaises h`
tells whether `close()`/`end()` on `h` throws.  The `mongo` fields answer the
methods of the collection of the given name of a `Db` object, with the value
the program reads from the response (`insertedId`, `insertedCount`,
`modifiedCount`, `deletedCount`, or the array of documents). -/
structure Drivers where
  connectError : Handle → Option JSError
  closeRaises : Handle → Bool
  sqliteAll : Handle → String → List JSVal → Except JSError (List Row)
  sqliteRun : Handle → String → List JSVal → Except JSError RunInfo
  pgQuery : Handle → String → List JSVal → Except JSError PgResult
  mysqlExecute : Handle → String → List JSVal → Except JSError MySQLRows
  mongoFind : Handle → String → Json → Json → Except JSError (List Json)
  mongoInsertOne : Handle → String → Option Json → Except JSError JSVal
  mongoInsertMany : Handle → String → Option Json → Except JSError JSVal
  mongoUpdateOne : Handle → String → Json → Option Json → Json → Except JSError JSVal
  mongoDeleteOne : Handle → String → Json → Except JSError JSVal
  mongoAggregate : Handle → String → Json → Except JSError (List Json)

/-! ## ConnectionManager -/

/-- The key of the PostgreSQL and MySQL maps:
the template literal of `config.host`, `config.port`, `config.database`,
`config.user`, colon separated. -/
def sqlConnId (config : SQLConfig) : String :=
  config.host.toStr ++ ":" ++ config.port.toStr ++ ":" ++ config.database.toStr ++ ":" ++
    config.user.toStr

/-- The key of the MongoDB map: host, port and database, colon separated. -/
def mongoConnId (config : MongoConfig) : String :=
  config.host.toStr ++ ":" ++ config.port.toStr ++ ":" ++ config.database.toStr

/-- Allocation of a driver object on which a handshake is started. -/
def World.startConnect (w : World) : World :=
  { w with nextHandle := w.nextHandle + 1, connectLog := w.connectLog ++ [w.nextHandle] }

/-- `ConnectionManager.getSQLiteConnection(dbPath)`.  A registered path
refreshes `lastUsed` and yields the stored `db`; otherwise a new
`sqlite3.Database` is opened, and registered only when its callback reports no
error.  Here and in the other three methods the test `has(key)` followed by
`get(key)` is the match on `JSMap.get`. -/
def getSQLiteConnection (env : Drivers) (now : Int) (dbPath : String) (w : World) :
    Except JSError Handle × World :=
  match JSMap.get w.connections.sqlite dbPath with
  | some conn =>
    (.ok conn.db, { w with connections := { w.connections with
        sqlite := JSMap.set w.connections.sqlite dbPath { conn with lastUsed := now } } })
  | none =>
    let db := w.nextHandle
    let w1 := w.startConnect
    match env.connectError db with
    | some err => (.error err, w1)
    | none =>
      (.ok db, { w1 with connections := { w1.connections with
          sqlite := JSMap.set w1.connections.sqlite dbPath { db := db, lastUsed := now } } })

/-- `ConnectionManager.getPostgresConnection(config)`. -/
def getPostgresConnection (env : Drivers) (now : Int) (config : SQLConfig) (w : World) :
    Except JSError Handle × World :=
  let connId := sqlConnId config
  match JSMap.get w.connections.postgres connId with
  | some conn =>
    (.ok conn.client, { w with connections := { w.connections with
        postgres := JSMap.set w.connections.postgres connId { conn with lastUsed := now } } })
  | none =>
    let client := w.nextHandle
    let w1 := w.startConnect
    match env.connectError client with
    | some err => (.error err, w1)
    | none =>
      (.ok client, { w1 with connections := { w1.connections with
          postgres := JSMap.set w1.connections.postgres connId
            { client := client, config := config, lastUsed := now } } })

/-- The object `{ client, db }` returned by `getMongoConnection`. -/
structure MongoHandles where
  client : Handle
  db : Handle
  deriving DecidableEq, Repr

/-- `ConnectionManager.getMongoConnection(config, forceNew)`.  The registry is
consulted only when `forceNew` is false; `client.db(...)` allocates the `Db`
object after the handshake. -/
def getMongoConnection (env : Drivers) (now : Int) (config : MongoConfig) (forceNew : Bool)
    (w : World) : Except JSError MongoHandles × World :=
  let connId := mongoConnId config
  match (if forceNew then none else JSMap.get w.connections.mongodb connId) with
  | some conn =>
    (.ok { client := conn.client, db := conn.db }, { w with connections := { w.connections with
        mongodb := JSMap.set w.connections.mongodb connId { conn with lastUsed := now } } })
  | none =>
    let client := w.nextHandle
    let w1 := w.startConnect
    match env.connectError client with
    | some err => (.error err, w1)
    | none =>
      let db := w1.nextHandle
      let w2 := { w1 with nextHandle := w1.nextHandle + 1 }
      (.ok { client := client, db := db }, { w2 with connections := { w2.connections with
          mongodb := JSMap.set w2.connections.mongodb connId
            { client := client, db := db, config := config, lastUsed := now } } })

/-- `ConnectionManager.getMySQLConnection(config)`. -/
def getMySQLConnection (env : Drivers) (now : Int) (config : SQLConfig) (w : World) :
    Except JSError Handle × World :=
  let connId := sqlConnId config
  match JSMap.get w.connections.mysql connId with
  | some conn =>
    (.ok conn.connection, { w with connections := { w.connections with
        mysql := JSMap.set w.connections.mysql connId { conn with lastUsed := now } } })
  | none =>
    let connection := w.nextHandle
    let w1 := w.startConnect
    match env.connectError connection with
    | some err => (.error err, w1)
    | none =>
      (.ok connection, { w1 with connections := { w1.connections with
          mysql := JSMap.set w1.connections.mysql connId
            { connection := connection, config := config, lastUsed := now } } })

/-- A request to the Connection Manager: the backend kind with its arguments. -/
inductive AcquireReq where
  | sqlite (dbPath : String)
  | postgres (config : SQLConfig)
  | mongodb (config : MongoConfig) (forceNew : Bool)
  | mysql (config : SQLConfig)
  deriving DecidableEq, Repr

/-- What an acquisition hands to its caller. -/
inductive Acquired where
  | handle (h : Handle)
  | mongo (hs : MongoHandles)
  deriving DecidableEq, Repr

/-- The driver object that carries the connection. -/
def Acquired.conn : Acquired → Handle
  | .handle h => h
  | .mongo hs => hs.client

/-- The operation `acquire(backendKind, config, forceNew)`: the dispatch to the
four `ConnectionManager` methods. -/
def acquire (env : Drivers) (now : Int) (req : AcquireReq) (w : World) :
    Except JSError Acquired × World :=
  match req with
  | .sqlite dbPath =>
    let r := getSQLiteConnection env now dbPath w
    (r.1.map Acquired.handle, r.2)
  | .postgres config =>
    let r := getPostgresConnection env now config w
    (r.1.map Acquired.handle, r.2)
  | .mongodb config forceNew =>
    let r := getMongoConnection env now config forceNew w
    (r.1.map Acquired.mongo, r.2)
  | .mysql config =>
    let r := getMySQLConnection env now config w
    (r.1.map Acquired.handle, r.2)

/-- The map an acquisition works on. -/
def AcquireReq.dbType : AcquireReq → DbType
  | .sqlite _ => .sqlite
  | .postgres _ => .postgres
  | .mongodb _ _ => .mongodb
  | .mysql _ => .mysql

/-- The registry key an acquisition resolves its arguments to. -/
def AcquireReq.key : AcquireReq → String
  | .sqlite dbPath => dbPath
  | .postgres config => sqlConnId config
  | .mongodb config _ => mongoConnId config
  | .mysql config => sqlConnId config

/-- The `forceNew` flag of an acquisition (only the document store has one). -/
def AcquireReq.forceNew : AcquireReq → Bool
  | .mongodb _ forceNew => forceNew
  | _ => false

/-- The registered connection under a key of one map: the driver object that
carries it and its `lastUsed`, if the key is present. -/
def Connections.lookup (c : Connections) (t : DbType) (k : String) : Option (Handle × Int) :=
  match t with
  | .sqlite => (JSMap.get c.sqlite k).map (fun e => (e.db, e.lastUsed))
  | .postgres => (JSMap.get c.postgres k).map (fun e => (e.client, e.lastUsed))
  | .mongodb => (JSMap.get c.mongodb k).map (fun e => (e.client, e.lastUsed))
  | .mysql => (JSMap.get c.mysql k).map (fun e => (e.connection, e.lastUsed))

/-! ## The idle-connection sweeper -/

/-- The idle threshold `5 * 60 * 1000` of the sweeper, in milliseconds. -/
def timeout : Int := 5 * 60 * 1000

/-- The period `60000` of the sweeper, in milliseconds. -/
def sweepInterval : Int := 60000

/-- A `close()`/`end()` call on a driver object: the call is recorded and the
result says whether it threw. -/
def closeHandle (env : Drivers) (h : Handle) (log : List Handle) : Bool × List Handle :=
  (env.closeRaises h, log ++ [h])

/-- The inner loop of the sweeper over the entries of one map.  `handle` is the
property closed for this map (`db`, `client` or `connection`).  An entry idle
for more than `timeout` is closed inside `try`, the `catch` only writes to the
console, and the entry is deleted after the `try` statement in both cases. -/
def sweepMap {α : Type} (env : Drivers) (handle : α → Handle) (lastUsed : α → Int) (now : Int) :
    List (String × α) → JSMap α × List Handle → JSMap α × List Handle
  | [], st => st
  | (id, conn) :: rest, (m, log) =>
    if now - lastUsed conn > timeout then
      match closeHandle env (handle conn) log with
      | (true, log1) => sweepMap env handle lastUsed now rest (JSMap.delete m id, log1)
      | (false, log1) => sweepMap env handle lastUsed now rest (JSMap.delete m id, log1)
    else
      sweepMap env handle lastUsed now rest (m, log)

/-- One tick of the `setInterval` callback: the four maps in the order of
`Object.entries(connections)`. -/
def sweeper (env : Drivers) (now : Int) (w : World) : World :=
  let c := w.connections
  let s1 := sweepMap env SQLiteConn.db SQLiteConn.lastUsed now c.sqlite (c.sqlite, w.closeLog)
  let s2 := sweepMap env PostgresConn.client PostgresConn.lastUsed now c.postgres
    (c.postgres, s1.2)
  let s3 := sweepMap env MongoConn.client MongoConn.lastUsed now c.mongodb (c.mongodb, s2.2)
  let s4 := sweepMap env MySQLConn.connection MySQLConn.lastUsed now c.mysql (c.mysql, s3.2)
  { w with
    connections := { sqlite := s1.1, postgres := s2.1, mongodb := s3.1, mysql := s4.1 }
    closeLog := s4.2 }

/-! ## The `close_connections` tool -/

/-- The response object of a tool call: its text and its `isError` flag. -/
structure ToolResponse where
  text : String
  isError : Bool
  deriving DecidableEq, Repr

/-- What the property read `connections[database_type]` yields. -/
inductive RegistrySlot where
  | map (t : DbType)
  | inherited
  | undefined
  deriving DecidableEq, Repr

/-- The property names every object literal inherits from `Object.prototype`.
Each of them reads as a function or object, hence truthy, with neither a `has`
nor an `entries` method. -/
def objectPrototypeKeys : List String :=
  ["constructor", "__defineGetter__", "__defineSetter__", "hasOwnProperty",
   "__lookupGetter__", "__lookupSetter__", "isPrototypeOf", "propertyIsEnumerable",
   "toString", "valueOf", "__proto__", "toLocaleString"]

/-- The property read `connections[database_type]`. -/
def lookupConnections (database_type : String) : RegistrySlot :=
  if database_type = "sqlite" then .map .sqlite
  else if database_type = "postgres" then .map .postgres
  else if database_type = "mongodb" then .map .mongodb
  else if database_type = "mysql" then .map .mysql
  else if database_type ∈ objectPrototypeKeys then .inherited
  else .undefined

/-- Truthiness of an optional string argument; `none` is an absent argument. -/
def argTruthy : Option String → Bool
  | none => false
  | some s => s != ""

/-- The single-connection branch on one map: when the key is present the entry
is closed, then deleted and counted; a throwing close skips the deletion and
the count. -/
def closeOne {α : Type} (env : Drivers) (handle : α → Handle) (m : JSMap α)
    (connection_id : String) (log : List Handle) : JSMap α × List Handle × Nat :=
  match JSMap.get m connection_id with
  | none => (m, log, 0)
  | some conn =>
    match closeHandle env (handle conn) log with
    | (true, log1) => (m, log1, 0)
    | (false, log1) => (JSMap.delete m connection_id, log1, 1)

/-- The loop of the bulk branches over the entries of one map: every entry is
closed inside its own `try`, and counted unless the close threw. -/
def closeEach {α : Type} (env : Drivers) (handle : α → Handle) :
    List (String × α) → List Handle × Nat → List Handle × Nat
  | [], st => st
  | (_, conn) :: rest, (log, closed) =>
    match closeHandle env (handle conn) log with
    | (true, log1) => closeEach env handle rest (log1, closed)
    | (false, log1) => closeEach env handle rest (log1, closed + 1)

/-- The success response of `close_connections`. -/
def closedResponse (closed : Nat) : ToolResponse :=
  { text := "✅ Closed " ++ toString closed ++ " database connection(s)", isError := false }

/-- The response of the outer `catch` of the tool dispatcher. -/
def errorResponse (name : String) (error : JSError) : ToolResponse :=
  { text := "❌ Error executing " ++ name ++ ": " ++ error.message, isError := true }

/-- The `TypeError` of calling a missing method of `connMap`. -/
def notAFunction (method : String) : JSError :=
  { message := "connMap." ++ method ++ " is not a function" }

/-- The `close_connections` case of the tool dispatcher.  Both arguments are
optional strings and are tested for truthiness. -/
def close_connections (env : Drivers) (database_type connection_id : Option String)
    (w : World) : ToolResponse × World :=
  let c := w.connections
  if argTruthy database_type && argTruthy connection_id then
    match lookupConnections (database_type.getD ""), connection_id.getD "" with
    | .undefined, _ => (closedResponse 0, w)
    | .inherited, _ => (errorResponse "close_connections" (notAFunction "has"), w)
    | .map .sqlite, id =>
      let r := closeOne env SQLiteConn.db c.sqlite id w.closeLog
      (closedResponse r.2.2,
        { w with connections := { c with sqlite := r.1 }, closeLog := r.2.1 })
    | .map .postgres, id =>
      let r := closeOne env PostgresConn.client c.postgres id w.closeLog
      (closedResponse r.2.2,
        { w with connections := { c with postgres := r.1 }, closeLog := r.2.1 })
    | .map .mongodb, id =>
      let r := closeOne env MongoConn.client c.mongodb id w.closeLog
      (closedResponse r.2.2,
        { w with connections := { c with mongodb := r.1 }, closeLog := r.2.1 })
    | .map .mysql, id =>
      let r := closeOne env MySQLConn.connection c.mysql id w.closeLog
      (closedResponse r.2.2,
        { w with connections := { c with mysql := r.1 }, closeLog := r.2.1 })
  else if argTruthy database_type then
    match lookupConnections (database_type.getD "") with
    | .undefined => (closedResponse 0, w)
    | .inherited => (errorResponse "close_connections" (notAFunction "entries"), w)
    | .map .sqlite =>
      let r := closeEach env SQLiteConn.db c.sqlite (w.closeLog, 0)
      (closedResponse r.2,
        { w with connections := { c with sqlite := JSMap.clear c.sqlite }, closeLog := r.1 })
    | .map .postgres =>
      let r := closeEach env PostgresConn.client c.postgres (w.closeLog, 0)
      (closedResponse r.2,
        { w with connections := { c with postgres := JSMap.clear c.postgres }, closeLog := r.1 })
    | .map .mongodb =>
      let r := closeEach env MongoConn.client c.mongodb (w.closeLog, 0)
      (closedResponse r.2,
        { w with connections := { c with mongodb := JSMap.clear c.mongodb }, closeLog := r.1 })
    | .map .mysql =>
      let r := closeEach env MySQLConn.connection c.mysql (w.closeLog, 0)
      (closedResponse r.2,
        { w with connections := { c with mysql := JSMap.clear c.mysql }, closeLog := r.1 })
  else
    let r1 := closeEach env SQLiteConn.db c.sqlite (w.closeLog, 0)
    let r2 := closeEach env PostgresConn.client c.postgres r1
    let r3 := closeEach env MongoConn.client c.mongodb r2
    let r4 := closeEach env MySQLConn.connection c.mysql r3
    (closedResponse r4.2,
      { w with
        connections :=
          { sqlite := JSMap.clear c.sqlite, postgres := JSMap.clear c.postgres,
            mongodb := JSMap.clear c.mongodb, mysql := JSMap.clear c.mysql }
        closeLog := r4.1 })

/-! ## JavaScript strings -/

/-- The `length` of a string: its number of UTF-16 code units. -/
def jsLength (s : String) : Nat :=
  (s.toList.map (fun c => if c.val < 0x10000 then 1 else 2)).sum

/-- `s.padEnd(n)`: spaces are appended up to length `n`. -/
def padEnd (s : String) (n : Nat) : String :=
  s ++ String.mk (List.replicate (n - jsLength s) ' ')

/-- `'-'.repeat(n)`. -/
def dashes (n : Nat) : String := String.mk (List.replicate n '-')

/-- The code points `String.prototype.trim` strips: the white space and line
terminator characters of the language. -/
def isTrimmed (c : Char) : Bool :=
  c.val = 0x09 || c.val = 0x0A || c.val = 0x0B || c.val = 0x0C || c.val = 0x0D ||
  c.val = 0x20 || c.val = 0xA0 || c.val = 0x1680 || (0x2000 ≤ c.val && c.val ≤ 0x200A) ||
  c.val = 0x2028 || c.val = 0x2029 || c.val = 0x202F || c.val = 0x205F ||
  c.val = 0x3000 || c.val = 0xFEFF

/-- `s.trim()`. -/
def trim (s : String) : String :=
  String.mk ((s.toList.dropWhile isTrimmed).reverse.dropWhile isTrimmed).reverse

/-- `s.toLowerCase()` on the letters `A`..`Z`; other characters are kept.  (The
language also lower-cases letters outside that range, none of them to a letter
of an ASCII keyword other than `k` and `i`.) -/
def toLowerCase (s : String) : String := String.mk (s.toList.map Char.toLower)

/-- `s.startsWith(p)`. -/
def startsWith (s p : String) : Bool := p.toList.isPrefixOf s.toList

/-! ## Rendering of result rows -/

/-- The string form of the property that every record inherits from
`Object.prototype` under the given name: a built-in function, or the prototype
object itself under `__proto__`. -/
def inheritedText (name : String) : String :=
  if name = "__proto__" then "[object Object]"
  else if name = "constructor" then "function Object() \x7b [native code] \x7d"
  else "function " ++ name ++ "() \x7b [native code] \x7d"

/-- The property read `row[col]`.  A key that is not among the record's own
properties reads the property inherited from `Object.prototype` when there is
one; that function or object is given by its string form, which is all the
renderer takes of a truthy value.  Any other missing key reads `undefined`. -/
def Row.get : Row → String → JSVal
  | [], col => if col ∈ objectPrototypeKeys then .str (inheritedText col) else .undefined
  | (k, v) :: r, col => if k = col then v else Row.get r col

/-- The text of a cell: `String(row[col] || '')`. -/
def cellText (row : Row) (col : String) : String :=
  ((Row.get row col).or (.str "")).toStr

/-- The number assigned to `maxWidths[col]`: `Math.max` of the length of the
column name and of the length of the cell of every row. -/
def computedWidth (rows : List Row) (col : String) : Nat :=
  (rows.map (fun row => jsLength (cellText row col))).foldl max (jsLength col)

/-- The entry `maxWidths[col]` as `padEnd` and `repeat` read it.  The
assignment stores the number as an own property of the object literal, except
under the name `__proto__`: there it runs the setter inherited from
`Object.prototype`, which ignores a number, and the read gives the prototype
object, which as a target length or as a count is `NaN` and so counts as 0. -/
def maxWidth (rows : List Row) (col : String) : Nat :=
  if col = "__proto__" then 0 else computedWidth rows col

/-- `formatTableResults(rows)`; `none` is a `null` or `undefined` argument. -/
def formatTableResults (rows : Option (List Row)) : String :=
  match rows with
  | none => "No data found"
  | some [] => "No data found"
  | some (first :: more) =>
    let rows := first :: more
    let columns := first.map Prod.fst
    let header := " | ".intercalate (columns.map (fun col => padEnd col (maxWidth rows col)))
    let separator := "-|-".intercalate (columns.map (fun col => dashes (maxWidth rows col)))
    let dataRows := rows.map (fun row =>
      " | ".intercalate (columns.map (fun col => padEnd (cellText row col) (maxWidth rows col))))
    "\n".intercalate (header :: separator :: dataRows)

/-! ## QueryExecutor, SQL variants -/

/-- The result object of a query; a field that the object does not carry is
`undefined` (`none` for `raw`). -/
structure QueryResult where
  type : String
  rowCount : JSVal := .undefined
  changes : JSVal := .undefined
  lastID : JSVal := .undefined
  affectedRows : JSVal := .undefined
  insertId : JSVal := .undefined
  data : String
  raw : Option (List Row) := none
  deriving DecidableEq, Repr

/-- The test `query.trim().toLowerCase().startsWith('select')`. -/
def isSelect (query : String) : Bool :=
  startsWith (toLowerCase (trim query)) "select"

/-- The arguments of `query_sqlite`; `params = none` is an absent `params`. -/
structure SQLiteArgs where
  database_path : String
  query : String
  params : Option (List JSVal)
  deriving DecidableEq, Repr

/-- `QueryExecutor.querySQLite(args)`. -/
def querySQLite (env : Drivers) (now : Int) (args : SQLiteArgs) (w : World) :
    Except JSError QueryResult × World :=
  let params := args.params.getD []
  match getSQLiteConnection env now args.database_path w with
  | (.error err, w1) => (.error err, w1)
  | (.ok db, w1) =>
    if isSelect args.query then
      match env.sqliteAll db args.query params with
      | .error err => (.error err, w1)
      | .ok rows =>
        (.ok { type := "select"
               rowCount := .num rows.length
               data := formatTableResults (some rows)
               raw := some rows }, w1)
    else
      match env.sqliteRun db args.query params with
      | .error err => (.error err, w1)
      | .ok info =>
        (.ok { type := "modify"
               changes := info.changes
               lastID := info.lastID
               data := "Query executed successfully. Changes: " ++ info.changes.toStr ++
                 ", Last ID: " ++ info.lastID.toStr }, w1)

/-- The arguments of `query_postgresql`. -/
structure PgArgs where
  host : JSVal
  port : JSVal
  database : JSVal
  username : JSVal
  password : JSVal
  query : String
  params : Option (List JSVal)
  deriving DecidableEq, Repr

/-- The `config` object that `queryPostgreSQL` builds from its arguments, with
the defaults `'localhost'` and `5432`. -/
def PgArgs.config (args : PgArgs) : SQLConfig :=
  { host := args.host.orDefault (.str "localhost")
    port := args.port.orDefault (.num 5432)
    database := args.database
    user := args.username
    password := args.password }

/-- `QueryExecutor.queryPostgreSQL(args)`: a response with a `rows` property
(an array is truthy, also when empty) is a read result. -/
def queryPostgreSQL (env : Drivers) (now : Int) (args : PgArgs) (w : World) :
    Except JSError QueryResult × World :=
  let params := args.params.getD []
  match getPostgresConnection env now args.config w with
  | (.error err, w1) => (.error err, w1)
  | (.ok client, w1) =>
    match env.pgQuery client args.query params with
    | .error err => (.error err, w1)
    | .ok result =>
      match result.rows with
      | some rows =>
        (.ok { type := "select"
               rowCount := .num rows.length
               data := formatTableResults (some rows)
               raw := some rows }, w1)
      | none =>
        (.ok { type := "modify"
               rowCount := result.rowCount
               data := "Query executed successfully. Rows affected: " ++
                 result.rowCount.toStr }, w1)

/-- The arguments of `query_mysql`. -/
structure MySQLArgs where
  host : JSVal
  port : JSVal
  database : JSVal
  username : JSVal
  password : JSVal
  query : String
  params : Option (List JSVal)
  deriving DecidableEq, Repr

/-- The `config` object that `queryMySQL` builds from its arguments, with the
defaults `'localhost'` and `3306`. -/
def MySQLArgs.config (args : MySQLArgs) : SQLConfig :=
  { host := args.host.orDefault (.str "localhost")
    port := args.port.orDefault (.num 3306)
    database := args.database
    user := args.username
    password := args.password }

/-- `QueryExecutor.queryMySQL(args)`.  The response is a read result when
`Array.isArray(rows) && rows.length > 0 && typeof rows[0] === 'object'`; the
elements of a row array are row objects.  Otherwise `rows.affectedRows` and
`rows.insertId` are read, which an array does not have. -/
def queryMySQL (env : Drivers) (now : Int) (args : MySQLArgs) (w : World) :
    Except JSError QueryResult × World :=
  let params := args.params.getD []
  match getMySQLConnection env now args.config w with
  | (.error err, w1) => (.error err, w1)
  | (.ok connection, w1) =>
    match env.mysqlExecute connection args.query params with
    | .error err => (.error err, w1)
    | .ok (.array (first :: more)) =>
      let rows := first :: more
      (.ok { type := "select"
             rowCount := .num rows.length
             data := formatTableResults (some rows)
             raw := some rows }, w1)
    | .ok (.array []) =>
      (.ok { type := "modify"
             affectedRows := JSVal.undefined.or (.num 0)
             insertId := JSVal.undefined.or .null
             data := "Query executed successfully. Affected rows: " ++
               (JSVal.undefined.or (.num 0)).toStr }, w1)
    | .ok (.header affectedRows insertId) =>
      (.ok { type := "modify"
             affectedRows := affectedRows.or (.num 0)
             insertId := insertId.or .null
             data := "Query executed successfully. Affected rows: " ++
               (affectedRows.or (.num 0)).toStr }, w1)

/-! ## Rendering of documents -/

/-- A hexadecimal digit, lower case. -/
def hexDigit (n : Nat) : Char := if n < 10 then Char.ofNat (48 + n) else Char.ofNat (87 + n)

/-- The escape of one character inside a JSON string literal. -/
def escapeChar (c : Char) : List Char :=
  if c = '"' then ['\\', '"']
  else if c = '\\' then ['\\', '\\']
  else if c.val = 0x08 then ['\\', 'b']
  else if c.val = 0x0C then ['\\', 'f']
  else if c = '\n' then ['\\', 'n']
  else if c = '\r' then ['\\', 'r']
  else if c = '\t' then ['\\', 't']
  else if c.val < 0x20 then
    ['\\', 'u', '0', '0', hexDigit (c.toNat / 16), hexDigit (c.toNat % 16)]
  else [c]

/-- The JSON string literal of a string. -/
def quoteJSON (s : String) : String :=
  "\"" ++ String.mk (s.toList.flatMap escapeChar) ++ "\""

/-- A run of `n` spaces. -/
def spaces (n : Nat) : String := String.mk (List.replicate n ' ')

mutual
/-- `JSON.stringify(value, null, 2)` for a value nested at the given
indentation: an empty array or object is `[]` or `{}`, every other array or
object puts each member on a line of its own, indented by two more spaces. -/
def stringify (indent : Nat) : Json → String
  | .null => "null"
  | .bool true => "true"
  | .bool false => "false"
  | .num n => toString n
  | .str s => quoteJSON s
  | .arr [] => "[]"
  | .arr (x :: xs) =>
    "[\n" ++ spaces (indent + 2) ++ stringify (indent + 2) x ++ stringifyItems (indent + 2) xs ++
      "\n" ++ spaces indent ++ "]"
  | .obj [] => "\x7b\x7d"
  | .obj ((k, v) :: fs) =>
    "\x7b\n" ++ spaces (indent + 2) ++ quoteJSON k ++ ": " ++ stringify (indent + 2) v ++
      stringifyFields (indent + 2) fs ++ "\n" ++ spaces indent ++ "\x7d"
/-- The members of an array after the first. -/
def stringifyItems (indent : Nat) : List Json → String
  | [] => ""
  | x :: xs => ",\n" ++ spaces indent ++ stringify indent x ++ stringifyItems indent xs
/-- The members of an object after the first. -/
def stringifyFields (indent : Nat) : List (String × Json) → String
  | [] => ""
  | (k, v) :: fs =>
    ",\n" ++ spaces indent ++ quoteJSON k ++ ": " ++ stringify indent v ++
      stringifyFields indent fs
end

/-- The blocks of `formatMongoResults`, for the documents from position
`index` on: the template literal of `index + 1` and of
`JSON.stringify(doc, null, 2)`. -/
def documentBlocks (index : Nat) : List Json → List String
  | [] => []
  | doc :: docs =>
    ("Document " ++ toString (index + 1) ++ ":\n" ++ stringify 0 doc) ::
      documentBlocks (index + 1) docs

/-- `formatMongoResults(documents)`; `none` is a `null` or `undefined`
argument. -/
def formatMongoResults (documents : Option (List Json)) : String :=
  match documents with
  | none => "No documents found"
  | some [] => "No documents found"
  | some (first :: more) => "\n\n".intercalate (documentBlocks 0 (first :: more))

/-! ## QueryExecutor, document variant -/

/-- The result object of a document operation; a field that the object does
not carry is `undefined` (`none` for `raw`). -/
structure MongoResult where
  type : String
  count : JSVal := .undefined
  insertedId : JSVal := .undefined
  insertedCount : JSVal := .undefined
  modifiedCount : JSVal := .undefined
  deletedCount : JSVal := .undefined
  data : String
  raw : Option (List Json) := none

/-- The arguments of `query_mongodb`.  `none` is an absent argument; `filter`
and `options` then default to the empty object, and an absent
`force_new_connection` is `false`. -/
structure MongoArgs where
  host : JSVal
  port : JSVal
  database : JSVal
  username : JSVal
  password : JSVal
  collection : String
  operation : String
  filter : Option Json
  document : Option Json
  update : Option Json
  options : Option Json
  force_new_connection : Bool

/-- The `config` object that `queryMongoDB` builds from its arguments, with
the defaults `'localhost'` and `27017`; the credentials go into the URI only
when both are truthy. -/
def MongoArgs.config (args : MongoArgs) : MongoConfig :=
  let host := args.host.orDefault (.str "localhost")
  let port := args.port.orDefault (.num 27017)
  { host := host
    port := port
    database := args.database
    connectionUri := "mongodb://" ++
      (if args.username.truthy && args.password.truthy then
        args.username.toStr ++ ":" ++ args.password.toStr ++ "@" else "") ++
      host.toStr ++ ":" ++ port.toStr }

/-- What a call of `queryMongoDB` amounts to: its result, the state after it,
and the collection methods it called on the backend, in order. -/
structure MongoRun where
  result : Except JSError MongoResult
  world : World
  calls : List String

/-- `QueryExecutor.queryMongoDB(args)`: the `switch` over the operation
name. -/
def queryMongoDB (env : Drivers) (now : Int) (args : MongoArgs) (w : World) : MongoRun :=
  let filter := args.filter.getD (.obj [])
  let options := args.options.getD (.obj [])
  match getMongoConnection env now args.config args.force_new_connection w with
  | (.error err, w1) => { result := .error err, world := w1, calls := [] }
  | (.ok hs, w1) =>
    match args.operation with
    | "find" =>
      match env.mongoFind hs.db args.collection filter options with
      | .error err => { result := .error err, world := w1, calls := ["find"] }
      | .ok result =>
        { result := .ok { type := "find"
                          count := .num result.length
                          data := formatMongoResults (some result)
                          raw := some result }
          world := w1, calls := ["find"] }
    | "insertOne" =>
      match env.mongoInsertOne hs.db args.collection args.document with
      | .error err => { result := .error err, world := w1, calls := ["insertOne"] }
      | .ok insertedId =>
        { result := .ok { type := "insert"
                          insertedId := insertedId
                          data := "Document inserted with ID: " ++ insertedId.toStr }
          world := w1, calls := ["insertOne"] }
    | "insertMany" =>
      match env.mongoInsertMany hs.db args.collection args.document with
      | .error err => { result := .error err, world := w1, calls := ["insertMany"] }
      | .ok insertedCount =>
        { result := .ok { type := "insert"
                          insertedCount := insertedCount
                          data := insertedCount.toStr ++ " documents inserted" }
          world := w1, calls := ["insertMany"] }
    | "updateOne" =>
      match env.mongoUpdateOne hs.db args.collection filter args.update options with
      | .error err => { result := .error err, world := w1, calls := ["updateOne"] }
      | .ok modifiedCount =>
        { result := .ok { type := "update"
                          modifiedCount := modifiedCount
                          data := modifiedCount.toStr ++ " document(s) updated" }
          world := w1, calls := ["updateOne"] }
    | "deleteOne" =>
      match env.mongoDeleteOne hs.db args.collection filter with
      | .error err => { result := .error err, world := w1, calls := ["deleteOne"] }
      | .ok deletedCount =>
        { result := .ok { type := "delete"
                          deletedCount := deletedCount
                          data := deletedCount.toStr ++ " document(s) deleted" }
          world := w1, calls := ["deleteOne"] }
    | "aggregate" =>
      match env.mongoAggregate hs.db args.collection filter with
      | .error err => { result := .error err, world := w1, calls := ["aggregate"] }
      | .ok result =>
        { result := .ok { type := "aggregate"
                          count := .num result.length
                          data := formatMongoResults (some result)
                          raw := some result }
          world := w1, calls := ["aggregate"] }
    | operation =>
      { result := .error { message := "Unsupported operation: " ++ operation }
        world := w1, calls := [] }

/-! ## The query tools of the dispatcher -/

/-- The count shown by `query_sqlite`: `result.rowCount || result.changes || 0`. -/
def QueryResult.sqliteShown (result : QueryResult) : JSVal :=
  (result.rowCount.or result.changes).or (.num 0)

/-- The count shown by `query_postgresql`: `result.rowCount || 0`. -/
def QueryResult.postgresShown (result : QueryResult) : JSVal :=
  result.rowCount.or (.num 0)

/-- The count shown by `query_mysql`:
`result.rowCount || result.affectedRows || 0`. -/
def QueryResult.mysqlShown (result : QueryResult) : JSVal :=
  (result.rowCount.or result.affectedRows).or (.num 0)

/-- The count shown by `query_mongodb`: `result.count || result.insertedCount
|| result.modifiedCount || result.deletedCount || 0`. -/
def MongoResult.shown (result : MongoResult) : JSVal :=
  ((((result.count.or result.insertedCount).or result.modifiedCount).or
    result.deletedCount).or (.num 0))

/-- The text of a successful query tool. -/
def queryText (title data kind label : String) (shown : JSVal) : String :=
  "📊 " ++ title ++ ":\n\n" ++ data ++ "\n\n💡 " ++ kind ++ " | " ++ label ++ ": " ++
    shown.toStr

/-- The `query_sqlite` case of the tool dispatcher. -/
def query_sqlite (env : Drivers) (now : Int) (args : SQLiteArgs) (w : World) :
    ToolResponse × World :=
  match querySQLite env now args w with
  | (.error err, w1) => (errorResponse "query_sqlite" err, w1)
  | (.ok result, w1) =>
    ({ text := queryText "SQLite Query Result" result.data ("Type: " ++ result.type) "Rows"
         result.sqliteShown
       isError := false }, w1)

/-- The `query_postgresql` case of the tool dispatcher. -/
def query_postgresql (env : Drivers) (now : Int) (args : PgArgs) (w : World) :
    ToolResponse × World :=
  match queryPostgreSQL env now args w with
  | (.error err, w1) => (errorResponse "query_postgresql" err, w1)
  | (.ok result, w1) =>
    ({ text := queryText "PostgreSQL Query Result" result.data ("Type: " ++ result.type) "Rows"
         result.postgresShown
       isError := false }, w1)

/-- The `query_mysql` case of the tool dispatcher. -/
def query_mysql (env : Drivers) (now : Int) (args : MySQLArgs) (w : World) :
    ToolResponse × World :=
  match queryMySQL env now args w with
  | (.error err, w1) => (errorResponse "query_mysql" err, w1)
  | (.ok result, w1) =>
    ({ text := queryText "MySQL Query Result" result.data ("Type: " ++ result.type) "Rows"
         result.mysqlShown
       isError := false }, w1)

/-- The `query_mongodb` case of the tool dispatcher. -/
def query_mongodb (env : Drivers) (now : Int) (args : MongoArgs) (w : World) :
    ToolResponse × World :=
  let run := queryMongoDB env now args w
  match run.result with
  | .error err => (errorResponse "query_mongodb" err, run.world)
  | .ok result =>
    ({ text := queryText "MongoDB Operation Result" result.data
         ("Operation: " ++ result.type) "Count" result.shown
       isError := false }, run.world)

/-! ## The specification's reading of the read/write classification -/

/-- The leading token of a query in the words of the specification: the query
is trimmed and lower-cased, and the token runs up to the first white space. -/
def specLeadingToken (query : String) : String :=
  String.mk ((toLowerCase (trim query)).toList.takeWhile (fun c => !isTrimmed c))

/-- The classification in the words of the specification: a query is a read
when its leading token is the keyword `select`. -/
def specIsRead (query : String) : Bool := specLeadingToken query = "select"

/-! ## Vocabulary for the bulk forms of `close_connections` -/

/-- The objects on which the entries of one map are closed, in map order. -/
def Connections.handlesOf (c : Connections) : DbType → List Handle
  | .sqlite => c.sqlite.map (fun p => p.2.db)
  | .postgres => c.postgres.map (fun p => p.2.client)
  | .mongodb => c.mongodb.map (fun p => p.2.client)
  | .mysql => c.mysql.map (fun p => p.2.connection)

/-- The registry with one map emptied and the other three as they are. -/
def Connections.cleared (c : Connections) : DbType → Connections
  | .sqlite => { c with sqlite := [] }
  | .postgres => { c with postgres := [] }
  | .mongodb => { c with mongodb := [] }
  | .mysql => { c with mysql := [] }

/-- The number of close calls, among those on the given objects, that do not
throw. -/
def closedCount (env : Drivers) (hs : List Handle) : Nat :=
  hs.countP (fun h => !env.closeRaises h)

/-! ## Sample drivers and states -/

/-- Backends on which every handshake, close and query succeeds. -/
def Drivers.quiet : Drivers :=
  { connectError := fun _ => none
    closeRaises := fun _ => false
    sqliteAll := fun _ _ _ => .ok []
    sqliteRun := fun _ _ _ => .ok { changes := .num 0, lastID := .num 0 }
    pgQuery := fun _ _ _ => .ok { rows := some [], rowCount := .num 0 }
    mysqlExecute := fun _ _ _ => .ok (.array [])
    mongoFind := fun _ _ _ _ => .ok []
    mongoInsertOne := fun _ _ _ => .ok (.str "65f0c0ffee")
    mongoInsertMany := fun _ _ _ => .ok (.num 0)
    mongoUpdateOne := fun _ _ _ _ _ => .ok (.num 0)
    mongoDeleteOne := fun _ _ _ => .ok (.num 0)
    mongoAggregate := fun _ _ _ => .ok [] }

/-- Backends that refuse every handshake and whose every close throws. -/
def Drivers.hostile : Drivers :=
  { Drivers.quiet with
    connectError := fun _ => some { message := "ECONNREFUSED" }
    closeRaises := fun _ => true }

/-- A registry holding one SQLite connection, opened for `a.db` at time `0`. -/
def World.oneSQLite : World :=
  { World.init with
    connections := { World.init.connections with sqlite := [("a.db", { db := 0, lastUsed := 0 })] }
    nextHandle := 1
    connectLog := [0] }

/-- A registry holding two SQLite connections, the older one last used at
time `0`, the other at time `200000`. -/
def World.twoSQLite : World :=
  { World.init with
    connections := { World.init.connections with
      sqlite := [("a.db", { db := 0, lastUsed := 0 }), ("b.db", { db := 1, lastUsed := 200000 })] }
    nextHandle := 2
    connectLog := [0, 1] }

/-- Backends like `Drivers.quiet`, except that PostgreSQL answers every query
the way it answers a statement that changed three rows: an empty `rows` array
and `rowCount` 3. -/
def Drivers.pgWrote3 : Drivers :=
  { Drivers.quiet with pgQuery := fun _ _ _ => .ok { rows := some [], rowCount := .num 3 } }

/-- Arguments of `query_mysql` and `query_postgresql` with only the database,
the credentials and the query given. -/
def sampleSQLArgs (query : String) : PgArgs :=
  { host := .undefined, port := .undefined, database := .str "shop", username := .str "app"
    password := .str "secret", query := query, params := none }

/-- The same arguments for `query_mysql`. -/
def sampleMySQLArgs (query : String) : MySQLArgs :=
  { host := .undefined, port := .undefined, database := .str "shop", username := .str "app"
    password := .str "secret", query := query, params := none }

/-- Arguments of `query_mongodb` for an operation on the collection `items`,
with the document `{a: 1}`. -/
def sampleMongoArgs (operation : String) : MongoArgs :=
  { host := .undefined, port := .undefined, database := .str "shop", username := .undefined
    password := .undefined, collection := "items", operation := operation, filter := none
    document := some (.obj [("a", .num 1)]), update := none, options := none
    force_new_connection := false }

/-- The operation names of the `switch` of `queryMongoDB`. -/
def mongoOperations : List String :=
  ["find", "insertOne", "insertMany", "updateOne", "deleteOne", "aggregate"]

/-- The backend call that the operation name of a request selects, made on the
`Db` object with the arguments of the request, succeeds.  Nothing is asked of
any other call, and nothing at all for a name that selects no call. -/
def Drivers.mongoCallSucceeds (env : Drivers) (db : Handle) (args : MongoArgs) : Prop :=
  (args.operation = "find" →
    ∃ r, env.mongoFind db args.collection (args.filter.getD (.obj []))
      (args.options.getD (.obj [])) = .ok r) ∧
  (args.operation = "insertOne" →
    ∃ r, env.mongoInsertOne db args.collection args.document = .ok r) ∧
  (args.operation = "insertMany" →
    ∃ r, env.mongoInsertMany db args.collection args.document = .ok r) ∧
  (args.operation = "updateOne" →
    ∃ r, env.mongoUpdateOne db args.collection (args.filter.getD (.obj [])) args.update
      (args.options.getD (.obj [])) = .ok r) ∧
  (args.operation = "deleteOne" →
    ∃ r, env.mongoDeleteOne db args.collection (args.filter.getD (.obj [])) = .ok r) ∧
  (args.operation = "aggregate" →
    ∃ r, env.mongoAggregate db args.collection (args.filter.getD (.obj [])) = .ok r)

/-- Backends like `Drivers.quiet`, except that the document store rejects what
its driver rejects: `insertMany` of anything but an array of documents, and
`aggregate` of anything but an array of stages. -/
def Drivers.arrayChecking : Drivers :=
  { Drivers.quiet with
    mongoInsertMany := fun _ _ document =>
      match document with
      | some (.arr docs) => .ok (.num docs.length)
      | _ => .error { message := "Argument \"docs\" must be an array of documents" }
    mongoAggregate := fun _ _ pipeline =>
      match pipeline with
      | .arr _ => .ok []
      | _ => .error { message := "Argument \"pipeline\" must be an array" } }

/-! ## The lines of a rendered table -/

/-- The line `header` of `formatTableResults`, for the given rows and columns. -/
def tableHeader (rows : List Row) (columns : List String) : String :=
  " | ".intercalate (columns.map (fun col => padEnd col (maxWidth rows col)))

/-- The line `separator` of `formatTableResults`. -/
def tableSeparator (rows : List Row) (columns : List String) : String :=
  "-|-".intercalate (columns.map (fun col => dashes (maxWidth rows col)))

/-- The element of `dataRows` of `formatTableResults` for one row. -/
def tableDataRow (rows : List Row) (columns : List String) (row : Row) : String :=
  " | ".intercalate (columns.map (fun col => padEnd (cellText row col) (maxWidth rows col)))

/-! ## Vocabulary for the columns of a rendered table -/

/-- A record cut down to the properties whose keys are among the given ones. -/
def Row.restrict (keys : List String) (row : Row) : Row :=
  row.filter (fun p => decide (p.1 ∈ keys))

/-! ## An acquisition in its two steps -/

/-- Where an acquisition stands after its first step: finished, with a
registered connection, or suspended at the `await` of the handshake that it
started on a new driver object. -/
inductive AcquireStep where
  | done (a : Acquired)
  | waiting (h : Handle)
  deriving DecidableEq, Repr

/-- The first step of an acquisition, up to its `await`: a registered key
(unless `forceNew` is set) refreshes `lastUsed` and finishes; otherwise the
driver object is created and its handshake is started.  Other requests may run
before the second step. -/
def acquireBegin (now : Int) (req : AcquireReq) (w : World) : AcquireStep × World :=
  match req with
  | .sqlite dbPath =>
    match JSMap.get w.connections.sqlite dbPath with
    | some conn =>
      (.done (.handle conn.db), { w with connections := { w.connections with
          sqlite := JSMap.set w.connections.sqlite dbPath { conn with lastUsed := now } } })
    | none => (.waiting w.nextHandle, w.startConnect)
  | .postgres config =>
    match JSMap.get w.connections.postgres (sqlConnId config) with
    | some conn =>
      (.done (.handle conn.client), { w with connections := { w.connections with
          postgres := JSMap.set w.connections.postgres (sqlConnId config)
            { conn with lastUsed := now } } })
    | none => (.waiting w.nextHandle, w.startConnect)
  | .mongodb config forceNew =>
    match (if forceNew then none else JSMap.get w.connections.mongodb (mongoConnId config)) with
    | some conn =>
      (.done (.mongo { client := conn.client, db := conn.db }),
        { w with connections := { w.connections with
          mongodb := JSMap.set w.connections.mongodb (mongoConnId config)
            { conn with lastUsed := now } } })
    | none => (.waiting w.nextHandle, w.startConnect)
  | .mysql config =>
    match JSMap.get w.connections.mysql (sqlConnId config) with
    | some conn =>
      (.done (.handle conn.connection), { w with connections := { w.connections with
          mysql := JSMap.set w.connections.mysql (sqlConnId config)
            { conn with lastUsed := now } } })
    | none => (.waiting w.nextHandle, w.startConnect)

/-- The second step of an acquisition, run when the handshake on the driver
object `h` has answered: a failure is thrown, a success is registered under
the key with `lastUsed = Date.now()` and returned.  The registry is not read
again. -/
def acquireResume (env : Drivers) (now : Int) (req : AcquireReq) (h : Handle) (w : World) :
    Except JSError Acquired × World :=
  match env.connectError h with
  | some err => (.error err, w)
  | none =>
    match req with
    | .sqlite dbPath =>
      (.ok (.handle h), { w with connections := { w.connections with
          sqlite := JSMap.set w.connections.sqlite dbPath { db := h, lastUsed := now } } })
    | .postgres config =>
      (.ok (.handle h), { w with connections := { w.connections with
          postgres := JSMap.set w.connections.postgres (sqlConnId config)
            { client := h, config := config, lastUsed := now } } })
    | .mongodb config _ =>
      let db := w.nextHandle
      let w2 := { w with nextHandle := w.nextHandle + 1 }
      (.ok (.mongo { client := h, db := db }), { w2 with connections := { w2.connections with
          mongodb := JSMap.set w2.connections.mongodb (mongoConnId config)
            { client := h, db := db, config := config, lastUsed := now } } })
    | .mysql config =>
      (.ok (.handle h), { w with connections := { w.connections with
          mysql := JSMap.set w.connections.mysql (sqlConnId config)
            { connection := h, config := config, lastUsed := now } } })

/-- An acquisition run without interruption: the two steps one after the
other. -/
def acquireSteps (env : Drivers) (now : Int) (req : AcquireReq) (w : World) :
    Except JSError Acquired × World :=
  match acquireBegin now req w with
  | (.done a, w1) => (.ok a, w1)
  | (.waiting h, w1) => acquireResume env now req h w1

/-- Two acquisitions of which the second starts while the first is suspended:
first step of the first, first step of the second, then the second steps in
the same order.  The result is what each caller receives and the final
state; a caller that finished in its first step has nothing to resume. -/
def acquireInterleaved (env : Drivers) (now : Int) (reqA reqB : AcquireReq) (w : World) :
    (Except JSError Acquired × Except JSError Acquired) × World :=
  match acquireBegin now reqA w with
  | (.done a, w1) =>
    let rb := acquireSteps env now reqB w1
    ((.ok a, rb.1), rb.2)
  | (.waiting ha, w1) =>
    match acquireBegin now reqB w1 with
    | (.done b, w2) =>
      let ra := acquireResume env now reqA ha w2
      ((ra.1, .ok b), ra.2)
    | (.waiting hb, w2) =>
      let ra := acquireResume env now reqA ha w2
      let rb := acquireResume env now reqB hb ra.2
      ((ra.1, rb.1), rb.2)

/-! ## DatabaseCreator, document variant -/

/-- `s.includes(sub)`. -/
def includes (s sub : String) : Bool :=
  s.toList.tails.any (fun t => sub.toList.isPrefixOf t)

/-- The arguments of `create_mongodb_database`.  `host`, `port` and
`connection_string` are any value; `initial_collections`, `overwrite`,
`open_tool` and `force_new_connection` are given after their destructuring
defaults `[]`, `false`, `true` and `false`; `sample_data` is the list of
`Object.entries` of the object, `none` when absent; `description` is a string,
`none` when absent. -/
structure CreateMongoArgs where
  database_name : JSVal
  connection_string : JSVal
  host : JSVal
  port : JSVal
  username : JSVal
  password : JSVal
  initial_collections : List String
  sample_data : Option (List (String × Json))
  overwrite : Bool
  description : Option String
  open_tool : Bool
  force_new_connection : Bool

/-- The `connectionUri` of `createMongoDatabase`: the given connection string
when it is truthy, else the URI built from host, port and credentials. -/
def CreateMongoArgs.connectionUri (args : CreateMongoArgs) : String :=
  let host := args.host.orDefault (.str "localhost")
  let port := args.port.orDefault (.num 27017)
  (args.connection_string.or (.str ("mongodb://" ++
      (if args.username.truthy && args.password.truthy then
        args.username.toStr ++ ":" ++ args.password.toStr ++ "@" else "") ++
      host.toStr ++ ":" ++ port.toStr))).toStr

/-- The `config` object of `createMongoDatabase`. -/
def CreateMongoArgs.config (args : CreateMongoArgs) : MongoConfig :=
  { host := args.host.orDefault (.str "localhost")
    port := args.port.orDefault (.num 27017)
    database := args.database_name
    connectionUri := args.connectionUri }

/-- The answers of the backend to the administrative calls of
`createMongoDatabase`: the database names of `admin.listDatabases()` on a
client, `db.dropDatabase()` and `db.createCollection(name)` on a `Db` object
(`some` is the error thrown), the error a throwing `close()` throws, and the
error of `openMongoTool`, if it fails. -/
structure AdminDrivers where
  listDatabases : Handle → Except JSError (List String)
  dropDatabase : Handle → Option JSError
  createCollection : Handle → String → Option JSError
  closeError : Handle → JSError
  openMongoTool : Option JSError

/-- The collections created for a description that mentions a school. -/
def schoolCollections : List String := ["students", "teachers", "classes", "enrollments"]

/-- The sample documents inserted for a description that mentions a school. -/
def schoolData : List (String × Json) :=
  [("students", .arr
      [.obj [("firstName", .str "Alice"), ("lastName", .str "Wilson"), ("gradeLevel", .num 10),
             ("email", .str "alice@school.edu")],
       .obj [("firstName", .str "Bob"), ("lastName", .str "Davis"), ("gradeLevel", .num 10),
             ("email", .str "bob@school.edu")]]),
   ("teachers", .arr
      [.obj [("firstName", .str "John"), ("lastName", .str "Smith"),
             ("subject", .str "Mathematics"), ("email", .str "j.smith@school.edu")]])]

/-- The variables `collections` and `data` of `createMongoDatabase` when the
creation loop starts. -/
def CreateMongoArgs.plan (args : CreateMongoArgs) :
    List String × Option (List (String × Json)) :=
  if argTruthy args.description && args.initial_collections.length == 0 then
    if includes (toLowerCase (args.description.getD "")) "school" then
      (schoolCollections, some schoolData)
    else (args.initial_collections, args.sample_data)
  else (args.initial_collections, args.sample_data)

/-- The loop `for (const collectionName of collections) await
db.createCollection(collectionName)`: the first error ends it. -/
def createCollections (adm : AdminDrivers) (db : Handle) : List String → Option JSError
  | [] => none
  | name :: rest =>
    match adm.createCollection db name with
    | some err => some err
    | none => createCollections adm db rest

/-- The loop over `Object.entries(data)` calling `insertMany`: the first error
ends it. -/
def insertSamples (env : Drivers) (db : Handle) : List (String × Json) → Option JSError
  | [] => none
  | (name, documents) :: rest =>
    match env.mongoInsertMany db name (some documents) with
    | .error err => some err
    | .ok _ => insertSamples env db rest

/-- What `openDatabaseTool('mongodb', ...)` resolves to; it catches the error
of the opener itself. -/
def openDatabaseToolMongo (adm : AdminDrivers) : String :=
  match adm.openMongoTool with
  | none => "Attempting to open mongodb management tool..."
  | some err => "Could not open mongodb tool: " ++ err.message

/-- The text `createMongoDatabase` returns after a creation. -/
def createdMongoText (adm : AdminDrivers) (args : CreateMongoArgs) : String :=
  let result := "🎉 MongoDB database created successfully!\n" ++
    "📍 Connection: " ++ args.connectionUri ++ "\n" ++
    "🗄️ Database: " ++ args.database_name.toStr ++ "\n" ++
    "📊 Collections: " ++ toString args.plan.1.length ++ "\n" ++
    "📝 Sample Data: " ++ (if args.plan.2.isSome then "Inserted" else "None") ++ "\n" ++
    "🤖 Generated from description: " ++ (if argTruthy args.description then "Yes" else "No")
  if args.open_tool then result ++ "\n🔧 " ++ openDatabaseToolMongo adm else result

/-- The text `createMongoDatabase` returns when the database exists and
`overwrite` is not set. -/
def existsMongoText (args : CreateMongoArgs) : String :=
  "❌ MongoDB database '" ++ args.database_name.toStr ++
    "' already exists. Use overwrite: true to replace it."

/-- A statement `await client.close()` followed by `return text`: the call is
recorded; when it throws, its error is thrown instead. -/
def closeThenReturn (env : Drivers) (adm : AdminDrivers) (client : Handle) (text : String)
    (w : World) : Except JSError String × World :=
  match closeHandle env client w.closeLog with
  | (true, log) => (.error (adm.closeError client), { w with closeLog := log })
  | (false, log) => (.ok text, { w with closeLog := log })

/-- The `try` block of `createMongoDatabase`, on the client and `Db` object it
obtained. -/
def createMongoTry (env : Drivers) (adm : AdminDrivers) (args : CreateMongoArgs)
    (hs : MongoHandles) (w : World) : Except JSError String × World :=
  match adm.listDatabases hs.client with
  | .error err => (.error err, w)
  | .ok names =>
    let dbExists := names.any (fun name => decide (JSVal.str name = args.database_name))
    if dbExists && !args.overwrite then
      closeThenReturn env adm hs.client (existsMongoText args) w
    else
      match (if dbExists && args.overwrite then adm.dropDatabase hs.db else none) with
      | some err => (.error err, w)
      | none =>
        match createCollections adm hs.db args.plan.1 with
        | some err => (.error err, w)
        | none =>
          match insertSamples env hs.db (args.plan.2.getD []) with
          | some err => (.error err, w)
          | none => closeThenReturn env adm hs.client (createdMongoText adm args) w

/-- `DatabaseCreator.createMongoDatabase(args)`.  The connection comes from
`ConnectionManager.getMongoConnection`, outside the `try`; the `catch` closes
the client again and rethrows, unless that close throws itself. -/
def createMongoDatabase (env : Drivers) (adm : AdminDrivers) (now : Int)
    (args : CreateMongoArgs) (w : World) : Except JSError String × World :=
  match getMongoConnection env now args.config args.force_new_connection w with
  | (.error err, w1) => (.error err, w1)
  | (.ok hs, w1) =>
    match createMongoTry env adm args hs w1 with
    | (.ok text, w2) => (.ok text, w2)
    | (.error err, w2) =>
      match closeHandle env hs.client w2.closeLog with
      | (true, log) => (.error (adm.closeError hs.client), { w2 with closeLog := log })
      | (false, log) => (.error err, { w2 with closeLog := log })

/-! ## Live connections -/

/-- A driver object is live in a state: its handshake was started and
succeeded, and no `close()`/`end()` call on it has returned normally. -/
def World.Live (env : Drivers) (w : World) (h : Handle) : Prop :=
  h ∈ w.connectLog ∧ env.connectError h = none ∧
    ¬ (h ∈ w.closeLog ∧ env.closeRaises h = false)

instance (env : Drivers) (w : World) (h : Handle) : Decidable (w.Live env h) := by
  unfold World.Live; infer_instance

/-- Every entry of the registry carries a live driver object. -/
def World.RegistryLive (env : Drivers) (w : World) : Prop :=
  ∀ h ∈ w.connections.handles, w.Live env h

instance (env : Drivers) (w : World) : Decidable (w.RegistryLive env) := by
  unfold World.RegistryLive; infer_instance

/-- The invariant that carries liveness through the operations: the registry
is well formed, every close call was made on a driver object allocated
earlier, and every entry is live. -/
def World.Sound (env : Drivers) (w : World) : Prop :=
  w.WF ∧ (∀ h ∈ w.closeLog, h < w.nextHandle) ∧ w.RegistryLive env

instance (env : Drivers) (w : World) : Decidable (w.Sound env) := by
  unfold World.Sound; infer_instance

/-- A backend of the administrative calls on which everything succeeds; the
databases `admin` and `local` exist. -/
def AdminDrivers.quiet : AdminDrivers :=
  { listDatabases := fun _ => .ok ["admin", "local"]
    dropDatabase := fun _ => none
    createCollection := fun _ _ => none
    closeError := fun _ => { message := "close failed" }
    openMongoTool := none }

/-- Arguments of `create_mongodb_database` with only the database name and one
collection given. -/
def sampleCreateMongoArgs : CreateMongoArgs :=
  { database_name := .str "shop", connection_string := .undefined, host := .undefined
    port := .undefined, username := .undefined, password := .undefined
    initial_collections := ["items"], sample_data := none, overwrite := false
    description := none, open_tool := false, force_new_connection := false }

/-! ## Properties of the `Map` operations -/

namespace JSMap

variable {α : Type}

theorem get_set_self (m : JSMap α) (k : String) (v : α) : get (set m k v) k = some v := by
  induction m with
  | nil => simp [set, get]
  | cons p m ih =>
    obtain ⟨k', v'⟩ := p
    by_cases h : k' = k
    · simp [set, get, h]
    · simp [set, get, h, ih]

theorem get_set_ne (m : JSMap α) (k k' : String) (v : α) (h : k ≠ k') :
    get (set m k v) k' = get m k' := by
  induction m with
  | nil => simp [set, get, h]
  | cons p m ih =>
    obtain ⟨k0, v0⟩ := p
    by_cases h0 : k0 = k
    · subst h0; simp [set, get, h]
    · by_cases h1 : k0 = k'
      · subst h1; simp [set, get, h0]
      · simp [set, get, h0, h1, ih]

theorem mem_of_get {m : JSMap α} {k : String} {v : α} (h : get m k = some v) : (k, v) ∈ m := by
  induction m with
  | nil => simp [get] at h
  | cons p m ih =>
    obtain ⟨k0, v0⟩ := p
    by_cases h0 : k0 = k
    · simp [get, h0] at h; simp [h0, h]
    · simp [get, h0] at h; exact List.mem_cons_of_mem _ (ih h)

theorem get_eq_none_iff (m : JSMap α) (k : String) : get m k = none ↔ k ∉ m.map Prod.fst := by
  induction m with
  | nil => simp [get]
  | cons p m ih =>
    obtain ⟨k0, v0⟩ := p
    by_cases h0 : k0 = k
    · simp [get, h0]
    · simp only [get, h0, if_false, ih, List.map_cons, List.mem_cons]
      constructor
      · intro h1 h2; rcases h2 with h2 | h2
        · exact h0 h2.symm
        · exact h1 h2
      · intro h1 h2; exact h1 (Or.inr h2)

theorem get_of_mem {m : JSMap α} (hm : KeysNodup m) {k : String} {v : α} (h : (k, v) ∈ m) :
    get m k = some v := by
  induction m with
  | nil => simp at h
  | cons p m ih =>
    obtain ⟨k0, v0⟩ := p
    have hm' : k0 ∉ m.map Prod.fst ∧ KeysNodup m := by
      simpa [KeysNodup] using hm
    rcases List.mem_cons.1 h with h1 | h1
    · cases h1; simp [get]
    · have hk : k0 ≠ k := by
        intro e; subst e
        exact hm'.1 (List.mem_map.2 ⟨(k0, v), h1, rfl⟩)
      simp [get, hk, ih hm'.2 h1]

theorem keys_set (m : JSMap α) (k : String) (v : α) :
    (set m k v).map Prod.fst = if k ∈ m.map Prod.fst then m.map Prod.fst else m.map Prod.fst ++ [k] := by
  induction m with
  | nil => simp [set]
  | cons p m ih =>
    obtain ⟨k0, v0⟩ := p
    by_cases h0 : k0 = k
    · simp [set, h0]
    · have h0' : ¬ k = k0 := fun e => h0 e.symm
      simp only [set, h0, if_false, List.map_cons, ih, List.mem_cons, h0', false_or]
      split <;> simp

theorem keysNodup_set {m : JSMap α} (hm : KeysNodup m) (k : String) (v : α) :
    KeysNodup (set m k v) := by
  unfold KeysNodup at *
  rw [keys_set]
  split
  · exact hm
  · rename_i h
    exact List.Nodup.append hm (List.nodup_singleton k) (by simpa using h)

theorem delete_append_cons (pre rest : JSMap α) (k : String) (v : α)
    (h : k ∉ pre.map Prod.fst) : delete (pre ++ (k, v) :: rest) k = pre ++ rest := by
  induction pre with
  | nil => simp [delete]
  | cons p pre ih =>
    obtain ⟨k0, v0⟩ := p
    have h' : ¬ k = k0 ∧ k ∉ pre.map Prod.fst := by simpa using h
    have h0 : ¬ k0 = k := fun e => h'.1 e.symm
    simp [delete, h0, ih h'.2]

theorem map_set_of_get {β : Type} (f : α → β) {m : JSMap α} {k : String} {conn v : α}
    (hg : get m k = some conn) (hv : f v = f conn) :
    (set m k v).map (fun p => f p.2) = m.map (fun p => f p.2) := by
  induction m with
  | nil => simp [get] at hg
  | cons p m ih =>
    obtain ⟨k0, v0⟩ := p
    by_cases h0 : k0 = k
    · simp [get, h0] at hg
      simp [set, h0, hv, hg]
    · simp [get, h0] at hg
      simp [set, h0, ih hg]

theorem keysNodup_filter {m : JSMap α} (hm : KeysNodup m) (q : String × α → Bool) :
    KeysNodup (m.filter q) := by
  unfold KeysNodup at *
  exact List.Nodup.sublist (List.Sublist.map _ (List.filter_sublist m)) hm

theorem get_filter_none {m : JSMap α} (hm : KeysNodup m) (q : String × α → Bool) {k : String}
    {e : α} (hg : get m k = some e) (hq : q (k, e) = false) : get (m.filter q) k = none := by
  rw [get_eq_none_iff]
  intro hk
  obtain ⟨p, hp, hpk⟩ := List.mem_map.1 hk
  obtain ⟨k', e'⟩ := p
  simp only at hpk
  subst hpk
  have hp' := List.mem_filter.1 hp
  have := get_of_mem hm hp'.1
  rw [hg] at this
  cases this
  rw [hq] at hp'
  exact Bool.false_ne_true hp'.2

theorem get_filter_some {m : JSMap α} (hm : KeysNodup m) (q : String × α → Bool) {k : String}
    {e : α} (hg : get m k = some e) (hq : q (k, e) = true) : get (m.filter q) k = some e :=
  get_of_mem (keysNodup_filter hm q) (List.mem_filter.2 ⟨mem_of_get hg, hq⟩)

end JSMap

/-! ## Properties of the sweeper loop -/

theorem sweepMap_eq {α : Type} (env : Drivers) (handle : α → Handle) (lastUsed : α → Int)
    (now : Int) (es pre : JSMap α) (log : List Handle) (h : JSMap.KeysNodup (pre ++ es)) :
    sweepMap env handle lastUsed now es (pre ++ es, log) =
      (pre ++ es.filter (fun p => decide (now - lastUsed p.2 ≤ 300000)),
       log ++ (es.filter (fun p => decide (now - lastUsed p.2 > 300000))).map
         (fun p => handle p.2)) := by
  induction es generalizing pre log with
  | nil => simp [sweepMap]
  | cons p es ih =>
    obtain ⟨id, conn⟩ := p
    have hk : id ∉ pre.map Prod.fst := by
      have h1 : (pre.map Prod.fst ++ id :: es.map Prod.fst).Nodup := by
        simpa [JSMap.KeysNodup] using h
      intro hmem
      exact (List.nodup_append.1 h1).2.2 hmem (List.mem_cons_self _ _)
    have ht : timeout = 300000 := by norm_num [timeout]
    by_cases hx : now - lastUsed conn > 300000
    · have e1 : decide (now - lastUsed conn ≤ 300000) = false := decide_eq_false (by omega)
      have e2 : decide (now - lastUsed conn > 300000) = true := decide_eq_true hx
      have h2 : JSMap.KeysNodup (pre ++ es) := by
        have h1 : (pre.map Prod.fst ++ id :: es.map Prod.fst).Nodup := by
          simpa [JSMap.KeysNodup] using h
        have h3 := List.Nodup.sublist
          (List.Sublist.append_left (List.sublist_cons_self id (es.map Prod.fst))
            (pre.map Prod.fst)) h1
        simpa [JSMap.KeysNodup] using h3
      have hdel := JSMap.delete_append_cons pre es id conn hk
      have ih' := ih pre (log ++ [handle conn]) h2
      rw [sweepMap, ht, if_pos hx]
      cases hc : env.closeRaises (handle conn) <;>
        simp only [closeHandle, hc, hdel, ih', List.filter_cons, e1, e2, List.map_cons,
          List.append_assoc, List.singleton_append, Bool.false_eq_true, if_true, if_false]
    · have e1 : decide (now - lastUsed conn ≤ 300000) = true := decide_eq_true (by omega)
      have e2 : decide (now - lastUsed conn > 300000) = false := decide_eq_false hx
      have h2 : JSMap.KeysNodup ((pre ++ [(id, conn)]) ++ es) := by
        simpa using h
      have ih' := ih (pre ++ [(id, conn)]) log h2
      simp only [List.append_assoc, List.singleton_append] at ih'
      rw [sweepMap, ht, if_neg hx, ih']
      simp only [List.filter_cons, e1, e2, Bool.false_eq_true, if_true, if_false]

theorem sweepMap_self {α : Type} (env : Drivers) (handle : α → Handle) (lastUsed : α → Int)
    (now : Int) (m : JSMap α) (log : List Handle) (h : JSMap.KeysNodup m) :
    sweepMap env handle lastUsed now m (m, log) =
      (m.filter (fun p => decide (now - lastUsed p.2 ≤ 300000)),
       log ++ (m.filter (fun p => decide (now - lastUsed p.2 > 300000))).map
         (fun p => handle p.2)) := by
  simpa using sweepMap_eq env handle lastUsed now m [] log (by simpa using h)

theorem sweeper_eq (env : Drivers) (now : Int) (w : World) (h : w.connections.KeysNodup) :
    sweeper env now w =
      { w with
        connections :=
          { sqlite := w.connections.sqlite.filter
              (fun p => decide (now - p.2.lastUsed ≤ 300000))
            postgres := w.connections.postgres.filter
              (fun p => decide (now - p.2.lastUsed ≤ 300000))
            mongodb := w.connections.mongodb.filter
              (fun p => decide (now - p.2.lastUsed ≤ 300000))
            mysql := w.connections.mysql.filter
              (fun p => decide (now - p.2.lastUsed ≤ 300000)) }
        closeLog := w.closeLog ++
          (w.connections.stamps.filter (fun s => decide (now - s.2 > 300000))).map Prod.fst } := by
  obtain ⟨h1, h2, h3, h4⟩ := h
  simp only [sweeper, sweepMap_self _ _ _ _ _ _ h1, sweepMap_self _ _ _ _ _ _ h2,
    sweepMap_self _ _ _ _ _ _ h3, sweepMap_self _ _ _ _ _ _ h4, Connections.stamps,
    List.filter_append, List.map_append, List.filter_map, List.map_map, List.append_assoc]
  rfl

theorem sweeper_lookup_recent (env : Drivers) (now : Int) (w : World) (t : DbType) (k : String)
    (h : Handle) (lu : Int) (hk : w.connections.KeysNodup)
    (hl : w.connections.lookup t k = some (h, lu)) (hx : now - lu ≤ 300000) :
    (sweeper env now w).connections.lookup t k = some (h, lu) := by
  rw [sweeper_eq env now w hk]
  cases t with
  | sqlite =>
    simp only [Connections.lookup] at hl ⊢
    cases hg : JSMap.get w.connections.sqlite k with
    | none => simp [hg] at hl
    | some e =>
      simp only [hg, Option.map_some', Option.some.injEq, Prod.mk.injEq] at hl
      obtain ⟨hh, hlu⟩ := hl
      subst hh hlu
      rw [JSMap.get_filter_some hk.1 _ hg (decide_eq_true hx)]
      simp
  | postgres =>
    simp only [Connections.lookup] at hl ⊢
    cases hg : JSMap.get w.connections.postgres k with
    | none => simp [hg] at hl
    | some e =>
      simp only [hg, Option.map_some', Option.some.injEq, Prod.mk.injEq] at hl
      obtain ⟨hh, hlu⟩ := hl
      subst hh hlu
      rw [JSMap.get_filter_some hk.2.1 _ hg (decide_eq_true hx)]
      simp
  | mongodb =>
    simp only [Connections.lookup] at hl ⊢
    cases hg : JSMap.get w.connections.mongodb k with
    | none => simp [hg] at hl
    | some e =>
      simp only [hg, Option.map_some', Option.some.injEq, Prod.mk.injEq] at hl
      obtain ⟨hh, hlu⟩ := hl
      subst hh hlu
      rw [JSMap.get_filter_some hk.2.2.1 _ hg (decide_eq_true hx)]
      simp
  | mysql =>
    simp only [Connections.lookup] at hl ⊢
    cases hg : JSMap.get w.connections.mysql k with
    | none => simp [hg] at hl
    | some e =>
      simp only [hg, Option.map_some', Option.some.injEq, Prod.mk.injEq] at hl
      obtain ⟨hh, hlu⟩ := hl
      subst hh hlu
      rw [JSMap.get_filter_some hk.2.2.2 _ hg (decide_eq_true hx)]
      simp

theorem sweeper_lookup_expired (env : Drivers) (now : Int) (w : World) (t : DbType) (k : String)
    (h : Handle) (lu : Int) (hk : w.connections.KeysNodup)
    (hl : w.connections.lookup t k = some (h, lu)) (hx : now - lu > 300000) :
    (sweeper env now w).connections.lookup t k = none := by
  rw [sweeper_eq env now w hk]
  cases t with
  | sqlite =>
    simp only [Connections.lookup] at hl ⊢
    cases hg : JSMap.get w.connections.sqlite k with
    | none => simp [hg] at hl
    | some e =>
      simp only [hg, Option.map_some', Option.some.injEq, Prod.mk.injEq] at hl
      obtain ⟨hh, hlu⟩ := hl
      subst hh hlu
      rw [JSMap.get_filter_none hk.1 _ hg (decide_eq_false (by show ¬ (now - e.lastUsed ≤ 300000); omega))]
      simp
  | postgres =>
    simp only [Connections.lookup] at hl ⊢
    cases hg : JSMap.get w.connections.postgres k with
    | none => simp [hg] at hl
    | some e =>
      simp only [hg, Option.map_some', Option.some.injEq, Prod.mk.injEq] at hl
      obtain ⟨hh, hlu⟩ := hl
      subst hh hlu
      rw [JSMap.get_filter_none hk.2.1 _ hg (decide_eq_false (by show ¬ (now - e.lastUsed ≤ 300000); omega))]
      simp
  | mongodb =>
    simp only [Connections.lookup] at hl ⊢
    cases hg : JSMap.get w.connections.mongodb k with
    | none => simp [hg] at hl
    | some e =>
      simp only [hg, Option.map_some', Option.some.injEq, Prod.mk.injEq] at hl
      obtain ⟨hh, hlu⟩ := hl
      subst hh hlu
      rw [JSMap.get_filter_none hk.2.2.1 _ hg (decide_eq_false (by show ¬ (now - e.lastUsed ≤ 300000); omega))]
      simp
  | mysql =>
    simp only [Connections.lookup] at hl ⊢
    cases hg : JSMap.get w.connections.mysql k with
    | none => simp [hg] at hl
    | some e =>
      simp only [hg, Option.map_some', Option.some.injEq, Prod.mk.injEq] at hl
      obtain ⟨hh, hlu⟩ := hl
      subst hh hlu
      rw [JSMap.get_filter_none hk.2.2.2 _ hg (decide_eq_false (by show ¬ (now - e.lastUsed ≤ 300000); omega))]
      simp

theorem lookup_mem_stamps {c : Connections} {t : DbType} {k : String} {h : Handle} {lu : Int}
    (hl : c.lookup t k = some (h, lu)) : (h, lu) ∈ c.stamps := by
  cases t with
  | sqlite =>
    simp only [Connections.lookup] at hl
    cases hg : JSMap.get c.sqlite k with
    | none => simp [hg] at hl
    | some e =>
      simp only [hg, Option.map_some', Option.some.injEq] at hl
      have := JSMap.mem_of_get hg
      simp only [Connections.stamps, List.mem_append, List.mem_map]
      exact Or.inl ⟨_, this, hl⟩
  | postgres =>
    simp only [Connections.lookup] at hl
    cases hg : JSMap.get c.postgres k with
    | none => simp [hg] at hl
    | some e =>
      simp only [hg, Option.map_some', Option.some.injEq] at hl
      have := JSMap.mem_of_get hg
      simp only [Connections.stamps, List.mem_append, List.mem_map]
      exact Or.inr (Or.inl ⟨_, this, hl⟩)
  | mongodb =>
    simp only [Connections.lookup] at hl
    cases hg : JSMap.get c.mongodb k with
    | none => simp [hg] at hl
    | some e =>
      simp only [hg, Option.map_some', Option.some.injEq] at hl
      have := JSMap.mem_of_get hg
      simp only [Connections.stamps, List.mem_append, List.mem_map]
      exact Or.inr (Or.inr (Or.inl ⟨_, this, hl⟩))
  | mysql =>
    simp only [Connections.lookup] at hl
    cases hg : JSMap.get c.mysql k with
    | none => simp [hg] at hl
    | some e =>
      simp only [hg, Option.map_some', Option.some.injEq] at hl
      have := JSMap.mem_of_get hg
      simp only [Connections.stamps, List.mem_append, List.mem_map]
      exact Or.inr (Or.inr (Or.inr ⟨_, this, hl⟩))

/-! ## The registry invariant -/

theorem JSMap.mem_map_set {α β : Type} (f : α → β) (m : JSMap α) (k : String) (v : α) (x : β)
    (hx : x ∈ (JSMap.set m k v).map (fun p => f p.2)) :
    x = f v ∨ x ∈ m.map (fun p => f p.2) := by
  induction m with
  | nil => simpa [JSMap.set] using hx
  | cons p m ih =>
    obtain ⟨k0, v0⟩ := p
    by_cases h0 : k0 = k
    · simp only [JSMap.set, h0, if_true, List.map_cons, List.mem_cons] at hx ⊢
      rcases hx with hx | hx
      · exact Or.inl hx
      · exact Or.inr (Or.inr hx)
    · simp only [JSMap.set, h0, if_false, List.map_cons, List.mem_cons] at hx ⊢
      rcases hx with hx | hx
      · exact Or.inr (Or.inl hx)
      · rcases ih hx with e | e
        · exact Or.inl e
        · exact Or.inr (Or.inr e)

theorem JSMap.nodup_map_set {α β : Type} (f : α → β) (m : JSMap α) (k : String) (v : α)
    (hn : (m.map (fun p => f p.2)).Nodup) (hv : f v ∉ m.map (fun p => f p.2)) :
    ((JSMap.set m k v).map (fun p => f p.2)).Nodup := by
  induction m with
  | nil => simp [JSMap.set]
  | cons p m ih =>
    obtain ⟨k0, v0⟩ := p
    simp only [List.map_cons, List.nodup_cons, List.mem_cons, not_or] at hn hv
    by_cases h0 : k0 = k
    · simp only [JSMap.set, h0, if_true, List.map_cons, List.nodup_cons]
      exact ⟨hv.2, hn.2⟩
    · simp only [JSMap.set, h0, if_false, List.map_cons, List.nodup_cons]
      refine ⟨?_, ih hn.2 hv.2⟩
      intro hmem
      rcases JSMap.mem_map_set f m k v _ hmem with e | e
      · exact hv.1 e.symm
      · exact hn.1 e

theorem nodup_replace_part {A B B' C : List Handle} {nh : Handle} (h : (A ++ (B ++ C)).Nodup)
    (hB' : B'.Nodup) (hsub : ∀ x ∈ B', x = nh ∨ x ∈ B) (hnh : nh ∉ A ++ (B ++ C)) :
    (A ++ (B' ++ C)).Nodup := by
  simp only [List.nodup_append, List.disjoint_left, List.mem_append, not_or] at h hnh ⊢
  obtain ⟨hA, ⟨hB, hC, hBC⟩, hABC⟩ := h
  obtain ⟨hnA, hnB, hnC⟩ := hnh
  refine ⟨hA, ⟨hB', hC, ?_⟩, ?_⟩
  · intro a ha hc
    rcases hsub a ha with e | e
    · subst e; exact hnC hc
    · exact hBC e hc
  · intro a ha
    refine ⟨?_, (hABC ha).2⟩
    intro hc
    rcases hsub a hc with e | e
    · subst e; exact hnA ha
    · exact (hABC ha).1 e

theorem mem_replace_part {A B B' C : List Handle} {nh x : Handle}
    (hsub : ∀ x ∈ B', x = nh ∨ x ∈ B) (hx : x ∈ A ++ (B' ++ C)) :
    x = nh ∨ x ∈ A ++ (B ++ C) := by
  simp only [List.mem_append] at hx ⊢
  rcases hx with hx | hx | hx
  · exact Or.inr (Or.inl hx)
  · rcases hsub x hx with e | e
    · exact Or.inl e
    · exact Or.inr (Or.inr (Or.inl e))
  · exact Or.inr (Or.inr (Or.inr hx))

theorem Connections.handles_eq (c : Connections) :
    c.handles = c.sqlite.map (fun p => p.2.db) ++ (c.postgres.map (fun p => p.2.client) ++
      (c.mongodb.map (fun p => p.2.client) ++ c.mysql.map (fun p => p.2.connection))) := by
  simp [Connections.handles, Connections.stamps, List.map_append, List.map_map,
    Function.comp_def]

/-- The registry is well formed at startup. -/
theorem World.init_WF : World.init.WF := by decide

/-- Replacing the entries of one map by entries that are fresh or were there
before keeps the registry well formed. -/
theorem WF_replace_part {A B B' C : List Handle} {n n' : Nat}
    (hnd : (A ++ (B ++ C)).Nodup) (hf : ∀ h ∈ A ++ (B ++ C), h < n)
    (hB' : B'.Nodup) (hsub : ∀ x ∈ B', x = n ∨ x ∈ B) (hn : n < n') :
    (A ++ (B' ++ C)).Nodup ∧ ∀ h ∈ A ++ (B' ++ C), h < n' := by
  refine ⟨nodup_replace_part hnd hB' hsub (fun hmem => Nat.lt_irrefl _ (hf _ hmem)), ?_⟩
  intro h hmem
  rcases mem_replace_part hsub hmem with e | e
  · rw [e]; exact hn
  · exact Nat.lt_trans (hf _ e) hn

/-! ## Properties of an acquisition -/

theorem acquire_keysNodup (env : Drivers) (now : Int) (req : AcquireReq) (w : World)
    (h : w.connections.KeysNodup) : (acquire env now req w).2.connections.KeysNodup := by
  obtain ⟨h1, h2, h3, h4⟩ := h
  cases req with
  | sqlite dbPath =>
    simp only [acquire, getSQLiteConnection]
    split
    · exact ⟨JSMap.keysNodup_set h1 _ _, h2, h3, h4⟩
    · split
      · exact ⟨h1, h2, h3, h4⟩
      · exact ⟨JSMap.keysNodup_set h1 _ _, h2, h3, h4⟩
  | postgres config =>
    simp only [acquire, getPostgresConnection]
    split
    · exact ⟨h1, JSMap.keysNodup_set h2 _ _, h3, h4⟩
    · split
      · exact ⟨h1, h2, h3, h4⟩
      · exact ⟨h1, JSMap.keysNodup_set h2 _ _, h3, h4⟩
  | mongodb config forceNew =>
    simp only [acquire, getMongoConnection]
    split
    · exact ⟨h1, h2, JSMap.keysNodup_set h3 _ _, h4⟩
    · split
      · exact ⟨h1, h2, h3, h4⟩
      · exact ⟨h1, h2, JSMap.keysNodup_set h3 _ _, h4⟩
  | mysql config =>
    simp only [acquire, getMySQLConnection]
    split
    · exact ⟨h1, h2, h3, JSMap.keysNodup_set h4 _ _⟩
    · split
      · exact ⟨h1, h2, h3, h4⟩
      · exact ⟨h1, h2, h3, JSMap.keysNodup_set h4 _ _⟩

theorem acquire_ok_lookup (env : Drivers) (now : Int) (req : AcquireReq) (w : World)
    (a : Acquired) (h1 : (acquire env now req w).1 = .ok a) :
    (acquire env now req w).2.connections.lookup req.dbType req.key = some (a.conn, now) := by
  cases req with
  | sqlite dbPath =>
    simp only [acquire, getSQLiteConnection] at h1 ⊢
    cases hg : JSMap.get w.connections.sqlite dbPath with
    | some conn =>
      simp only [hg] at h1 ⊢
      simp [Except.map] at h1
      simp [Connections.lookup, AcquireReq.dbType, AcquireReq.key, JSMap.get_set_self, ← h1,
        Acquired.conn]
    | none =>
      simp only [hg] at h1 ⊢
      cases hc : env.connectError w.nextHandle with
      | some err => simp [hc, Except.map] at h1
      | none =>
        simp only [hc] at h1 ⊢
        simp [Except.map] at h1
        simp [Connections.lookup, AcquireReq.dbType, AcquireReq.key, JSMap.get_set_self, ← h1,
          Acquired.conn, World.startConnect]
  | postgres config =>
    simp only [acquire, getPostgresConnection] at h1 ⊢
    cases hg : JSMap.get w.connections.postgres (sqlConnId config) with
    | some conn =>
      simp only [hg] at h1 ⊢
      simp [Except.map] at h1
      simp [Connections.lookup, AcquireReq.dbType, AcquireReq.key, JSMap.get_set_self, ← h1,
        Acquired.conn]
    | none =>
      simp only [hg] at h1 ⊢
      cases hc : env.connectError w.nextHandle with
      | some err => simp [hc, Except.map] at h1
      | none =>
        simp only [hc] at h1 ⊢
        simp [Except.map] at h1
        simp [Connections.lookup, AcquireReq.dbType, AcquireReq.key, JSMap.get_set_self, ← h1,
          Acquired.conn, World.startConnect]
  | mongodb config forceNew =>
    simp only [acquire, getMongoConnection] at h1 ⊢
    cases hg : (if forceNew then none else JSMap.get w.connections.mongodb (mongoConnId config))
      with
    | some conn =>
      simp only [hg] at h1 ⊢
      simp [Except.map] at h1
      simp [Connections.lookup, AcquireReq.dbType, AcquireReq.key, JSMap.get_set_self, ← h1,
        Acquired.conn]
    | none =>
      simp only [hg] at h1 ⊢
      cases hc : env.connectError w.nextHandle with
      | some err => simp [hc, Except.map] at h1
      | none =>
        simp only [hc] at h1 ⊢
        simp [Except.map] at h1
        simp [Connections.lookup, AcquireReq.dbType, AcquireReq.key, JSMap.get_set_self, ← h1,
          Acquired.conn, World.startConnect]
  | mysql config =>
    simp only [acquire, getMySQLConnection] at h1 ⊢
    cases hg : JSMap.get w.connections.mysql (sqlConnId config) with
    | some conn =>
      simp only [hg] at h1 ⊢
      simp [Except.map] at h1
      simp [Connections.lookup, AcquireReq.dbType, AcquireReq.key, JSMap.get_set_self, ← h1,
        Acquired.conn]
    | none =>
      simp only [hg] at h1 ⊢
      cases hc : env.connectError w.nextHandle with
      | some err => simp [hc, Except.map] at h1
      | none =>
        simp only [hc] at h1 ⊢
        simp [Except.map] at h1
        simp [Connections.lookup, AcquireReq.dbType, AcquireReq.key, JSMap.get_set_self, ← h1,
          Acquired.conn, World.startConnect]

theorem acquire_hit (env : Drivers) (now : Int) (req : AcquireReq) (w : World) (h : Handle)
    (lu : Int) (hforce : req.forceNew = false)
    (hl : w.connections.lookup req.dbType req.key = some (h, lu)) :
    (acquire env now req w).2.connections.handles = w.connections.handles ∧
    (acquire env now req w).2.connections.lookup req.dbType req.key = some (h, now) ∧
    (acquire env now req w).2.closeLog = w.closeLog := by
  cases req with
  | sqlite dbPath =>
    simp only [Connections.lookup, AcquireReq.dbType, AcquireReq.key] at hl ⊢
    cases hg : JSMap.get w.connections.sqlite dbPath with
    | none => simp [hg] at hl
    | some conn =>
      simp only [hg, Option.map_some', Option.some.injEq, Prod.mk.injEq] at hl
      obtain ⟨hh, _⟩ := hl
      subst hh
      have hm := JSMap.map_set_of_get SQLiteConn.db (v := { conn with lastUsed := now }) hg rfl
      simp only [Connections.handles, Connections.stamps, List.map_append, List.map_map,
        Function.comp_def] at hm ⊢
      simp only [acquire, getSQLiteConnection, hg, JSMap.get_set_self, hm, Bool.false_eq_true, if_false]
      simp
  | postgres config =>
    simp only [Connections.lookup, AcquireReq.dbType, AcquireReq.key] at hl ⊢
    cases hg : JSMap.get w.connections.postgres (sqlConnId config) with
    | none => simp [hg] at hl
    | some conn =>
      simp only [hg, Option.map_some', Option.some.injEq, Prod.mk.injEq] at hl
      obtain ⟨hh, _⟩ := hl
      subst hh
      have hm := JSMap.map_set_of_get PostgresConn.client (v := { conn with lastUsed := now }) hg rfl
      simp only [Connections.handles, Connections.stamps, List.map_append, List.map_map,
        Function.comp_def] at hm ⊢
      simp only [acquire, getPostgresConnection, hg, JSMap.get_set_self, hm, Bool.false_eq_true, if_false]
      simp
  | mongodb config forceNew =>
    have hf : forceNew = false := hforce
    subst hf
    simp only [Connections.lookup, AcquireReq.dbType, AcquireReq.key] at hl ⊢
    cases hg : JSMap.get w.connections.mongodb (mongoConnId config) with
    | none => simp [hg] at hl
    | some conn =>
      simp only [hg, Option.map_some', Option.some.injEq, Prod.mk.injEq] at hl
      obtain ⟨hh, _⟩ := hl
      subst hh
      have hm := JSMap.map_set_of_get MongoConn.client (v := { conn with lastUsed := now }) hg rfl
      simp only [Connections.handles, Connections.stamps, List.map_append, List.map_map,
        Function.comp_def] at hm ⊢
      simp only [acquire, getMongoConnection, hg, JSMap.get_set_self, hm, Bool.false_eq_true, if_false]
      simp
  | mysql config =>
    simp only [Connections.lookup, AcquireReq.dbType, AcquireReq.key] at hl ⊢
    cases hg : JSMap.get w.connections.mysql (sqlConnId config) with
    | none => simp [hg] at hl
    | some conn =>
      simp only [hg, Option.map_some', Option.some.injEq, Prod.mk.injEq] at hl
      obtain ⟨hh, _⟩ := hl
      subst hh
      have hm := JSMap.map_set_of_get MySQLConn.connection (v := { conn with lastUsed := now }) hg rfl
      simp only [Connections.handles, Connections.stamps, List.map_append, List.map_map,
        Function.comp_def] at hm ⊢
      simp only [acquire, getMySQLConnection, hg, JSMap.get_set_self, hm, Bool.false_eq_true, if_false]
      simp

theorem acquire_miss (env : Drivers) (now : Int) (req : AcquireReq) (w : World)
    (hmiss : w.connections.lookup req.dbType req.key = none) :
    (acquire env now req w).2.connectLog = w.connectLog ++ [w.nextHandle] ∧
    (env.connectError w.nextHandle = none →
      ∃ a, (acquire env now req w).1 = .ok a ∧ a.conn = w.nextHandle) := by
  cases req with
  | sqlite dbPath =>
    have hg : JSMap.get w.connections.sqlite dbPath = none := by
      simpa [Connections.lookup, AcquireReq.dbType, AcquireReq.key] using hmiss
    refine ⟨?_, ?_⟩
    · simp only [acquire, getSQLiteConnection, hg]
      cases env.connectError w.nextHandle <;> simp [World.startConnect]
    · intro hc
      simp [acquire, getSQLiteConnection, hg, hc, Except.map, Acquired.conn]
  | postgres config =>
    have hg : JSMap.get w.connections.postgres (sqlConnId config) = none := by
      simpa [Connections.lookup, AcquireReq.dbType, AcquireReq.key] using hmiss
    refine ⟨?_, ?_⟩
    · simp only [acquire, getPostgresConnection, hg]
      cases env.connectError w.nextHandle <;> simp [World.startConnect]
    · intro hc
      simp [acquire, getPostgresConnection, hg, hc, Except.map, Acquired.conn]
  | mongodb config forceNew =>
    have hg : (if forceNew then none else JSMap.get w.connections.mongodb (mongoConnId config))
        = none := by
      cases forceNew with
      | true => simp
      | false => simpa [Connections.lookup, AcquireReq.dbType, AcquireReq.key] using hmiss
    refine ⟨?_, ?_⟩
    · simp only [acquire, getMongoConnection, hg]
      cases env.connectError w.nextHandle <;> simp [World.startConnect]
    · intro hc
      simp [acquire, getMongoConnection, hg, hc, Except.map, Acquired.conn]
  | mysql config =>
    have hg : JSMap.get w.connections.mysql (sqlConnId config) = none := by
      simpa [Connections.lookup, AcquireReq.dbType, AcquireReq.key] using hmiss
    refine ⟨?_, ?_⟩
    · simp only [acquire, getMySQLConnection, hg]
      cases env.connectError w.nextHandle <;> simp [World.startConnect]
    · intro hc
      simp [acquire, getMySQLConnection, hg, hc, Except.map, Acquired.conn]

theorem acquire_ok_fresh (env : Drivers) (now : Int) (req : AcquireReq) (w : World)
    (a : Acquired) (hf : ∀ h ∈ w.connections.handles, h < w.nextHandle)
    (h1 : (acquire env now req w).1 = .ok a) :
    a.conn < (acquire env now req w).2.nextHandle := by
  cases req with
  | sqlite dbPath =>
    simp only [acquire, getSQLiteConnection] at h1 ⊢
    cases hg : JSMap.get w.connections.sqlite dbPath with
    | some conn =>
      simp only [hg] at h1 ⊢
      simp [Except.map] at h1
      subst h1
      have hmem : conn.db ∈ w.connections.handles := by
        have := JSMap.mem_of_get hg
        simp only [Connections.handles, Connections.stamps, List.map_append, List.map_map,
          List.mem_append, List.mem_map, Function.comp_def]
        exact Or.inl ⟨_, this, rfl⟩
      exact hf _ hmem
    | none =>
      simp only [hg] at h1 ⊢
      cases hc : env.connectError w.nextHandle with
      | some err => simp [hc, Except.map] at h1
      | none =>
        simp only [hc] at h1 ⊢
        simp [Except.map] at h1
        subst h1
        simp only [Acquired.conn, World.startConnect]
        exact Nat.lt_succ_self _
  | postgres config =>
    simp only [acquire, getPostgresConnection] at h1 ⊢
    cases hg : JSMap.get w.connections.postgres (sqlConnId config) with
    | some conn =>
      simp only [hg] at h1 ⊢
      simp [Except.map] at h1
      subst h1
      have hmem : conn.client ∈ w.connections.handles := by
        have := JSMap.mem_of_get hg
        simp only [Connections.handles, Connections.stamps, List.map_append, List.map_map,
          List.mem_append, List.mem_map, Function.comp_def]
        exact Or.inr (Or.inl ⟨_, this, rfl⟩)
      exact hf _ hmem
    | none =>
      simp only [hg] at h1 ⊢
      cases hc : env.connectError w.nextHandle with
      | some err => simp [hc, Except.map] at h1
      | none =>
        simp only [hc] at h1 ⊢
        simp [Except.map] at h1
        subst h1
        simp only [Acquired.conn, World.startConnect]
        exact Nat.lt_succ_self _
  | mongodb config forceNew =>
    simp only [acquire, getMongoConnection] at h1 ⊢
    cases hg : (if forceNew then none else JSMap.get w.connections.mongodb (mongoConnId config)) with
    | some conn =>
      simp only [hg] at h1 ⊢
      simp [Except.map] at h1
      subst h1
      have hmem : conn.client ∈ w.connections.handles := by
        split at hg
        · cases hg
        · have := JSMap.mem_of_get hg
          simp only [Connections.handles, Connections.stamps, List.map_append, List.map_map,
            List.mem_append, List.mem_map, Function.comp_def]
          exact Or.inr (Or.inr (Or.inl ⟨_, this, rfl⟩))
      exact hf _ hmem
    | none =>
      simp only [hg] at h1 ⊢
      cases hc : env.connectError w.nextHandle with
      | some err => simp [hc, Except.map] at h1
      | none =>
        simp only [hc] at h1 ⊢
        simp [Except.map] at h1
        subst h1
        simp only [Acquired.conn, World.startConnect]
        exact Nat.lt_succ_of_lt (Nat.lt_succ_self _)
  | mysql config =>
    simp only [acquire, getMySQLConnection] at h1 ⊢
    cases hg : JSMap.get w.connections.mysql (sqlConnId config) with
    | some conn =>
      simp only [hg] at h1 ⊢
      simp [Except.map] at h1
      subst h1
      have hmem : conn.connection ∈ w.connections.handles := by
        have := JSMap.mem_of_get hg
        simp only [Connections.handles, Connections.stamps, List.map_append, List.map_map,
          List.mem_append, List.mem_map, Function.comp_def]
        exact Or.inr (Or.inr (Or.inr ⟨_, this, rfl⟩))
      exact hf _ hmem
    | none =>
      simp only [hg] at h1 ⊢
      cases hc : env.connectError w.nextHandle with
      | some err => simp [hc, Except.map] at h1
      | none =>
        simp only [hc] at h1 ⊢
        simp [Except.map] at h1
        subst h1
        simp only [Acquired.conn, World.startConnect]
        exact Nat.lt_succ_self _

theorem acquire_WF (env : Drivers) (now : Int) (req : AcquireReq) (w : World) (h : w.WF) :
    (acquire env now req w).2.WF := by
  have hk' := acquire_keysNodup env now req w h.1
  obtain ⟨hk, hnd, hf⟩ := h
  rw [Connections.handles_eq] at hnd hf
  refine ⟨hk', ?_⟩
  rw [Connections.handles_eq]
  cases req with
  | sqlite dbPath =>
    simp only [acquire, getSQLiteConnection]
    cases hg : JSMap.get w.connections.sqlite dbPath with
    | some conn =>
      have hm := JSMap.map_set_of_get SQLiteConn.db (v := { conn with lastUsed := now }) hg rfl
      simp only [hm]
      exact ⟨hnd, hf⟩
    | none =>
      cases hc : env.connectError w.nextHandle with
      | some err => exact ⟨hnd, fun h hh => Nat.lt_succ_of_lt (hf h hh)⟩
      | none =>
        simp only [World.startConnect]
        have hfresh : w.nextHandle ∉ w.connections.sqlite.map (fun p : String × SQLiteConn => p.2.db) := by
          intro hmem
          exact Nat.lt_irrefl _ (hf _ (by simp only [List.mem_append]; exact Or.inl hmem))
        have hB : (w.connections.sqlite.map (fun p : String × SQLiteConn => p.2.db)).Nodup := by
          have := hnd
          simp only [List.nodup_append] at this
          exact this.1
        exact WF_replace_part (A := []) (C := (w.connections.postgres.map (fun p : String × PostgresConn => p.2.client)) ++ ((w.connections.mongodb.map (fun p : String × MongoConn => p.2.client)) ++ (w.connections.mysql.map (fun p : String × MySQLConn => p.2.connection)))) hnd hf
          (JSMap.nodup_map_set SQLiteConn.db _ dbPath { db := w.nextHandle, lastUsed := now }
            hB hfresh)
          (fun x hx => JSMap.mem_map_set SQLiteConn.db _ _ _ x hx) (Nat.lt_succ_self w.nextHandle)
  | postgres config =>
    simp only [acquire, getPostgresConnection]
    cases hg : JSMap.get w.connections.postgres (sqlConnId config) with
    | some conn =>
      have hm := JSMap.map_set_of_get PostgresConn.client (v := { conn with lastUsed := now }) hg rfl
      simp only [hm]
      exact ⟨hnd, hf⟩
    | none =>
      cases hc : env.connectError w.nextHandle with
      | some err => exact ⟨hnd, fun h hh => Nat.lt_succ_of_lt (hf h hh)⟩
      | none =>
        simp only [World.startConnect]
        have hfresh : w.nextHandle ∉ w.connections.postgres.map (fun p : String × PostgresConn => p.2.client) := by
          intro hmem
          exact Nat.lt_irrefl _ (hf _ (by simp only [List.mem_append]; exact Or.inr (Or.inl hmem)))
        have hB : (w.connections.postgres.map (fun p : String × PostgresConn => p.2.client)).Nodup := by
          have := hnd
          simp only [List.nodup_append] at this
          exact this.2.1.1
        exact WF_replace_part (A := (w.connections.sqlite.map (fun p : String × SQLiteConn => p.2.db))) (C := (w.connections.mongodb.map (fun p : String × MongoConn => p.2.client)) ++ (w.connections.mysql.map (fun p : String × MySQLConn => p.2.connection))) hnd hf
          (JSMap.nodup_map_set PostgresConn.client _ (sqlConnId config)
            { client := w.nextHandle, config := config, lastUsed := now } hB hfresh)
          (fun x hx => JSMap.mem_map_set PostgresConn.client _ _ _ x hx)
          (Nat.lt_succ_self w.nextHandle)
  | mongodb config forceNew =>
    simp only [acquire, getMongoConnection]
    cases hg0 : (if forceNew then none else JSMap.get w.connections.mongodb (mongoConnId config))
      with
    | some conn =>
      have hg : JSMap.get w.connections.mongodb (mongoConnId config) = some conn := by
        cases forceNew with
        | true => simp at hg0
        | false => simpa using hg0
      have hm := JSMap.map_set_of_get MongoConn.client (v := { conn with lastUsed := now }) hg rfl
      simp only [hm]
      exact ⟨hnd, hf⟩
    | none =>
      cases hc : env.connectError w.nextHandle with
      | some err => exact ⟨hnd, fun h hh => Nat.lt_succ_of_lt (hf h hh)⟩
      | none =>
        simp only [World.startConnect]
        have hfresh : w.nextHandle ∉ w.connections.mongodb.map (fun p : String × MongoConn => p.2.client) := by
          intro hmem
          exact Nat.lt_irrefl _ (hf _ (by simp only [List.mem_append]; exact Or.inr (Or.inr (Or.inl hmem))))
        have hB : (w.connections.mongodb.map (fun p : String × MongoConn => p.2.client)).Nodup := by
          have := hnd
          simp only [List.nodup_append] at this
          exact this.2.1.2.1.1
        have hnd2 : (((w.connections.sqlite.map (fun p : String × SQLiteConn => p.2.db)) ++ (w.connections.postgres.map (fun p : String × PostgresConn => p.2.client))) ++ ((w.connections.mongodb.map (fun p : String × MongoConn => p.2.client)) ++ (w.connections.mysql.map (fun p : String × MySQLConn => p.2.connection)))).Nodup := by
          simpa only [List.append_assoc] using hnd
        have hf2 : ∀ h ∈ ((w.connections.sqlite.map (fun p : String × SQLiteConn => p.2.db)) ++ (w.connections.postgres.map (fun p : String × PostgresConn => p.2.client))) ++ ((w.connections.mongodb.map (fun p : String × MongoConn => p.2.client)) ++ (w.connections.mysql.map (fun p : String × MySQLConn => p.2.connection))), h < w.nextHandle := by
          simpa only [List.append_assoc] using hf
        have := WF_replace_part (A := (w.connections.sqlite.map (fun p : String × SQLiteConn => p.2.db)) ++ (w.connections.postgres.map (fun p : String × PostgresConn => p.2.client))) (C := (w.connections.mysql.map (fun p : String × MySQLConn => p.2.connection))) hnd2 hf2
          (JSMap.nodup_map_set MongoConn.client _ (mongoConnId config)
            { client := w.nextHandle, db := w.nextHandle + 1, config := config, lastUsed := now }
            hB hfresh)
          (fun x hx => JSMap.mem_map_set MongoConn.client _ _ _ x hx)
          (Nat.lt_succ_of_lt (Nat.lt_succ_self w.nextHandle))
        simpa only [List.append_assoc] using this
  | mysql config =>
    simp only [acquire, getMySQLConnection]
    cases hg : JSMap.get w.connections.mysql (sqlConnId config) with
    | some conn =>
      have hm := JSMap.map_set_of_get MySQLConn.connection (v := { conn with lastUsed := now }) hg rfl
      simp only [hm]
      exact ⟨hnd, hf⟩
    | none =>
      cases hc : env.connectError w.nextHandle with
      | some err => exact ⟨hnd, fun h hh => Nat.lt_succ_of_lt (hf h hh)⟩
      | none =>
        simp only [World.startConnect]
        have hfresh : w.nextHandle ∉ w.connections.mysql.map (fun p : String × MySQLConn => p.2.connection) := by
          intro hmem
          exact Nat.lt_irrefl _ (hf _ (by simp only [List.mem_append]; exact Or.inr (Or.inr (Or.inr hmem))))
        have hB : (w.connections.mysql.map (fun p : String × MySQLConn => p.2.connection)).Nodup := by
          have := hnd
          simp only [List.nodup_append] at this
          exact this.2.1.2.1.2.1
        have hnd2 : (((w.connections.sqlite.map (fun p : String × SQLiteConn => p.2.db)) ++ ((w.connections.postgres.map (fun p : String × PostgresConn => p.2.client)) ++ (w.connections.mongodb.map (fun p : String × MongoConn => p.2.client)))) ++ ((w.connections.mysql.map (fun p : String × MySQLConn => p.2.connection)) ++ [])).Nodup := by
          simpa only [List.append_assoc, List.append_nil] using hnd
        have hf2 : ∀ h ∈ ((w.connections.sqlite.map (fun p : String × SQLiteConn => p.2.db)) ++ ((w.connections.postgres.map (fun p : String × PostgresConn => p.2.client)) ++ (w.connections.mongodb.map (fun p : String × MongoConn => p.2.client)))) ++ ((w.connections.mysql.map (fun p : String × MySQLConn => p.2.connection)) ++ []), h < w.nextHandle := by
          simpa only [List.append_assoc, List.append_nil] using hf
        have := WF_replace_part (A := (w.connections.sqlite.map (fun p : String × SQLiteConn => p.2.db)) ++ ((w.connections.postgres.map (fun p : String × PostgresConn => p.2.client)) ++ (w.connections.mongodb.map (fun p : String × MongoConn => p.2.client)))) (C := []) hnd2 hf2
          (JSMap.nodup_map_set MySQLConn.connection _ (sqlConnId config)
            { connection := w.nextHandle, config := config, lastUsed := now } hB hfresh)
          (fun x hx => JSMap.mem_map_set MySQLConn.connection _ _ _ x hx)
          (Nat.lt_succ_self w.nextHandle)
        simpa only [List.append_assoc, List.append_nil] using this

theorem JSMap.delete_sublist {α : Type} (m : JSMap α) (k : String) :
    List.Sublist (JSMap.delete m k) m := by
  induction m with
  | nil => exact List.Sublist.refl _
  | cons p m ih =>
    obtain ⟨k0, v0⟩ := p
    by_cases h0 : k0 = k
    · simp only [JSMap.delete, h0, if_true]
      exact List.sublist_cons_self _ _
    · simp only [JSMap.delete, h0, if_false]
      exact List.Sublist.cons₂ _ ih

theorem closeOne_sublist {α : Type} (env : Drivers) (handle : α → Handle) (m : JSMap α)
    (id : String) (log : List Handle) : List.Sublist (closeOne env handle m id log).1 m := by
  unfold closeOne
  cases JSMap.get m id with
  | none => exact List.Sublist.refl _
  | some conn =>
    cases hc : env.closeRaises (handle conn) with
    | true => simp only [closeHandle, hc]; exact List.Sublist.refl _
    | false => simp only [closeHandle, hc]; exact JSMap.delete_sublist _ _

/-- A world whose maps are parts of the maps of a well-formed world, and whose
allocator has not gone back, is well formed. -/
theorem WF_of_sublists (w w' : World) (h : w.WF)
    (h1 : List.Sublist w'.connections.sqlite w.connections.sqlite)
    (h2 : List.Sublist w'.connections.postgres w.connections.postgres)
    (h3 : List.Sublist w'.connections.mongodb w.connections.mongodb)
    (h4 : List.Sublist w'.connections.mysql w.connections.mysql)
    (hn : w.nextHandle ≤ w'.nextHandle) : w'.WF := by
  obtain ⟨⟨k1, k2, k3, k4⟩, hnd, hf⟩ := h
  have hsub : List.Sublist w'.connections.handles w.connections.handles := by
    rw [Connections.handles_eq, Connections.handles_eq]
    exact List.Sublist.append (List.Sublist.map _ h1)
      (List.Sublist.append (List.Sublist.map _ h2)
        (List.Sublist.append (List.Sublist.map _ h3) (List.Sublist.map _ h4)))
  refine ⟨⟨?_, ?_, ?_, ?_⟩, List.Nodup.sublist hsub hnd, ?_⟩
  · exact List.Nodup.sublist (List.Sublist.map _ h1) k1
  · exact List.Nodup.sublist (List.Sublist.map _ h2) k2
  · exact List.Nodup.sublist (List.Sublist.map _ h3) k3
  · exact List.Nodup.sublist (List.Sublist.map _ h4) k4
  · intro x hx
    exact Nat.lt_of_lt_of_le (hf x (hsub.subset hx)) hn

/-- A sweeper tick keeps the registry well formed. -/
theorem sweeper_WF (env : Drivers) (now : Int) (w : World) (h : w.WF) :
    (sweeper env now w).WF := by
  apply WF_of_sublists w _ h
  all_goals rw [sweeper_eq env now w h.1]
  · exact List.filter_sublist _
  · exact List.filter_sublist _
  · exact List.filter_sublist _
  · exact List.filter_sublist _

/-- Every form of `close_connections` keeps the registry well formed. -/
theorem close_connections_WF (env : Drivers) (database_type connection_id : Option String)
    (w : World) (h : w.WF) : (close_connections env database_type connection_id w).2.WF := by
  unfold close_connections
  split_ifs
  · split
    · exact h
    · exact h
    all_goals
      apply WF_of_sublists w _ h
      all_goals first
        | exact closeOne_sublist _ _ _ _ _
        | exact List.Sublist.refl _
        | exact Nat.le_refl _
  · split
    · exact h
    · exact h
    all_goals
      apply WF_of_sublists w _ h
      all_goals first
        | exact List.nil_sublist _
        | exact List.Sublist.refl _
        | exact Nat.le_refl _
  · apply WF_of_sublists w _ h
    all_goals first
      | exact List.nil_sublist _
      | exact Nat.le_refl _

/-! ## Reuse of a registered connection -/

/-- C1: for every backend kind (the document store with `forceNew = false`) and
every config, when an acquisition succeeds and a second acquisition with the
same arguments follows directly, the second one returns the same driver
object(s) as the first and starts no handshake, whatever the drivers would
answer then. -/
theorem acquire_twice_reuses (env env2 : Drivers) (t1 t2 : Int) (req : AcquireReq) (w : World)
    (a : Acquired) (hforce : req.forceNew = false)
    (h1 : (acquire env t1 req w).1 = .ok a) :
    (acquire env2 t2 req (acquire env t1 req w).2).1 = .ok a ∧
    (acquire env2 t2 req (acquire env t1 req w).2).2.connectLog =
      (acquire env t1 req w).2.connectLog := by
  cases req with
  | sqlite dbPath =>
    simp only [acquire, getSQLiteConnection] at h1 ⊢
    cases hg : JSMap.get w.connections.sqlite dbPath with
    | some conn =>
      simp only [hg] at h1 ⊢
      simpa [JSMap.get_set_self] using h1
    | none =>
      simp only [hg] at h1 ⊢
      cases hc : env.connectError w.nextHandle with
      | some err => simp [hc, Except.map] at h1
      | none =>
        simp only [hc] at h1 ⊢
        simpa [JSMap.get_set_self] using h1
  | postgres config =>
    simp only [acquire, getPostgresConnection] at h1 ⊢
    cases hg : JSMap.get w.connections.postgres (sqlConnId config) with
    | some conn =>
      simp only [hg] at h1 ⊢
      simpa [JSMap.get_set_self] using h1
    | none =>
      simp only [hg] at h1 ⊢
      cases hc : env.connectError w.nextHandle with
      | some err => simp [hc, Except.map] at h1
      | none =>
        simp only [hc] at h1 ⊢
        simpa [JSMap.get_set_self] using h1
  | mongodb config forceNew =>
    have hf : forceNew = false := hforce
    subst hf
    simp only [acquire, getMongoConnection, Bool.false_eq_true, if_false] at h1 ⊢
    cases hg : JSMap.get w.connections.mongodb (mongoConnId config) with
    | some conn =>
      simp only [hg] at h1 ⊢
      simpa [JSMap.get_set_self] using h1
    | none =>
      simp only [hg] at h1 ⊢
      cases hc : env.connectError w.nextHandle with
      | some err => simp [hc, Except.map] at h1
      | none =>
        simp only [hc] at h1 ⊢
        simpa [JSMap.get_set_self] using h1
  | mysql config =>
    simp only [acquire, getMySQLConnection] at h1 ⊢
    cases hg : JSMap.get w.connections.mysql (sqlConnId config) with
    | some conn =>
      simp only [hg] at h1 ⊢
      simpa [JSMap.get_set_self] using h1
    | none =>
      simp only [hg] at h1 ⊢
      cases hc : env.connectError w.nextHandle with
      | some err => simp [hc, Except.map] at h1
      | none =>
        simp only [hc] at h1 ⊢
        simpa [JSMap.get_set_self] using h1

theorem acquire_twice_reuses_witness :
    (acquire Drivers.hostile 20 (.sqlite "a.db")
        (acquire Drivers.quiet 10 (.sqlite "a.db") World.init).2).1 = .ok (.handle 0) ∧
    (acquire Drivers.hostile 20 (.sqlite "a.db")
        (acquire Drivers.quiet 10 (.sqlite "a.db") World.init).2).2.connectLog =
      (acquire Drivers.quiet 10 (.sqlite "a.db") World.init).2.connectLog :=
  acquire_twice_reuses Drivers.quiet Drivers.hostile 10 20 (.sqlite "a.db") World.init
    (.handle 0) rfl rfl

/-! ## A failed handshake -/

/-- C2: for every backend kind, registry state and arguments, when an
acquisition reaches the handshake (the key is not registered, or `forceNew` is
set) and the handshake fails with an error, the acquisition fails with that
same error and the registry afterwards equals the registry before. -/
theorem acquire_connect_failure (env : Drivers) (now : Int) (req : AcquireReq) (w : World)
    (e : JSError)
    (hmiss : req.forceNew = true ∨ w.connections.lookup req.dbType req.key = none)
    (hfail : env.connectError w.nextHandle = some e) :
    (acquire env now req w).1 = .error e ∧
    (acquire env now req w).2.connections = w.connections ∧
    (acquire env now req w).2.connectLog = w.connectLog ++ [w.nextHandle] := by
  cases req with
  | sqlite dbPath =>
    have hg : JSMap.get w.connections.sqlite dbPath = none := by
      simpa [AcquireReq.forceNew, Connections.lookup, AcquireReq.dbType, AcquireReq.key]
        using hmiss
    simp [acquire, getSQLiteConnection, hg, hfail, Except.map, World.startConnect]
  | postgres config =>
    have hg : JSMap.get w.connections.postgres (sqlConnId config) = none := by
      simpa [AcquireReq.forceNew, Connections.lookup, AcquireReq.dbType, AcquireReq.key]
        using hmiss
    simp [acquire, getPostgresConnection, hg, hfail, Except.map, World.startConnect]
  | mongodb config forceNew =>
    have hg : (if forceNew then none else JSMap.get w.connections.mongodb (mongoConnId config))
        = none := by
      cases forceNew with
      | true => simp
      | false =>
        simpa [AcquireReq.forceNew, Connections.lookup, AcquireReq.dbType, AcquireReq.key]
          using hmiss
    simp only [acquire, getMongoConnection, hg]
    simp [hfail, Except.map, World.startConnect]
  | mysql config =>
    have hg : JSMap.get w.connections.mysql (sqlConnId config) = none := by
      simpa [AcquireReq.forceNew, Connections.lookup, AcquireReq.dbType, AcquireReq.key]
        using hmiss
    simp [acquire, getMySQLConnection, hg, hfail, Except.map, World.startConnect]

theorem acquire_connect_failure_witness :
    (acquire Drivers.hostile 5 (.postgres ⟨.str "h", .num 5432, .str "d", .str "u", .str "p"⟩)
        World.oneSQLite).1 = .error { message := "ECONNREFUSED" } ∧
    (acquire Drivers.hostile 5 (.postgres ⟨.str "h", .num 5432, .str "d", .str "u", .str "p"⟩)
        World.oneSQLite).2.connections = World.oneSQLite.connections ∧
    (acquire Drivers.hostile 5 (.postgres ⟨.str "h", .num 5432, .str "d", .str "u", .str "p"⟩)
        World.oneSQLite).2.connectLog = World.oneSQLite.connectLog ++ [World.oneSQLite.nextHandle] :=
  acquire_connect_failure Drivers.hostile 5
    (.postgres ⟨.str "h", .num 5432, .str "d", .str "u", .str "p"⟩) World.oneSQLite
    { message := "ECONNREFUSED" } (Or.inr rfl) rfl

/-! ## The sweeper tick -/

/-- C3: for every registry (a `Map` has distinct keys) and every time `now`, one
sweeper tick leaves in each of the four maps exactly the entries with
`now - lastUsed ≤ 300000`, unchanged and in their order, and so removes every
entry with `now - lastUsed > 300000`, whether or not a `close` throws. -/
theorem sweeper_keeps_exactly_recent (env : Drivers) (now : Int) (w : World)
    (h : w.connections.KeysNodup) :
    (sweeper env now w).connections =
      { sqlite := w.connections.sqlite.filter (fun p => decide (now - p.2.lastUsed ≤ 300000))
        postgres := w.connections.postgres.filter (fun p => decide (now - p.2.lastUsed ≤ 300000))
        mongodb := w.connections.mongodb.filter (fun p => decide (now - p.2.lastUsed ≤ 300000))
        mysql := w.connections.mysql.filter (fun p => decide (now - p.2.lastUsed ≤ 300000)) } := by
  rw [sweeper_eq env now w h]

theorem sweeper_keeps_exactly_recent_witness :
    World.twoSQLite.connections.KeysNodup ∧
    (sweeper Drivers.hostile 400000 World.twoSQLite).connections.sqlite =
      [("b.db", { db := 1, lastUsed := 200000 })] := by
  refine ⟨by decide, ?_⟩
  rw [sweeper_keeps_exactly_recent Drivers.hostile 400000 World.twoSQLite (by decide)]
  decide

/-- C4: an entry reused by an acquisition at time `t` (a registry hit, which
sets `lastUsed` to `t`) is still registered, with the same driver object, after
a sweeper tick at any time `now ≤ t + 60000` (one sweep interval), and that tick
makes no `close` call on its driver object. -/
theorem reused_entry_survives_sweep (env env2 : Drivers) (t now : Int) (req : AcquireReq)
    (w : World) (h : Handle) (lu : Int) (hwf : w.WF) (hforce : req.forceNew = false)
    (hl : w.connections.lookup req.dbType req.key = some (h, lu))
    (hnow : now ≤ t + sweepInterval) :
    (acquire env t req w).2.connections.lookup req.dbType req.key = some (h, t) ∧
    (sweeper env2 now (acquire env t req w).2).connections.lookup req.dbType req.key =
      some (h, t) ∧
    ∃ l, (sweeper env2 now (acquire env t req w).2).closeLog =
      (acquire env t req w).2.closeLog ++ l ∧ h ∉ l := by
  obtain ⟨hk, hnd, _⟩ := hwf
  obtain ⟨hh, hl1, _⟩ := acquire_hit env t req w h lu hforce hl
  have hk1 := acquire_keysNodup env t req w hk
  have hnow' : now ≤ t + 60000 := hnow
  refine ⟨hl1, sweeper_lookup_recent env2 now _ _ _ h t hk1 hl1 (by omega), ?_⟩
  rw [sweeper_eq env2 now _ hk1]
  refine ⟨_, rfl, ?_⟩
  intro hmem
  obtain ⟨s, hs, hs1⟩ := List.mem_map.1 hmem
  obtain ⟨hs2, hs3⟩ := List.mem_filter.1 hs
  have hnd1 : ((acquire env t req w).2.connections.stamps.map Prod.fst).Nodup := by
    have := hnd
    rw [← hh] at this
    exact this
  have hst := lookup_mem_stamps hl1
  have heq : s = (h, t) := List.inj_on_of_nodup_map hnd1 hs2 hst hs1
  subst heq
  have : t + 300000 < now := by
    have := of_decide_eq_true hs3
    simp only at this
    omega
  omega

theorem reused_entry_survives_sweep_witness :
    World.oneSQLite.WF ∧
    (acquire Drivers.quiet 900000 (.sqlite "a.db") World.oneSQLite).2.connections.lookup
      .sqlite "a.db" = some (0, 900000) ∧
    (sweeper Drivers.hostile 960000
      (acquire Drivers.quiet 900000 (.sqlite "a.db") World.oneSQLite).2).connections.lookup
      .sqlite "a.db" = some (0, 900000) ∧
    ∃ l, (sweeper Drivers.hostile 960000
        (acquire Drivers.quiet 900000 (.sqlite "a.db") World.oneSQLite).2).closeLog =
      (acquire Drivers.quiet 900000 (.sqlite "a.db") World.oneSQLite).2.closeLog ++ l ∧
      0 ∉ l :=
  ⟨by decide,
    reused_entry_survives_sweep Drivers.quiet Drivers.hostile 900000 960000 (.sqlite "a.db")
      World.oneSQLite 0 0 (by decide) rfl (by decide) (by decide)⟩

/-- C5: for every backend kind and arguments, after a successful acquisition
at time `t`, a sweeper tick at a time `now` with `now - t > 300000` removes the
entry of that key; a following acquisition with the same arguments starts a
new handshake, and when that handshake succeeds it registers and returns the
newly created driver object, which is not the evicted one. -/
theorem evicted_then_reacquired (env env2 env3 : Drivers) (t now t3 : Int) (req : AcquireReq)
    (w : World) (a : Acquired) (hwf : w.WF) (h1 : (acquire env t req w).1 = .ok a)
    (hidle : now - t > 300000) :
    (sweeper env2 now (acquire env t req w).2).connections.lookup req.dbType req.key = none ∧
    (acquire env3 t3 req (sweeper env2 now (acquire env t req w).2)).2.connectLog =
      (sweeper env2 now (acquire env t req w).2).connectLog ++
        [(sweeper env2 now (acquire env t req w).2).nextHandle] ∧
    (env3.connectError (sweeper env2 now (acquire env t req w).2).nextHandle = none →
      ∃ b, (acquire env3 t3 req (sweeper env2 now (acquire env t req w).2)).1 = .ok b ∧
        b.conn = (sweeper env2 now (acquire env t req w).2).nextHandle ∧
        b.conn ≠ a.conn ∧
        (acquire env3 t3 req (sweeper env2 now (acquire env t req w).2)).2.connections.lookup
          req.dbType req.key = some (b.conn, t3)) := by
  obtain ⟨hk, _, hf⟩ := hwf
  have hl1 := acquire_ok_lookup env t req w a h1
  have hk1 := acquire_keysNodup env t req w hk
  have hgone := sweeper_lookup_expired env2 now _ _ _ _ _ hk1 hl1 hidle
  have hfresh := acquire_ok_fresh env t req w a hf h1
  have hnext : (sweeper env2 now (acquire env t req w).2).nextHandle =
      (acquire env t req w).2.nextHandle := rfl
  obtain ⟨hlog, hok⟩ := acquire_miss env3 t3 req _ hgone
  refine ⟨hgone, hlog, ?_⟩
  intro hc
  obtain ⟨b, hb, hbc⟩ := hok hc
  refine ⟨b, hb, hbc, ?_, ?_⟩
  · rw [hbc, hnext]
    exact Nat.ne_of_gt hfresh
  · exact acquire_ok_lookup env3 t3 req _ b hb

theorem evicted_then_reacquired_witness :
    World.init.WF ∧
    (sweeper Drivers.hostile 300001
      (acquire Drivers.quiet 0 (.sqlite "a.db") World.init).2).connections.lookup
      .sqlite "a.db" = none ∧
    (acquire Drivers.quiet 300002 (.sqlite "a.db") (sweeper Drivers.hostile 300001
      (acquire Drivers.quiet 0 (.sqlite "a.db") World.init).2)).1 = .ok (.handle 1) := by
  have h := evicted_then_reacquired Drivers.quiet Drivers.hostile Drivers.quiet 0 300001 300002
    (.sqlite "a.db") World.init (.handle 0) (by decide) rfl (by decide)
  exact ⟨by decide, h.1, rfl⟩

/-! ## `close_connections` on a connection that is not registered -/

/-- C6, as stated, fails: an empty `connection_id` is falsy, so the call is
the bulk form.  With one SQLite connection registered and no entry under the
key `""`, `close_connections("sqlite", "")` closes that connection. -/
theorem close_connections_absent_counterexample :
    ¬ ∀ (env : Drivers) (w : World) (database_type connection_id : String),
      (∀ t, lookupConnections database_type = .map t →
        w.connections.lookup t connection_id = none) →
      close_connections env (some database_type) (some connection_id) w =
        (closedResponse 0, w) := by
  intro h
  have h1 := h Drivers.quiet World.oneSQLite "sqlite" "" (by
    intro t ht
    have : t = .sqlite := by
      have h2 : lookupConnections "sqlite" = .map .sqlite := by decide
      rw [h2] at ht
      cases ht
      rfl
    subst this
    decide)
  have h2 := congrArg (fun r => r.2.closeLog) h1
  revert h2
  decide

/-- C6, amended: for every registry, every non-empty `connection_id` and every
non-empty `database_type` that is not a property name inherited from
`Object.prototype` (one of the four map names, or an unknown name), when the
registry holds no entry for the pair, `close_connections` answers with the
non-error response reporting 0 closed connections, makes no `close` call and
leaves the registry unchanged. -/
theorem close_connections_absent (env : Drivers) (w : World)
    (database_type connection_id : String) (hd : database_type ≠ "")
    (hc : connection_id ≠ "") (hp : database_type ∉ objectPrototypeKeys)
    (habs : ∀ t, lookupConnections database_type = .map t →
      w.connections.lookup t connection_id = none) :
    close_connections env (some database_type) (some connection_id) w =
      (closedResponse 0, w) := by
  have ht1 : argTruthy (some database_type) = true := by simp [argTruthy, hd]
  have ht2 : argTruthy (some connection_id) = true := by simp [argTruthy, hc]
  unfold close_connections
  simp only [ht1, ht2, Bool.and_self, if_true, Option.getD_some]
  cases hL : lookupConnections database_type with
  | undefined => rfl
  | inherited =>
    exfalso
    unfold lookupConnections at hL
    split_ifs at hL
  | map t =>
    have hn := habs t hL
    cases t with
    | sqlite =>
      have hg : JSMap.get w.connections.sqlite connection_id = none := by
        simpa [Connections.lookup] using hn
      simp [closeOne, hg]
    | postgres =>
      have hg : JSMap.get w.connections.postgres connection_id = none := by
        simpa [Connections.lookup] using hn
      simp [closeOne, hg]
    | mongodb =>
      have hg : JSMap.get w.connections.mongodb connection_id = none := by
        simpa [Connections.lookup] using hn
      simp [closeOne, hg]
    | mysql =>
      have hg : JSMap.get w.connections.mysql connection_id = none := by
        simpa [Connections.lookup] using hn
      simp [closeOne, hg]

theorem close_connections_absent_witness :
    close_connections Drivers.hostile (some "sqlite") (some "b.db") World.oneSQLite =
        (closedResponse 0, World.oneSQLite) ∧
    close_connections Drivers.hostile (some "oracle") (some "a.db") World.oneSQLite =
        (closedResponse 0, World.oneSQLite) :=
  ⟨close_connections_absent Drivers.hostile World.oneSQLite "sqlite" "b.db" (by decide)
      (by decide) (by decide) (by
        intro t ht
        have h2 : lookupConnections "sqlite" = .map .sqlite := by decide
        rw [h2] at ht
        cases ht
        decide),
    close_connections_absent Drivers.hostile World.oneSQLite "oracle" "a.db" (by decide)
      (by decide) (by decide) (by
        intro t ht
        have h2 : lookupConnections "oracle" = .undefined := by decide
        rw [h2] at ht
        cases ht)⟩

/-! ## `close_connections` on a registered connection -/

theorem JSMap.get_delete_self {α : Type} {m : JSMap α} (hm : JSMap.KeysNodup m) (k : String) :
    JSMap.get (JSMap.delete m k) k = none := by
  induction m with
  | nil => simp [JSMap.delete, JSMap.get]
  | cons p m ih =>
    obtain ⟨k0, v0⟩ := p
    have hm' : k0 ∉ m.map Prod.fst ∧ JSMap.KeysNodup m := by
      simpa [JSMap.KeysNodup] using hm
    by_cases h0 : k0 = k
    · subst h0
      simp only [JSMap.delete, if_true]
      exact (JSMap.get_eq_none_iff m k0).2 hm'.1
    · simp [JSMap.delete, JSMap.get, h0, ih hm'.2]

/-- What the single-connection branch does on one map that holds the key: a
close that returns removes the entry and counts it, a close that throws leaves
the map as it is and counts nothing. -/
theorem closeOne_present {α : Type} (env : Drivers) (handle : α → Handle) (m : JSMap α)
    (id : String) (log : List Handle) (conn : α) (hm : JSMap.KeysNodup m)
    (hg : JSMap.get m id = some conn) :
    (env.closeRaises (handle conn) = false →
      JSMap.get (closeOne env handle m id log).1 id = none ∧
      (closeOne env handle m id log).2.2 = 1) ∧
    (env.closeRaises (handle conn) = true →
      (closeOne env handle m id log).1 = m ∧ (closeOne env handle m id log).2.2 = 0) := by
  constructor
  · intro hc
    simp [closeOne, hg, closeHandle, hc, JSMap.get_delete_self hm]
  · intro hc
    simp [closeOne, hg, closeHandle, hc]

/-- C7, at the failing input: one SQLite connection is registered under
`a.db` and `close()` on its driver object throws.  After
`close_connections("sqlite", "a.db")` the registry still holds the entry, the
close call was made, and the response reports 0 closed connections. -/
theorem close_connections_throwing_close_keeps_entry :
    (close_connections Drivers.hostile (some "sqlite") (some "a.db") World.oneSQLite).1 =
      closedResponse 0 ∧
    (close_connections Drivers.hostile (some "sqlite") (some "a.db")
      World.oneSQLite).2.connections.lookup .sqlite "a.db" = some (0, 0) ∧
    (close_connections Drivers.hostile (some "sqlite") (some "a.db")
      World.oneSQLite).2.closeLog = [0] := by
  decide

/-! ## The bulk forms of `close_connections` -/

theorem closeEach_eq {α : Type} (env : Drivers) (handle : α → Handle) (m : List (String × α))
    (log : List Handle) (closed : Nat) :
    closeEach env handle m (log, closed) =
      (log ++ m.map (fun p => handle p.2),
       closed + closedCount env (m.map (fun p => handle p.2))) := by
  induction m generalizing log closed with
  | nil => simp [closeEach, closedCount]
  | cons p m ih =>
    obtain ⟨id, conn⟩ := p
    cases hc : env.closeRaises (handle conn) with
    | true =>
      simp only [closeEach, closeHandle, hc, ih, closedCount, List.map_cons, List.append_assoc,
        List.singleton_append, Prod.mk.injEq, true_and]
      rw [List.countP_cons_of_neg]
      simp [hc]
    | false =>
      simp only [closeEach, closeHandle, hc, ih, closedCount, List.map_cons, List.append_assoc,
        List.singleton_append, Prod.mk.injEq, true_and]
      rw [List.countP_cons_of_pos]
      · omega
      · simp [hc]

/-- C8: in the bulk forms of `close_connections` a close call is made on every
entry of every targeted map, in map order, whether or not earlier calls threw;
afterwards every targeted map is empty and every other map is unchanged, and
the response reports the number of close calls that did not throw.  The first
part is the form with a `database_type` and no `connection_id`, the second the
form with neither argument. -/
theorem close_connections_bulk (env : Drivers) (w : World) :
    (∀ t : DbType, close_connections env (some t.name) none w =
      (closedResponse (closedCount env (w.connections.handlesOf t)),
        { w with
          connections := w.connections.cleared t
          closeLog := w.closeLog ++ w.connections.handlesOf t })) ∧
    close_connections env none none w =
      (closedResponse (closedCount env w.connections.handles),
        { w with
          connections := { sqlite := [], postgres := [], mongodb := [], mysql := [] }
          closeLog := w.closeLog ++ w.connections.handles }) := by
  constructor
  · intro t
    cases t <;>
      simp [close_connections, argTruthy, DbType.name, lookupConnections, closeEach_eq,
        Connections.handlesOf, Connections.cleared, JSMap.clear]
  · simp [close_connections, argTruthy, closeEach_eq, Connections.handles, Connections.stamps,
      JSMap.clear, closedCount, List.countP_append, Nat.add_assoc, Function.comp_def]

/-! ## Read/write classification of a SQLite query -/

/-- C9, as stated, fails: the query `selection x` has the leading token
`selection`, which is not the keyword, and `querySQLite` classifies it as a
read. -/
theorem isSelect_leading_token_counterexample :
    ¬ ∀ q : String, (isSelect q = true ↔ specIsRead q = true) := by
  intro h
  have h1 : isSelect "selection x" = true := by decide
  have h2 : specIsRead "selection x" = false := by decide
  rw [(h "selection x").1 h1] at h2
  exact Bool.noConfusion h2

theorem isSelect_iff_begins_with_select (q : String) :
    isSelect q = true ↔
      ∃ rest, (toLowerCase (trim q)).toList = 's' :: 'e' :: 'l' :: 'e' :: 'c' :: 't' :: rest := by
  unfold isSelect startsWith
  rw [ List.isPrefixOf_iff_prefix]
  constructor
  · rintro ⟨t, ht⟩
    exact ⟨t, ht.symm⟩
  · rintro ⟨t, ht⟩
    exact ⟨t, ht.symm⟩

theorem isSelect_of_specIsRead (q : String) (h : specIsRead q = true) : isSelect q = true := by
  have h1 : specLeadingToken q = "select" := by simpa [specIsRead] using h
  have h2 := congrArg String.data h1
  simp only [specLeadingToken] at h2
  unfold isSelect startsWith
  rw [ List.isPrefixOf_iff_prefix]
  have h3 := List.takeWhile_prefix (fun c => !isTrimmed c) (l := (toLowerCase (trim q)).toList)
  rw [h2] at h3
  exact h3

/-- C9, amended: `querySQLite` takes the read path exactly when the query,
trimmed and lower-cased, begins with the six letters `select`.  So every query
whose leading token is the keyword is a read, and a query that succeeds is
answered with type `select` exactly in that case; a query whose first token
only begins with `select`, such as `selection x`, is a read as well. -/
theorem querySQLite_read_iff_begins_with_select (env : Drivers) (now : Int) (args : SQLiteArgs)
    (w : World) :
    (isSelect args.query = true ↔
      ∃ rest, (toLowerCase (trim args.query)).toList =
        's' :: 'e' :: 'l' :: 'e' :: 'c' :: 't' :: rest) ∧
    (specIsRead args.query = true → isSelect args.query = true) ∧
    (∀ r, (querySQLite env now args w).1 = .ok r →
      (r.type = "select" ↔ isSelect args.query = true)) := by
  refine ⟨isSelect_iff_begins_with_select _, isSelect_of_specIsRead _, ?_⟩
  intro r hr
  unfold querySQLite at hr
  cases hq : isSelect args.query with
  | true =>
    rcases hconn : getSQLiteConnection env now args.database_path w with ⟨res, w1⟩
    rw [hconn] at hr
    cases res with
    | error err => simp at hr
    | ok db =>
      simp only [hq, if_true] at hr
      cases hall : env.sqliteAll db args.query (args.params.getD []) with
      | error err => simp [hall] at hr
      | ok rows =>
        simp only [hall, Except.ok.injEq] at hr
        subst hr
        simp
  | false =>
    rcases hconn : getSQLiteConnection env now args.database_path w with ⟨res, w1⟩
    rw [hconn] at hr
    cases res with
    | error err => simp at hr
    | ok db =>
      simp only [hq, Bool.false_eq_true, if_false] at hr
      cases hrun : env.sqliteRun db args.query (args.params.getD []) with
      | error err => simp [hrun] at hr
      | ok info =>
        simp only [hrun, Except.ok.injEq] at hr
        subst hr
        simp

theorem querySQLite_read_iff_begins_with_select_witness :
    isSelect "selection x" = true ∧
    (∀ r, (querySQLite Drivers.quiet 0 ⟨"a.db", "selection x", none⟩ World.init).1 = .ok r →
      r.type = "select") :=
  ⟨(querySQLite_read_iff_begins_with_select Drivers.quiet 0 ⟨"a.db", "selection x", none⟩
      World.init).1.2 ⟨['i', 'o', 'n', ' ', 'x'], by decide⟩,
    fun r hr =>
      ((querySQLite_read_iff_begins_with_select Drivers.quiet 0 ⟨"a.db", "selection x", none⟩
        World.init).2.2 r hr).2 (by decide)⟩

/-! ## Read results of the SQLite and PostgreSQL variants -/

/-- C10: when the connection is obtained and the backend answers with a list
of rows `r` (for SQLite: to a query classified as read; for PostgreSQL: in a
response that carries a `rows` array), the result is the read result of type
`select` whose `rowCount` is the length of `r` and whose `raw` is `r` itself.
This includes the empty list, which is a result and not an error. -/
theorem read_result_counts_rows (env : Drivers) (now : Int) (w w1 : World) (h : Handle)
    (r : List Row) :
    (∀ args : SQLiteArgs,
      getSQLiteConnection env now args.database_path w = (.ok h, w1) →
      isSelect args.query = true →
      env.sqliteAll h args.query (args.params.getD []) = .ok r →
      querySQLite env now args w =
        (.ok { type := "select", rowCount := .num r.length,
               data := formatTableResults (some r), raw := some r }, w1)) ∧
    (∀ (args : PgArgs) (res : PgResult),
      getPostgresConnection env now args.config w = (.ok h, w1) →
      env.pgQuery h args.query (args.params.getD []) = .ok res →
      res.rows = some r →
      queryPostgreSQL env now args w =
        (.ok { type := "select", rowCount := .num r.length,
               data := formatTableResults (some r), raw := some r }, w1)) := by
  constructor
  · intro args hconn hsel hall
    simp [querySQLite, hconn, hsel, hall]
  · intro args res hconn hq hrows
    simp [queryPostgreSQL, hconn, hq, hrows]

theorem read_result_counts_rows_witness :
    querySQLite Drivers.quiet 7 ⟨"a.db", "  SELECT * FROM t", none⟩ World.oneSQLite =
      (.ok { type := "select", rowCount := .num 0, data := "No data found", raw := some [] },
        (getSQLiteConnection Drivers.quiet 7 "a.db" World.oneSQLite).2) ∧
    queryPostgreSQL Drivers.quiet 7
        ⟨.undefined, .undefined, .str "d", .str "u", .str "p", "DELETE FROM t", none⟩
        World.init =
      (.ok { type := "select", rowCount := .num 0, data := "No data found", raw := some [] },
        (getPostgresConnection Drivers.quiet 7
          ⟨.str "localhost", .num 5432, .str "d", .str "u", .str "p"⟩ World.init).2) :=
  ⟨(read_result_counts_rows Drivers.quiet 7 World.oneSQLite _ 0 []).1
      ⟨"a.db", "  SELECT * FROM t", none⟩ rfl (by decide) rfl,
    (read_result_counts_rows Drivers.quiet 7 World.init _ 0 []).2
      ⟨.undefined, .undefined, .str "d", .str "u", .str "p", "DELETE FROM t", none⟩
      ⟨some [], .num 0⟩ rfl rfl rfl⟩

/-! ## Read results of the MySQL variant -/

/-- The MySQL variant on a non-empty array of rows: the read result whose
`rowCount` is the number of rows and whose `raw` is the array. -/
theorem queryMySQL_rows (env : Drivers) (now : Int) (args : MySQLArgs) (w w1 : World)
    (h : Handle) (first : Row) (more : List Row)
    (hconn : getMySQLConnection env now args.config w = (.ok h, w1))
    (hexec : env.mysqlExecute h args.query (args.params.getD []) = .ok (.array (first :: more))) :
    queryMySQL env now args w =
      (.ok { type := "select", rowCount := .num (first :: more).length,
             data := formatTableResults (some (first :: more)),
             raw := some (first :: more) }, w1) := by
  simp [queryMySQL, hconn, hexec]

/-- The MySQL variant on an empty array of rows, for every query and state:
the result has type `modify`, `affectedRows` 0 and no `raw`. -/
theorem queryMySQL_no_rows (env : Drivers) (now : Int) (args : MySQLArgs) (w w1 : World)
    (h : Handle) (hconn : getMySQLConnection env now args.config w = (.ok h, w1))
    (hexec : env.mysqlExecute h args.query (args.params.getD []) = .ok (.array [])) :
    queryMySQL env now args w =
      (.ok { type := "modify", affectedRows := .num 0, insertId := .null,
             data := "Query executed successfully. Affected rows: 0" }, w1) := by
  simp [queryMySQL, hconn, hexec, JSVal.or, JSVal.truthy, JSVal.toStr]
  rfl

/-- C11, at the failing input: the backend answers the read query
`SELECT * FROM t WHERE 1 = 0` with the empty list of rows.  `queryMySQL` returns
a result of type `modify` without `raw`, and the dispatcher shows it as a
modification of 0 rows. -/
theorem queryMySQL_empty_select_is_modify :
    (queryMySQL Drivers.quiet 0 (sampleMySQLArgs "SELECT * FROM t WHERE 1 = 0") World.init).1 =
      .ok { type := "modify", affectedRows := .num 0, insertId := .null,
            data := "Query executed successfully. Affected rows: 0" } ∧
    (query_mysql Drivers.quiet 0 (sampleMySQLArgs "SELECT * FROM t WHERE 1 = 0")
        World.init).1.text =
      "📊 MySQL Query Result:\n\nQuery executed successfully. Affected rows: 0\n\n" ++
        "💡 Type: modify | Rows: 0" := by
  constructor
  · rfl
  · decide

/-! ## Write results -/

/-- The PostgreSQL variant on a response without a `rows` property: the write
result with the reported count. -/
theorem queryPostgreSQL_without_rows (env : Drivers) (now : Int) (args : PgArgs) (w w1 : World)
    (h : Handle) (n : JSVal) (hconn : getPostgresConnection env now args.config w = (.ok h, w1))
    (hq : env.pgQuery h args.query (args.params.getD []) = .ok { rows := none, rowCount := n }) :
    queryPostgreSQL env now args w =
      (.ok { type := "modify", rowCount := n,
             data := "Query executed successfully. Rows affected: " ++ n.toStr }, w1) := by
  simp [queryPostgreSQL, hconn, hq]

/-- C12, at the failing input: the backend answers `DELETE FROM t` with an
empty `rows` array and the affected-row count 3.  `queryPostgreSQL` returns a
result of type `select` whose `rowCount` is 0, and the dispatcher shows 0
rows. -/
theorem queryPostgreSQL_write_with_rows_is_select :
    (queryPostgreSQL Drivers.pgWrote3 0 (sampleSQLArgs "DELETE FROM t") World.init).1 =
      .ok { type := "select", rowCount := .num 0, data := "No data found", raw := some [] } ∧
    (query_postgresql Drivers.pgWrote3 0 (sampleSQLArgs "DELETE FROM t") World.init).1.text =
      "📊 PostgreSQL Query Result:\n\nNo data found\n\n💡 Type: select | Rows: 0" := by
  constructor
  · rfl
  · decide

theorem JSVal.or_zero_num (n : Nat) : (JSVal.num n).or (.num 0) = .num n := by
  cases n with
  | zero => rfl
  | succ k =>
    have : ((k : Int) + 1 != 0) = true := by
      simp only [bne_iff_ne, ne_eq]
      omega
    simp [JSVal.or, JSVal.truthy, this]

/-- C13: on the write path of the SQLite and MySQL variants, for every
affected-row count `n` (0 included) and identifier `i` reported by the
backend, the result has type `modify`, its count field (`changes`,
`affectedRows`) is `n`, and the count the dispatcher shows is `n`.  The
identifier field is `i` for SQLite; for MySQL it is `i` when the backend
reports one (a truthy `insertId`), and `null` otherwise. -/
theorem write_result_counts (env : Drivers) (now : Int) (w w1 : World) (h : Handle) (n : Nat)
    (i : JSVal) :
    (∀ args : SQLiteArgs,
      getSQLiteConnection env now args.database_path w = (.ok h, w1) →
      isSelect args.query = false →
      env.sqliteRun h args.query (args.params.getD []) = .ok { changes := .num n, lastID := i } →
      ∃ r, querySQLite env now args w = (.ok r, w1) ∧ r.type = "modify" ∧
        r.changes = .num n ∧ r.lastID = i ∧ r.sqliteShown = .num n) ∧
    (∀ args : MySQLArgs,
      getMySQLConnection env now args.config w = (.ok h, w1) →
      env.mysqlExecute h args.query (args.params.getD []) = .ok (.header (.num n) i) →
      ∃ r, queryMySQL env now args w = (.ok r, w1) ∧ r.type = "modify" ∧
        r.affectedRows = .num n ∧ r.insertId = (if i.truthy then i else .null) ∧
        r.mysqlShown = .num n) := by
  constructor
  · intro args hconn hsel hrun
    refine ⟨_, by simp [querySQLite, hconn, hsel, hrun]; rfl, rfl, rfl, rfl, ?_⟩
    show (JSVal.num n).or (.num 0) = .num n
    exact JSVal.or_zero_num n
  · intro args hconn hexec
    refine ⟨_, by simp [queryMySQL, hconn, hexec]; rfl, rfl, JSVal.or_zero_num n, rfl, ?_⟩
    show (JSVal.undefined.or ((JSVal.num n).or (.num 0))).or (.num 0) = .num n
    rw [JSVal.or_zero_num]
    exact JSVal.or_zero_num n

theorem write_result_counts_witness :
    (∃ r, querySQLite Drivers.quiet 0 ⟨"a.db", "DELETE FROM t WHERE 1 = 0", none⟩ World.init =
        (.ok r, (getSQLiteConnection Drivers.quiet 0 "a.db" World.init).2) ∧
      r.type = "modify" ∧ r.changes = .num (0 : Nat) ∧ r.lastID = .num 0 ∧
      r.sqliteShown = .num (0 : Nat)) ∧
    (∃ r, queryMySQL
          { Drivers.quiet with mysqlExecute := fun _ _ _ => .ok (.header (.num (2 : Nat)) (.num 7)) }
          0 (sampleMySQLArgs "UPDATE t SET a = 1") World.init =
        (.ok r, (getMySQLConnection Drivers.quiet 0 (sampleMySQLArgs "").config World.init).2) ∧
      r.type = "modify" ∧ r.affectedRows = .num (2 : Nat) ∧
      r.insertId = (if (JSVal.num 7).truthy then .num 7 else .null) ∧
      r.mysqlShown = .num (2 : Nat)) :=
  ⟨(write_result_counts Drivers.quiet 0 World.init _ 0 0 (.num 0)).1
      ⟨"a.db", "DELETE FROM t WHERE 1 = 0", none⟩ rfl (by decide) rfl,
    (write_result_counts
      { Drivers.quiet with mysqlExecute := fun _ _ _ => .ok (.header (.num (2 : Nat)) (.num 7)) }
      0 World.init _ 0 2 (.num 7)).2 (sampleMySQLArgs "UPDATE t SET a = 1") rfl rfl⟩

/-! ## Operation names of the document variant -/

/-- C14: when the connection is obtained and the backend call of the request
succeeds, `queryMongoDB` fails exactly for the operation names other than
`find`, `insertOne`, `insertMany`, `updateOne`, `deleteOne` and `aggregate`;
for such a name `s` the error message is `Unsupported operation: s` and no
collection method is called on the backend. -/
theorem queryMongoDB_fails_iff_unsupported (env : Drivers) (now : Int) (args : MongoArgs)
    (w w1 : World) (hs : MongoHandles)
    (hconn : getMongoConnection env now args.config args.force_new_connection w = (.ok hs, w1))
    (hcall : env.mongoCallSucceeds hs.db args) :
    ((∃ e, (queryMongoDB env now args w).result = .error e) ↔
      args.operation ∉ mongoOperations) ∧
    (args.operation ∉ mongoOperations →
      (queryMongoDB env now args w).result =
        .error { message := "Unsupported operation: " ++ args.operation } ∧
      (queryMongoDB env now args w).calls = []) := by
  obtain ⟨h1, h2, h3, h4, h5, h6⟩ := hcall
  have hbad : args.operation ∉ mongoOperations →
      (queryMongoDB env now args w).result =
        .error { message := "Unsupported operation: " ++ args.operation } ∧
      (queryMongoDB env now args w).calls = [] := by
    intro hn
    simp only [mongoOperations, List.mem_cons, List.mem_singleton, not_or, List.mem_nil_iff,
      or_false] at hn
    obtain ⟨n1, n2, n3, n4, n5, n6⟩ := hn
    unfold queryMongoDB
    simp only [hconn]
    exact ⟨trivial, trivial⟩
  refine ⟨⟨?_, fun hn => ⟨_, (hbad hn).1⟩⟩, hbad⟩
  rintro ⟨e, he⟩
  intro hmem
  simp only [mongoOperations, List.mem_cons, List.mem_singleton, List.mem_nil_iff,
    or_false] at hmem
  unfold queryMongoDB at he
  simp only [hconn] at he
  rcases hmem with hm | hm | hm | hm | hm | hm
  · obtain ⟨r, hr⟩ := h1 hm
    simp [hm, hr] at he
  · obtain ⟨r, hr⟩ := h2 hm
    simp [hm, hr] at he
  · obtain ⟨r, hr⟩ := h3 hm
    simp [hm, hr] at he
  · obtain ⟨r, hr⟩ := h4 hm
    simp [hm, hr] at he
  · obtain ⟨r, hr⟩ := h5 hm
    simp [hm, hr] at he
  · obtain ⟨r, hr⟩ := h6 hm
    simp [hm, hr] at he

theorem queryMongoDB_fails_iff_unsupported_witness :
    Drivers.arrayChecking.mongoCallSucceeds 1 (sampleMongoArgs "find") ∧
    ¬ Drivers.arrayChecking.mongoCallSucceeds 1 (sampleMongoArgs "insertMany") ∧
    ¬ (∃ e, (queryMongoDB Drivers.arrayChecking 0 (sampleMongoArgs "find") World.init).result =
      .error e) ∧
    (queryMongoDB Drivers.arrayChecking 0 (sampleMongoArgs "drop") World.init).result =
      .error { message := "Unsupported operation: " ++ (sampleMongoArgs "drop").operation } ∧
    (queryMongoDB Drivers.arrayChecking 0 (sampleMongoArgs "drop") World.init).calls = [] :=
  have hfind : Drivers.arrayChecking.mongoCallSucceeds 1 (sampleMongoArgs "find") :=
    ⟨fun _ => ⟨_, rfl⟩, fun h => absurd h (by decide), fun h => absurd h (by decide),
      fun h => absurd h (by decide), fun h => absurd h (by decide),
      fun h => absurd h (by decide)⟩
  have hdrop : Drivers.arrayChecking.mongoCallSucceeds 1 (sampleMongoArgs "drop") :=
    ⟨fun h => absurd h (by decide), fun h => absurd h (by decide),
      fun h => absurd h (by decide), fun h => absurd h (by decide),
      fun h => absurd h (by decide), fun h => absurd h (by decide)⟩
  ⟨hfind,
    fun h => by
      obtain ⟨r, hr⟩ := h.2.2.1 rfl
      exact Except.noConfusion hr,
    fun h => (queryMongoDB_fails_iff_unsupported Drivers.arrayChecking 0
      (sampleMongoArgs "find") World.init _ { client := 0, db := 1 } rfl hfind).1.1 h
        (by decide),
    (queryMongoDB_fails_iff_unsupported Drivers.arrayChecking 0 (sampleMongoArgs "drop")
      World.init _ { client := 0, db := 1 } rfl hdrop).2 (by decide)⟩

/-! ## Counts of the document variant -/

/-- A successful `insertOne`, for every document and state: the result carries
the `insertedId` and no count field of any name, and the dispatcher shows 0. -/
theorem queryMongoDB_insertOne (env : Drivers) (now : Int) (args : MongoArgs) (w w1 : World)
    (hs : MongoHandles) (id : JSVal) (hop : args.operation = "insertOne")
    (hconn : getMongoConnection env now args.config args.force_new_connection w = (.ok hs, w1))
    (hins : env.mongoInsertOne hs.db args.collection args.document = .ok id) :
    ∃ r, (queryMongoDB env now args w).result = .ok r ∧ r.type = "insert" ∧
      r.insertedId = id ∧ r.count = .undefined ∧ r.insertedCount = .undefined ∧
      r.shown = .num 0 := by
  unfold queryMongoDB
  simp only [hconn, hop, hins]
  exact ⟨_, rfl, rfl, rfl, rfl, rfl, rfl⟩

/-- C15, at the failing input: `insertOne` of the document `{a: 1}`
succeeds.  The result of `queryMongoDB` has no `count` (nor `insertedCount`),
and the `query_mongodb` dispatcher reports the count 0. -/
theorem query_mongodb_insertOne_shows_zero :
    (∃ r, (queryMongoDB Drivers.quiet 0 (sampleMongoArgs "insertOne") World.init).result = .ok r ∧
      r.type = "insert" ∧ r.count = .undefined ∧ r.insertedCount = .undefined ∧
      r.shown = .num 0) ∧
    (query_mongodb Drivers.quiet 0 (sampleMongoArgs "insertOne") World.init).1.text =
      "📊 MongoDB Operation Result:\n\nDocument inserted with ID: 65f0c0ffee\n\n" ++
        "💡 Operation: insert | Count: 0" := by
  constructor
  · exact ⟨_, rfl, rfl, rfl, rfl, rfl⟩
  · decide

theorem JSVal.or_eq_left {a : JSVal} (b : JSVal) (h : a.truthy = true) : a.or b = a := by
  simp [JSVal.or, h]

theorem JSVal.num_succ_truthy (k : Nat) : (JSVal.num ((k + 1 : Nat) : Int)).truthy = true := by
  simp only [JSVal.truthy, bne_iff_ne, ne_eq]
  omega

theorem MongoResult.shown_count (type data : String) (n : Nat) (raw : Option (List Json)) :
    MongoResult.shown { type := type, count := .num n, data := data, raw := raw } = .num n := by
  show ((((JSVal.num n).or .undefined).or .undefined).or .undefined).or (.num 0) = .num n
  cases n with
  | zero => rfl
  | succ k => simp only [JSVal.or_eq_left _ (JSVal.num_succ_truthy k)]

theorem MongoResult.shown_insertedCount (type data : String) (n : Nat) :
    MongoResult.shown { type := type, insertedCount := .num n, data := data } = .num n := by
  show (((JSVal.num n).or .undefined).or .undefined).or (.num 0) = .num n
  cases n with
  | zero => rfl
  | succ k => simp only [JSVal.or_eq_left _ (JSVal.num_succ_truthy k)]

theorem MongoResult.shown_modifiedCount (type data : String) (n : Nat) :
    MongoResult.shown { type := type, modifiedCount := .num n, data := data } = .num n := by
  show ((JSVal.num n).or .undefined).or (.num 0) = .num n
  cases n with
  | zero => rfl
  | succ k => simp only [JSVal.or_eq_left _ (JSVal.num_succ_truthy k)]

theorem MongoResult.shown_deletedCount (type data : String) (n : Nat) :
    MongoResult.shown { type := type, deletedCount := .num n, data := data } = .num n := by
  show (JSVal.num n).or (.num 0) = .num n
  cases n with
  | zero => rfl
  | succ k => simp only [JSVal.or_eq_left _ (JSVal.num_succ_truthy k)]

/-- C16: for `find`, `insertMany`, `updateOne`, `deleteOne` and `aggregate`,
when the connection is obtained and the backend call succeeds, the count that
the `query_mongodb` dispatcher shows is the number of documents found, the
backend's `insertedCount`, `modifiedCount`, `deletedCount`, and the number of
documents the pipeline put out, also when that number is 0. -/
theorem query_mongodb_shows_count (env : Drivers) (now : Int) (args : MongoArgs) (w w1 : World)
    (hs : MongoHandles) (n : Nat) (docs : List Json)
    (hconn : getMongoConnection env now args.config args.force_new_connection w = (.ok hs, w1)) :
    (args.operation = "find" →
      env.mongoFind hs.db args.collection (args.filter.getD (.obj [])) (args.options.getD (.obj [])) = .ok docs →
      ∃ r, (queryMongoDB env now args w).result = .ok r ∧ r.shown = .num docs.length ∧
        (query_mongodb env now args w).1 =
          { text := queryText "MongoDB Operation Result" r.data ("Operation: " ++ r.type)
              "Count" (.num docs.length)
            isError := false }) ∧
    (args.operation = "insertMany" →
      env.mongoInsertMany hs.db args.collection args.document = .ok (.num n) →
      ∃ r, (queryMongoDB env now args w).result = .ok r ∧ r.shown = .num n ∧
        (query_mongodb env now args w).1 =
          { text := queryText "MongoDB Operation Result" r.data ("Operation: " ++ r.type)
              "Count" (.num n)
            isError := false }) ∧
    (args.operation = "updateOne" →
      env.mongoUpdateOne hs.db args.collection (args.filter.getD (.obj [])) args.update (args.options.getD (.obj [])) = .ok (.num n) →
      ∃ r, (queryMongoDB env now args w).result = .ok r ∧ r.shown = .num n ∧
        (query_mongodb env now args w).1 =
          { text := queryText "MongoDB Operation Result" r.data ("Operation: " ++ r.type)
              "Count" (.num n)
            isError := false }) ∧
    (args.operation = "deleteOne" →
      env.mongoDeleteOne hs.db args.collection (args.filter.getD (.obj [])) = .ok (.num n) →
      ∃ r, (queryMongoDB env now args w).result = .ok r ∧ r.shown = .num n ∧
        (query_mongodb env now args w).1 =
          { text := queryText "MongoDB Operation Result" r.data ("Operation: " ++ r.type)
              "Count" (.num n)
            isError := false }) ∧
    (args.operation = "aggregate" →
      env.mongoAggregate hs.db args.collection (args.filter.getD (.obj [])) = .ok docs →
      ∃ r, (queryMongoDB env now args w).result = .ok r ∧ r.shown = .num docs.length ∧
        (query_mongodb env now args w).1 =
          { text := queryText "MongoDB Operation Result" r.data ("Operation: " ++ r.type)
              "Count" (.num docs.length)
            isError := false }) := by
  refine ⟨?_, ?_, ?_, ?_, ?_⟩
  · intro hop hres
    have hq : (queryMongoDB env now args w).result = .ok 
        ({ type := "find", count := .num docs.length, data := formatMongoResults (some docs), raw := some docs } : MongoResult) := by
      unfold queryMongoDB
      simp only [hconn, hop, hres]
    refine ⟨_, hq, (MongoResult.shown_count _ _ docs.length _), ?_⟩
    unfold query_mongodb
    simp only [hq]
    rw [show MongoResult.shown 
        ({ type := "find", count := .num docs.length, data := formatMongoResults (some docs), raw := some docs } : MongoResult) = _ from (MongoResult.shown_count _ _ docs.length _)]
  · intro hop hres
    have hq : (queryMongoDB env now args w).result = .ok 
        ({ type := "insert", insertedCount := .num n, data := (JSVal.num n).toStr ++ " documents inserted" } : MongoResult) := by
      unfold queryMongoDB
      simp only [hconn, hop, hres]
    refine ⟨_, hq, (MongoResult.shown_insertedCount _ _ n), ?_⟩
    unfold query_mongodb
    simp only [hq]
    rw [show MongoResult.shown 
        ({ type := "insert", insertedCount := .num n, data := (JSVal.num n).toStr ++ " documents inserted" } : MongoResult) = _ from (MongoResult.shown_insertedCount _ _ n)]
  · intro hop hres
    have hq : (queryMongoDB env now args w).result = .ok 
        ({ type := "update", modifiedCount := .num n, data := (JSVal.num n).toStr ++ " document(s) updated" } : MongoResult) := by
      unfold queryMongoDB
      simp only [hconn, hop, hres]
    refine ⟨_, hq, (MongoResult.shown_modifiedCount _ _ n), ?_⟩
    unfold query_mongodb
    simp only [hq]
    rw [show MongoResult.shown 
        ({ type := "update", modifiedCount := .num n, data := (JSVal.num n).toStr ++ " document(s) updated" } : MongoResult) = _ from (MongoResult.shown_modifiedCount _ _ n)]
  · intro hop hres
    have hq : (queryMongoDB env now args w).result = .ok 
        ({ type := "delete", deletedCount := .num n, data := (JSVal.num n).toStr ++ " document(s) deleted" } : MongoResult) := by
      unfold queryMongoDB
      simp only [hconn, hop, hres]
    refine ⟨_, hq, (MongoResult.shown_deletedCount _ _ n), ?_⟩
    unfold query_mongodb
    simp only [hq]
    rw [show MongoResult.shown 
        ({ type := "delete", deletedCount := .num n, data := (JSVal.num n).toStr ++ " document(s) deleted" } : MongoResult) = _ from (MongoResult.shown_deletedCount _ _ n)]
  · intro hop hres
    have hq : (queryMongoDB env now args w).result = .ok 
        ({ type := "aggregate", count := .num docs.length, data := formatMongoResults (some docs), raw := some docs } : MongoResult) := by
      unfold queryMongoDB
      simp only [hconn, hop, hres]
    refine ⟨_, hq, (MongoResult.shown_count _ _ docs.length _), ?_⟩
    unfold query_mongodb
    simp only [hq]
    rw [show MongoResult.shown 
        ({ type := "aggregate", count := .num docs.length, data := formatMongoResults (some docs), raw := some docs } : MongoResult) = _ from (MongoResult.shown_count _ _ docs.length _)]

theorem query_mongodb_shows_count_witness :
    ∃ r, (queryMongoDB Drivers.quiet 0 (sampleMongoArgs "find") World.init).result = .ok r ∧
      r.shown = .num ([] : List Json).length ∧
      (query_mongodb Drivers.quiet 0 (sampleMongoArgs "find") World.init).1 =
        { text := queryText "MongoDB Operation Result" r.data ("Operation: " ++ r.type)
            "Count" (.num ([] : List Json).length)
          isError := false } :=
  (query_mongodb_shows_count Drivers.quiet 0 (sampleMongoArgs "find") World.init _ _ 0 [] rfl).1
    rfl rfl

/-! ## Rendering of an empty result -/

/-- C17: for an empty list of records, and for `null` or `undefined`,
`formatTableResults` returns the string `No data found` and
`formatMongoResults` returns the string `No documents found`; no header or
separator is produced. -/
theorem format_empty_is_sentinel :
    formatTableResults none = "No data found" ∧
    formatTableResults (some []) = "No data found" ∧
    formatMongoResults none = "No documents found" ∧
    formatMongoResults (some []) = "No documents found" :=
  ⟨rfl, rfl, rfl, rfl⟩

/-! ## Rendering of a cell -/

/-- The text of a cell, for every record and column: the string form of the
value when the value is truthy, the empty string for every falsy value. -/
theorem cellText_eq (row : Row) (col : String) :
    cellText row col = if (Row.get row col).truthy then (Row.get row col).toStr else "" := by
  unfold cellText JSVal.or
  split <;> rfl

/-- C20, at the failing input: the record `{n: 0, b: false}`.  The cells
of the number 0 and of the boolean `false` are rendered as the empty string,
not as `0` and `false`: the data line of the table holds only padding. -/
theorem formatTableResults_blanks_zero_and_false :
    cellText [("n", .num 0), ("b", .bool false)] "n" = "" ∧
    cellText [("n", .num 0), ("b", .bool false)] "b" = "" ∧
    formatTableResults (some [[("n", .num 0), ("b", .bool false)]]) = "n | b\n--|--\n  |  " := by
  decide

/-! ## Properties of JavaScript strings -/

theorem intercalate_go_data (acc sep : String) (l : List String) :
    (String.intercalate.go acc sep l).data =
      acc.data ++ l.flatMap (fun x => sep.data ++ x.data) := by
  induction l generalizing acc with
  | nil => simp [String.intercalate.go]
  | cons a as ih =>
    simp [String.intercalate.go, ih, String.data_append, List.append_assoc]

theorem list_intercalate_cons {α : Type} (sep a : List α) (as : List (List α)) :
    List.intercalate sep (a :: as) = a ++ as.flatMap (fun x => sep ++ x) := by
  induction as generalizing a with
  | nil => simp [List.intercalate]
  | cons b bs ih =>
    have := ih b
    simp only [List.intercalate, List.intersperse_cons_cons, List.flatten_cons, List.flatMap_cons,
      List.append_assoc] at this ⊢
    rw [this]

/-- The characters of a join: the characters of the parts with the characters
of the separator between them. -/
theorem intercalate_data (sep : String) (l : List String) :
    (sep.intercalate l).data = List.intercalate sep.data (l.map String.data) := by
  cases l with
  | nil => simp [String.intercalate, List.intercalate]
  | cons a as =>
    rw [List.map_cons, list_intercalate_cons]
    simp [String.intercalate, intercalate_go_data, List.flatMap_map]

theorem mem_intercalate_data (sep : String) (l : List String) (c : Char)
    (hc : c ∈ (sep.intercalate l).data) : c ∈ sep.data ∨ ∃ x ∈ l, c ∈ x.data := by
  cases l with
  | nil => simp [String.intercalate] at hc
  | cons a as =>
    rw [intercalate_data, List.map_cons, list_intercalate_cons] at hc
    simp only [List.mem_append, List.mem_flatMap, List.mem_map] at hc
    rcases hc with h | ⟨d, ⟨x, hx, rfl⟩, h | h⟩
    · exact Or.inr ⟨a, List.mem_cons_self _ _, h⟩
    · exact Or.inl h
    · exact Or.inr ⟨x, List.mem_cons_of_mem _ hx, h⟩

theorem jsLength_append (a b : String) : jsLength (a ++ b) = jsLength a + jsLength b := by
  simp [jsLength, String.toList, String.data_append]

theorem jsLength_replicate (n : Nat) (c : Char) (hc : c.val < 0x10000) :
    jsLength (String.mk (List.replicate n c)) = n := by
  simp [jsLength, String.toList, hc]

/-- Padding to a length that the string does not exceed yields that length. -/
theorem jsLength_padEnd (s : String) (w : Nat) (h : jsLength s ≤ w) :
    jsLength (padEnd s w) = w := by
  rw [padEnd, jsLength_append, jsLength_replicate _ _ (by decide)]
  omega

theorem jsLength_dashes (n : Nat) : jsLength (dashes n) = n :=
  jsLength_replicate n '-' (by decide)

theorem jsLength_intercalate_go (acc sep : String) (l : List String) :
    jsLength (String.intercalate.go acc sep l) =
      jsLength acc + (l.map (fun x => jsLength sep + jsLength x)).sum := by
  induction l generalizing acc with
  | nil => simp [String.intercalate.go]
  | cons a as ih =>
    simp only [String.intercalate.go, ih, jsLength_append, List.map_cons, List.sum_cons]
    omega

/-- The length of a join: the lengths of the parts and one separator between
each two of them. -/
theorem jsLength_intercalate (sep : String) (l : List String) :
    jsLength (sep.intercalate l) =
      (l.map jsLength).sum + jsLength sep * (l.length - 1) := by
  cases l with
  | nil => simp [String.intercalate, jsLength]
  | cons a as =>
    simp only [String.intercalate, jsLength_intercalate_go, List.map_cons, List.sum_cons,
      List.length_cons, Nat.add_sub_cancel]
    have : (as.map (fun x => jsLength sep + jsLength x)).sum =
        (as.map jsLength).sum + jsLength sep * as.length := by
      induction as with
      | nil => simp
      | cons b bs ih =>
        simp only [List.map_cons, List.sum_cons, List.length_cons, ih, Nat.mul_succ]
        omega
    omega

theorem le_foldl_max (l : List Nat) (a : Nat) : a ≤ l.foldl max a := by
  induction l generalizing a with
  | nil => exact Nat.le_refl _
  | cons b bs ih => exact Nat.le_trans (Nat.le_max_left a b) (ih (max a b))

theorem mem_le_foldl_max (l : List Nat) (a x : Nat) (hx : x ∈ l) : x ≤ l.foldl max a := by
  induction l generalizing a with
  | nil => cases hx
  | cons b bs ih =>
    rcases List.mem_cons.1 hx with h | h
    · subst h
      exact Nat.le_trans (Nat.le_max_right a x) (le_foldl_max bs (max a x))
    · exact ih (max a b) h

theorem foldl_max_mem (l : List Nat) (a : Nat) : l.foldl max a = a ∨ l.foldl max a ∈ l := by
  induction l generalizing a with
  | nil => exact Or.inl rfl
  | cons b bs ih =>
    show List.foldl max (max a b) bs = a ∨ List.foldl max (max a b) bs ∈ b :: bs
    rcases ih (max a b) with h | h
    · rcases Nat.le_total a b with hab | hab
      · right
        rw [h, Nat.max_eq_right hab]
        exact List.mem_cons_self _ _
      · left
        rw [h, Nat.max_eq_left hab]
    · right; exact List.mem_cons_of_mem _ h

/-! ## Properties of the column widths -/

/-- Under every name but `__proto__` the entry read is the number stored. -/
theorem maxWidth_of_ne (rows : List Row) (col : String) (hcol : col ≠ "__proto__") :
    maxWidth rows col = computedWidth rows col := by
  simp [maxWidth, hcol]

/-- Under the name `__proto__` no number is stored: the width counts as 0, so
`padEnd` adds nothing and `repeat` gives the empty string. -/
theorem maxWidth_proto (rows : List Row) :
    maxWidth rows "__proto__" = 0 ∧ (∀ s, padEnd s (maxWidth rows "__proto__") = s) ∧
      dashes (maxWidth rows "__proto__") = "" := by
  refine ⟨rfl, fun s => ?_, rfl⟩
  show s ++ String.mk (List.replicate (0 - jsLength s) ' ') = s
  rw [Nat.zero_sub]
  exact String.ext (by simp)

theorem le_maxWidth_name (rows : List Row) (col : String) (hcol : col ≠ "__proto__") :
    jsLength col ≤ maxWidth rows col := by
  rw [maxWidth_of_ne rows col hcol]
  exact le_foldl_max _ _

theorem le_maxWidth_cell (rows : List Row) (col : String) (hcol : col ≠ "__proto__")
    (row : Row) (h : row ∈ rows) : jsLength (cellText row col) ≤ maxWidth rows col := by
  rw [maxWidth_of_ne rows col hcol]
  exact mem_le_foldl_max _ _ _ (List.mem_map.2 ⟨row, h, rfl⟩)

theorem maxWidth_attained (rows : List Row) (col : String) (hcol : col ≠ "__proto__") :
    maxWidth rows col = jsLength col ∨
      ∃ row ∈ rows, maxWidth rows col = jsLength (cellText row col) := by
  rw [maxWidth_of_ne rows col hcol]
  rcases foldl_max_mem (rows.map (fun row => jsLength (cellText row col))) (jsLength col) with
    h | h
  · exact Or.inl h
  · obtain ⟨row, hrow, he⟩ := List.mem_map.1 h
    exact Or.inr ⟨row, hrow, he.symm⟩

/-- The function unfolds into the join of its lines. -/
theorem formatTableResults_cons (first : Row) (more : List Row) :
    formatTableResults (some (first :: more)) =
      "\n".intercalate
        (tableHeader (first :: more) (first.map Prod.fst) ::
          tableSeparator (first :: more) (first.map Prod.fst) ::
          (first :: more).map (tableDataRow (first :: more) (first.map Prod.fst))) := rfl

/-! ## The lines of a rendered table -/

/-- C18: for a non-empty list of `n` records, `formatTableResults` returns the
newline-join of `n + 2` lines.  The first is the header: the column names of
the first record, each followed by spaces only, joined by ` | `.  The second
is the separator, made of the characters `-` and `|` only.  Then comes one line
per record, in input order: the cells of the record, each followed by spaces
only, joined by ` | `. -/
theorem formatTableResults_lines (first : Row) (more : List Row) :
    formatTableResults (some (first :: more)) =
      "\n".intercalate
        (tableHeader (first :: more) (first.map Prod.fst) :: tableSeparator (first :: more) (first.map Prod.fst) :: (first :: more).map (tableDataRow (first :: more) (first.map Prod.fst))) ∧
    (tableHeader (first :: more) (first.map Prod.fst) :: tableSeparator (first :: more) (first.map Prod.fst) :: (first :: more).map (tableDataRow (first :: more) (first.map Prod.fst))).length =
      (first :: more).length + 2 ∧
    (tableHeader (first :: more) (first.map Prod.fst)).data =
      List.intercalate [' ', '|', ' ']
        ((first.map Prod.fst).map (fun col => col.data ++ List.replicate (maxWidth (first :: more) col - jsLength col) ' ')) ∧
    (∀ c ∈ (tableSeparator (first :: more) (first.map Prod.fst)).data, c = '-' ∨ c = '|') ∧
    (∀ row, (tableDataRow (first :: more) (first.map Prod.fst) row).data =
      List.intercalate [' ', '|', ' ']
        ((first.map Prod.fst).map (fun col => (cellText row col).data ++
          List.replicate (maxWidth (first :: more) col - jsLength (cellText row col)) ' '))) := by
  refine ⟨rfl, by simp, ?_, ?_, ?_⟩
  · rw [tableHeader, intercalate_data, List.map_map]
    rfl
  · intro c hc
    rcases mem_intercalate_data _ _ c hc with h | ⟨x, hx, h⟩
    · have h' : c ∈ ['-', '|', '-'] := h
      simp only [List.mem_cons, List.mem_singleton, List.mem_nil_iff, or_false] at h'
      rcases h' with h' | h' | h'
      · exact Or.inl h'
      · exact Or.inr h'
      · exact Or.inl h'
    · obtain ⟨col, _, rfl⟩ := List.mem_map.1 hx
      exact Or.inl (List.eq_of_mem_replicate h)
  · intro row
    rw [tableDataRow, intercalate_data, List.map_map]
    rfl

/-- C19, as stated, fails for a first record with an own key `__proto__`: for
the one record with the keys `__proto__` and `a`, the header, the separator and
the record line have the lengths 13, 4 and 5. -/
theorem table_lines_proto_counterexample :
    formatTableResults (some [[("__proto__", .num 1), ("a", .num 2)]]) =
      "__proto__ | a\n-|--\n1 | 2" ∧
    ¬ (jsLength (tableHeader [[("__proto__", .num 1), ("a", .num 2)]] ["__proto__", "a"]) =
        jsLength (tableSeparator [[("__proto__", .num 1), ("a", .num 2)]] ["__proto__", "a"]) ∧
      jsLength (tableHeader [[("__proto__", .num 1), ("a", .num 2)]] ["__proto__", "a"]) =
        jsLength (tableDataRow [[("__proto__", .num 1), ("a", .num 2)]] ["__proto__", "a"]
          [("__proto__", .num 1), ("a", .num 2)])) := by
  decide

/-- C19, amended: for a non-empty list of records whose first record has no
own key `__proto__`, the width of each column is the maximum of the length of
the column name and of the lengths of the rendered cells of that column: it
bounds them all and is one of them.  So padding adds to a cell and never cuts
it, a padded cell has the width of its column, and the header, the separator
and every record line have the same length: the sum of the column widths plus
3 for each column but one (`columns - 1` is 0 when there is no column).  Under
the name `__proto__` no width is stored: whatever the records, such a column
would be rendered without padding and with an empty part of the separator. -/
theorem table_lines_have_equal_length (first : Row) (more : List Row)
    (hproto : "__proto__" ∉ first.map Prod.fst) :
    (∀ col, col ≠ "__proto__" → jsLength col ≤ maxWidth (first :: more) col ∧
      (∀ row ∈ (first :: more), jsLength (cellText row col) ≤ maxWidth (first :: more) col) ∧
      (maxWidth (first :: more) col = jsLength col ∨
        ∃ row ∈ (first :: more), maxWidth (first :: more) col = jsLength (cellText row col))) ∧
    (∀ row ∈ (first :: more), ∀ col, col ≠ "__proto__" →
      jsLength (padEnd (cellText row col) (maxWidth (first :: more) col)) = maxWidth (first :: more) col ∧
      (cellText row col).data <+: (padEnd (cellText row col) (maxWidth (first :: more) col)).data) ∧
    jsLength (tableHeader (first :: more) (first.map Prod.fst)) =
      ((first.map Prod.fst).map (maxWidth (first :: more))).sum + 3 * ((first.map Prod.fst).length - 1) ∧
    jsLength (tableSeparator (first :: more) (first.map Prod.fst)) =
      ((first.map Prod.fst).map (maxWidth (first :: more))).sum + 3 * ((first.map Prod.fst).length - 1) ∧
    (∀ row ∈ (first :: more), jsLength (tableDataRow (first :: more) (first.map Prod.fst) row) =
      ((first.map Prod.fst).map (maxWidth (first :: more))).sum + 3 * ((first.map Prod.fst).length - 1)) ∧
    (maxWidth (first :: more) "__proto__" = 0 ∧
      (∀ s, padEnd s (maxWidth (first :: more) "__proto__") = s) ∧
      dashes (maxWidth (first :: more) "__proto__") = "") := by
  have h3a : jsLength " | " = 3 := by decide
  have h3b : jsLength "-|-" = 3 := by decide
  have hne : ∀ col ∈ first.map Prod.fst, col ≠ "__proto__" :=
    fun col hcol e => hproto (e ▸ hcol)
  refine ⟨fun col hcol => ⟨le_maxWidth_name _ _ hcol,
    fun row hrow => le_maxWidth_cell _ _ hcol row hrow, maxWidth_attained _ _ hcol⟩,
    ?_, ?_, ?_, ?_, maxWidth_proto _⟩
  · intro row hrow col hcol
    refine ⟨jsLength_padEnd _ _ (le_maxWidth_cell _ _ hcol row hrow), ?_⟩
    rw [padEnd, String.data_append]
    exact List.prefix_append _ _
  · rw [tableHeader, jsLength_intercalate, h3a, List.length_map, List.map_map]
    congr 2
    apply List.map_congr_left
    intro col hcol
    exact jsLength_padEnd _ _ (le_maxWidth_name _ _ (hne col hcol))
  · rw [tableSeparator, jsLength_intercalate, h3b, List.length_map, List.map_map]
    congr 2
    apply List.map_congr_left
    intro col _
    exact jsLength_dashes _
  · intro row hrow
    rw [tableDataRow, jsLength_intercalate, h3a, List.length_map, List.map_map]
    congr 2
    apply List.map_congr_left
    intro col hcol
    exact jsLength_padEnd _ _ (le_maxWidth_cell _ _ (hne col hcol) row hrow)

theorem table_lines_have_equal_length_witness :
    "__proto__" ∉ ([("id", .num 7), ("name", .str "Ada")] : Row).map Prod.fst ∧
    jsLength (tableHeader [[("id", .num 7), ("name", .str "Ada")], [("id", .num 12)]]
        ["id", "name"]) = 9 ∧
    jsLength (tableSeparator [[("id", .num 7), ("name", .str "Ada")], [("id", .num 12)]]
        ["id", "name"]) = 9 ∧
    jsLength (tableDataRow [[("id", .num 7), ("name", .str "Ada")], [("id", .num 12)]]
        ["id", "name"] [("id", .num 12)]) = 9 :=
  have h := table_lines_have_equal_length [("id", .num 7), ("name", .str "Ada")]
    [[("id", .num 12)]] (by decide)
  ⟨by decide, h.2.2.1.trans (by decide), h.2.2.2.1.trans (by decide),
    (h.2.2.2.2.1 [("id", .num 12)] (by decide)).trans (by decide)⟩

/-! ## The blocks of rendered documents -/

theorem documentBlocks_length (index : Nat) (docs : List Json) :
    (documentBlocks index docs).length = docs.length := by
  induction docs generalizing index with
  | nil => rfl
  | cons doc docs ih => simp [documentBlocks, ih]

theorem documentBlocks_getElem? (index : Nat) (docs : List Json) (i : Nat) :
    (documentBlocks index docs)[i]? =
      docs[i]?.map (fun doc =>
        "Document " ++ toString (index + i + 1) ++ ":\n" ++ stringify 0 doc) := by
  induction docs generalizing index i with
  | nil => simp [documentBlocks]
  | cons doc docs ih =>
    cases i with
    | zero => simp [documentBlocks]
    | succ j =>
      simp only [documentBlocks, List.getElem?_cons_succ, ih]
      have : index + 1 + j + 1 = index + (j + 1) + 1 := by omega
      rw [this]

/-- C21: for a non-empty list of `n` documents, `formatMongoResults` returns
`n` blocks joined by a blank line, in input order; the block of the document at
index `i` (from 0) is `Document `, the number `i + 1`, a colon, a newline, and
`JSON.stringify` of the document with an indentation of two spaces. -/
theorem formatMongoResults_blocks (first : Json) (more : List Json) :
    formatMongoResults (some (first :: more)) =
      "\n\n".intercalate (documentBlocks 0 (first :: more)) ∧
    (formatMongoResults (some (first :: more))).data =
      List.intercalate ['\n', '\n'] ((documentBlocks 0 (first :: more)).map String.data) ∧
    (documentBlocks 0 (first :: more)).length = (first :: more).length ∧
    (∀ (i : Nat) (doc : Json), (first :: more)[i]? = some doc →
      (documentBlocks 0 (first :: more))[i]? =
        some ("Document " ++ toString (i + 1) ++ ":\n" ++ stringify 0 doc)) := by
  refine ⟨rfl, ?_, documentBlocks_length _ _, ?_⟩
  · show ("\n\n".intercalate (documentBlocks 0 (first :: more))).data = _
    rw [intercalate_data]
  · intro i doc h
    rw [documentBlocks_getElem?, h]
    simp

theorem formatMongoResults_blocks_witness :
    formatMongoResults (some [.obj [("a", .num 1), ("tags", .arr [.str "x", .null])], .obj []]) =
      "Document 1:\n\x7b\n  \"a\": 1,\n  \"tags\": [\n    \"x\",\n    null\n  ]\n\x7d\n\n" ++
        "Document 2:\n\x7b\x7d" ∧
    (documentBlocks 0 [.obj [("a", .num 1), ("tags", .arr [.str "x", .null])], .obj []])[1]? =
      some ("Document " ++ toString (1 + 1) ++ ":\n" ++ stringify 0 (.obj [])) :=
  ⟨by decide,
    (formatMongoResults_blocks (.obj [("a", .num 1), ("tags", .arr [.str "x", .null])])
      [.obj []]).2.2.2 1 (.obj []) rfl⟩

/-! ## The connection key of the networked backends -/

theorem split_at_colon (a b x y : List Char) (ha : ':' ∉ a) (hb : ':' ∉ b)
    (h : a ++ ':' :: x = b ++ ':' :: y) : a = b ∧ x = y := by
  induction a generalizing b with
  | nil =>
    cases b with
    | nil => simpa using h
    | cons c b' =>
      simp only [List.nil_append, List.cons_append, List.cons.injEq] at h
      exact absurd (h.1 ▸ List.mem_cons_self _ _) hb
  | cons c a' ih =>
    cases b with
    | nil =>
      simp only [List.nil_append, List.cons_append, List.cons.injEq] at h
      exact absurd (h.1 ▸ List.mem_cons_self _ _) ha
    | cons c' b' =>
      simp only [List.cons_append, List.cons.injEq] at h
      have ha' : ':' ∉ a' := fun hm => ha (List.mem_cons_of_mem _ hm)
      have hb' : ':' ∉ b' := fun hm => hb (List.mem_cons_of_mem _ hm)
      obtain ⟨e1, e2⟩ := ih b' ha' hb' h.2
      exact ⟨by rw [h.1, e1], e2⟩

theorem string_append_left_cancel (p a b : String) (h : p ++ a = p ++ b) : a = b := by
  have := congrArg String.data h
  simp only [String.data_append] at this
  exact String.ext (List.append_cancel_left this)

/-- C22: for the PostgreSQL and MySQL connection managers the key is the
string `host:port:database:user` of the config and the password is no part of
it: two configs that agree on host, port, database and user resolve to the same
key whatever their passwords, and an acquisition with the second config, right
after a successful one with the first, returns the connection opened by the
first and starts no handshake. -/
theorem sql_key_ignores_password (env env2 : Drivers) (t1 t2 : Int) (w : World)
    (c1 c2 : SQLConfig) (hh : c1.host = c2.host) (hp : c1.port = c2.port)
    (hd : c1.database = c2.database) (hu : c1.user = c2.user) :
    sqlConnId c1 = c1.host.toStr ++ ":" ++ c1.port.toStr ++ ":" ++ c1.database.toStr ++ ":" ++
      c1.user.toStr ∧
    sqlConnId c1 = sqlConnId c2 ∧
    (∀ a, (acquire env t1 (.postgres c1) w).1 = .ok a →
      (acquire env2 t2 (.postgres c2) (acquire env t1 (.postgres c1) w).2).1 = .ok a ∧
      (acquire env2 t2 (.postgres c2) (acquire env t1 (.postgres c1) w).2).2.connectLog =
        (acquire env t1 (.postgres c1) w).2.connectLog) ∧
    (∀ a, (acquire env t1 (.mysql c1) w).1 = .ok a →
      (acquire env2 t2 (.mysql c2) (acquire env t1 (.mysql c1) w).2).1 = .ok a ∧
      (acquire env2 t2 (.mysql c2) (acquire env t1 (.mysql c1) w).2).2.connectLog =
        (acquire env t1 (.mysql c1) w).2.connectLog) := by
  have hkey : sqlConnId c2 = sqlConnId c1 := by simp [sqlConnId, hh, hp, hd, hu]
  refine ⟨rfl, hkey.symm, ?_, ?_⟩
  · intro a h1
    simp only [acquire, getPostgresConnection, hkey] at h1 ⊢
    cases hg : JSMap.get w.connections.postgres (sqlConnId c1) with
    | some conn =>
      simp only [hg] at h1 ⊢
      simpa [JSMap.get_set_self] using h1
    | none =>
      simp only [hg] at h1 ⊢
      cases hc : env.connectError w.nextHandle with
      | some err => simp [hc, Except.map] at h1
      | none =>
        simp only [hc] at h1 ⊢
        simpa [JSMap.get_set_self] using h1
  · intro a h1
    simp only [acquire, getMySQLConnection, hkey] at h1 ⊢
    cases hg : JSMap.get w.connections.mysql (sqlConnId c1) with
    | some conn =>
      simp only [hg] at h1 ⊢
      simpa [JSMap.get_set_self] using h1
    | none =>
      simp only [hg] at h1 ⊢
      cases hc : env.connectError w.nextHandle with
      | some err => simp [hc, Except.map] at h1
      | none =>
        simp only [hc] at h1 ⊢
        simpa [JSMap.get_set_self] using h1

theorem sql_key_ignores_password_witness :
    sqlConnId ⟨.str "db.local", .num 5432, .str "shop", .str "app", .str "right"⟩ =
      sqlConnId ⟨.str "db.local", .num 5432, .str "shop", .str "app", .str "wrong"⟩ ∧
    (acquire Drivers.hostile 9
        (.postgres ⟨.str "db.local", .num 5432, .str "shop", .str "app", .str "wrong"⟩)
        (acquire Drivers.quiet 1
          (.postgres ⟨.str "db.local", .num 5432, .str "shop", .str "app", .str "right"⟩)
          World.init).2).1 = .ok (.handle 0) :=
  ⟨(sql_key_ignores_password Drivers.quiet Drivers.hostile 1 9 World.init
      ⟨.str "db.local", .num 5432, .str "shop", .str "app", .str "right"⟩
      ⟨.str "db.local", .num 5432, .str "shop", .str "app", .str "wrong"⟩ rfl rfl rfl rfl).2.1,
    ((sql_key_ignores_password Drivers.quiet Drivers.hostile 1 9 World.init
      ⟨.str "db.local", .num 5432, .str "shop", .str "app", .str "right"⟩
      ⟨.str "db.local", .num 5432, .str "shop", .str "app", .str "wrong"⟩ rfl rfl rfl
      rfl).2.2.1 (.handle 0) rfl).1⟩

/-- The key of PostgreSQL and MySQL holds the user: it is
`host:port:database:user`, and two configs that agree on host, port and
database and whose users differ, as the strings the key is built from, resolve
to different keys. -/
theorem sql_key_holds_user (c1 c2 : SQLConfig) (hh : c1.host = c2.host)
    (hp : c1.port = c2.port) (hd : c1.database = c2.database)
    (hu : c1.user.toStr ≠ c2.user.toStr) :
    sqlConnId c1 = c1.host.toStr ++ ":" ++ c1.port.toStr ++ ":" ++ c1.database.toStr ++ ":" ++
      c1.user.toStr ∧ sqlConnId c1 ≠ sqlConnId c2 := by
  refine ⟨rfl, fun hkey => hu ?_⟩
  simp only [sqlConnId, hh, hp, hd] at hkey
  exact string_append_left_cancel _ _ _ hkey

/-- C23 (fails in the code for the document store): the key of the document
store is `host:port:database`; unlike the keys of PostgreSQL and MySQL it does
not hold the user.  Two requests that agree on host, port and database resolve
to the same key whatever their users and passwords, and after a successful
acquisition for the first, an acquisition for the second returns the client
that was connected for the first and starts no handshake. -/
theorem mongo_key_omits_user (env env2 : Drivers) (t1 t2 : Int) (a b : MongoArgs)
    (forceNew : Bool) (w : World) (hs : MongoHandles)
    (hh : a.host = b.host) (hp : a.port = b.port) (hd : a.database = b.database)
    (h1 : (getMongoConnection env t1 a.config forceNew w).1 = .ok hs) :
    mongoConnId a.config =
      (a.host.orDefault (.str "localhost")).toStr ++ ":" ++
        (a.port.orDefault (.num 27017)).toStr ++ ":" ++ a.database.toStr ∧
    mongoConnId a.config = mongoConnId b.config ∧
    (getMongoConnection env2 t2 b.config false
      (getMongoConnection env t1 a.config forceNew w).2).1 = .ok hs ∧
    (getMongoConnection env2 t2 b.config false
      (getMongoConnection env t1 a.config forceNew w).2).2.connectLog =
        (getMongoConnection env t1 a.config forceNew w).2.connectLog := by
  have hkey : mongoConnId b.config = mongoConnId a.config := by
    simp [mongoConnId, MongoArgs.config, hh, hp, hd]
  refine ⟨rfl, hkey.symm, ?_⟩
  have hok : (acquire env t1 (.mongodb a.config forceNew) w).1 = .ok (.mongo hs) := by
    simp only [acquire, h1]
    rfl
  have hlook := acquire_ok_lookup env t1 (.mongodb a.config forceNew) w (.mongo hs) hok
  have hw : (acquire env t1 (.mongodb a.config forceNew) w).2 =
      (getMongoConnection env t1 a.config forceNew w).2 := rfl
  rw [hw] at hlook
  simp only [Connections.lookup, AcquireReq.dbType, AcquireReq.key, Acquired.conn] at hlook
  have hdb : ∀ conn, JSMap.get (getMongoConnection env t1 a.config forceNew w).2.connections.mongodb
      (mongoConnId a.config) = some conn → conn.client = hs.client ∧ conn.db = hs.db := by
    intro conn
    unfold getMongoConnection at h1 ⊢
    cases hg : (if forceNew then none else JSMap.get w.connections.mongodb (mongoConnId a.config))
      with
    | some c0 =>
      simp only [hg] at h1 ⊢
      rw [JSMap.get_set_self]
      intro e
      have e1 := Except.ok.inj h1
      cases Option.some.inj e
      exact ⟨congrArg MongoHandles.client e1, congrArg MongoHandles.db e1⟩
    | none =>
      simp only [hg] at h1 ⊢
      cases hc : env.connectError w.nextHandle with
      | some err => simp [hc] at h1
      | none =>
        simp only [hc] at h1 ⊢
        rw [JSMap.get_set_self]
        intro e
        have e1 := Except.ok.inj h1
        cases Option.some.inj e
        exact ⟨congrArg MongoHandles.client e1, congrArg MongoHandles.db e1⟩
  generalize (getMongoConnection env t1 a.config forceNew w).2 = w1 at hlook hdb ⊢
  cases hg : JSMap.get w1.connections.mongodb (mongoConnId a.config) with
  | none => simp [hg] at hlook
  | some conn =>
    obtain ⟨e1, e2⟩ := hdb conn hg
    simp only [getMongoConnection, hkey, Bool.false_eq_true, if_false, hg, and_true]
    cases hs
    simp only at e1 e2
    simp [e1, e2]

theorem mongo_key_omits_user_witness :
    ({ sampleMongoArgs "find" with username := .str "alice", password := .str "pw" } :
        MongoArgs).config.connectionUri ≠
      ({ sampleMongoArgs "find" with username := .str "bob", password := .str "pw" } :
        MongoArgs).config.connectionUri ∧
    mongoConnId ({ sampleMongoArgs "find" with username := .str "alice", password := .str "pw" } :
        MongoArgs).config = "localhost:27017:shop" ∧
    (getMongoConnection Drivers.hostile 2
        ({ sampleMongoArgs "find" with username := .str "bob", password := .str "pw" } :
          MongoArgs).config false
        (getMongoConnection Drivers.quiet 1
          ({ sampleMongoArgs "find" with username := .str "alice", password := .str "pw" } :
            MongoArgs).config false World.init).2).1 = .ok { client := 0, db := 1 } ∧
    (getMongoConnection Drivers.hostile 2
        ({ sampleMongoArgs "find" with username := .str "bob", password := .str "pw" } :
          MongoArgs).config false
        (getMongoConnection Drivers.quiet 1
          ({ sampleMongoArgs "find" with username := .str "alice", password := .str "pw" } :
            MongoArgs).config false World.init).2).2.connectLog = [0] :=
  have h := mongo_key_omits_user Drivers.quiet Drivers.hostile 1 2
    { sampleMongoArgs "find" with username := .str "alice", password := .str "pw" }
    { sampleMongoArgs "find" with username := .str "bob", password := .str "pw" }
    false World.init { client := 0, db := 1 } rfl rfl rfl rfl
  ⟨by decide, by decide, h.2.2.1, h.2.2.2⟩

/-- C24, as stated, fails: the parts are joined by colons and may hold colons
themselves.  The tuples (`a:b`, `c`, `d`, `u`) and (`a`, `b:c`, `d`, `u`) differ
and resolve to the same key `a:b:c:d:u`. -/
theorem sql_key_injective_counterexample :
    ¬ ∀ (h p d u h' p' d' u' pw pw' : String), (h, p, d, u) ≠ (h', p', d', u') →
      sqlConnId ⟨.str h, .str p, .str d, .str u, .str pw⟩ ≠
        sqlConnId ⟨.str h', .str p', .str d', .str u', .str pw'⟩ := by
  intro h
  exact h "a:b" "c" "d" "u" "a" "b:c" "d" "u" "" "" (by decide) (by decide)

/-- C24, amended: on tuples whose host, port and database hold no colon, key
resolution of PostgreSQL and MySQL is injective: when two such tuples resolve
to the same key, they are equal (the user may hold colons). -/
theorem sql_key_injective_without_colons (h p d u h' p' d' u' : String) (pw pw' : JSVal)
    (hh : ':' ∉ h.data) (hp : ':' ∉ p.data) (hd : ':' ∉ d.data)
    (hh' : ':' ∉ h'.data) (hp' : ':' ∉ p'.data) (hd' : ':' ∉ d'.data)
    (hkey : sqlConnId ⟨.str h, .str p, .str d, .str u, pw⟩ =
      sqlConnId ⟨.str h', .str p', .str d', .str u', pw'⟩) :
    (h, p, d, u) = (h', p', d', u') := by
  have hdata := congrArg String.data hkey
  simp only [sqlConnId, JSVal.toStr, String.data_append, List.append_assoc] at hdata
  have hc : (":" : String).data = [':'] := rfl
  simp only [hc, List.singleton_append] at hdata
  obtain ⟨e1, r1⟩ := split_at_colon _ _ _ _ hh hh' hdata
  obtain ⟨e2, r2⟩ := split_at_colon _ _ _ _ hp hp' r1
  obtain ⟨e3, r3⟩ := split_at_colon _ _ _ _ hd hd' r2
  rw [String.ext e1, String.ext e2, String.ext e3, String.ext r3]

theorem sql_key_injective_without_colons_witness :
    ("db.local", "5432", "shop", "a:b") = ("db.local", "5432", "shop", "a:b") :=
  sql_key_injective_without_colons "db.local" "5432" "shop" "a:b" "db.local" "5432" "shop" "a:b"
    (.str "x") (.str "y") (by decide) (by decide) (by decide) (by decide) (by decide)
    (by decide) rfl

/-! ## The key of the file-based backend -/

/-- C25, as stated, fails: the key is the path string as it is passed.  After a
successful acquisition for `t.db`, an acquisition for `./t.db` does not return
the registered handle without a handshake. -/
theorem sqlite_key_spelling_counterexample :
    ¬ ((acquire Drivers.quiet 1 (.sqlite "./t.db")
          (acquire Drivers.quiet 0 (.sqlite "t.db") World.init).2).1 =
        (acquire Drivers.quiet 0 (.sqlite "t.db") World.init).1 ∧
      (acquire Drivers.quiet 1 (.sqlite "./t.db")
          (acquire Drivers.quiet 0 (.sqlite "t.db") World.init).2).2.connectLog =
        (acquire Drivers.quiet 0 (.sqlite "t.db") World.init).2.connectLog) := by
  intro h
  have h2 := h.2
  revert h2
  decide

/-- C25, amended: for the file-based backend the registry key is the path
string exactly as it is passed.  After a successful acquisition for a path, a
second acquisition with the identical string returns the same handle and starts
no handshake; a second acquisition with any other string that is not itself
registered, also one that spells the same file, starts a handshake on a new
driver object and does not return the handle of the first. -/
theorem sqlite_key_is_path_as_given (env env2 : Drivers) (t1 t2 : Int) (p q : String)
    (w : World) (h : Handle) (hwf : w.WF)
    (h1 : (getSQLiteConnection env t1 p w).1 = .ok h) :
    (q = p →
      (getSQLiteConnection env2 t2 q (getSQLiteConnection env t1 p w).2).1 = .ok h ∧
      (getSQLiteConnection env2 t2 q (getSQLiteConnection env t1 p w).2).2.connectLog =
        (getSQLiteConnection env t1 p w).2.connectLog) ∧
    (q ≠ p → JSMap.get w.connections.sqlite q = none →
      (getSQLiteConnection env2 t2 q (getSQLiteConnection env t1 p w).2).2.connectLog =
        (getSQLiteConnection env t1 p w).2.connectLog ++
          [(getSQLiteConnection env t1 p w).2.nextHandle] ∧
      (getSQLiteConnection env2 t2 q (getSQLiteConnection env t1 p w).2).1 ≠ .ok h) := by
  have hacq : (acquire env t1 (.sqlite p) w).1 = .ok (.handle h) := by
    simp [acquire, h1, Except.map]
  have hfresh : h < (getSQLiteConnection env t1 p w).2.nextHandle :=
    acquire_ok_fresh env t1 (.sqlite p) w (.handle h) hwf.2.2 hacq
  have hlook : JSMap.get (getSQLiteConnection env t1 p w).2.connections.sqlite p =
      some { db := h, lastUsed := t1 } := by
    have := acquire_ok_lookup env t1 (.sqlite p) w (.handle h) hacq
    simp only [Connections.lookup, AcquireReq.dbType, AcquireReq.key, Acquired.conn] at this
    cases hg : JSMap.get (acquire env t1 (.sqlite p) w).2.connections.sqlite p with
    | none => simp [hg] at this
    | some e =>
      simp only [hg, Option.map_some', Option.some.injEq, Prod.mk.injEq] at this
      show _ = some _
      have he : e = { db := h, lastUsed := t1 } := by
        cases e
        simp only at this
        simp [this.1, this.2]
      rw [← he]
      exact hg
  constructor
  · intro hq
    subst hq
    generalize (getSQLiteConnection env t1 q w).2 = w1 at hlook ⊢
    simp [getSQLiteConnection, hlook]
  · intro hq hnone
    have hother : JSMap.get (getSQLiteConnection env t1 p w).2.connections.sqlite q = none := by
      rw [← hnone]
      unfold getSQLiteConnection
      cases hg : JSMap.get w.connections.sqlite p with
      | some conn => simp only [hg]; exact JSMap.get_set_ne _ _ _ _ (Ne.symm hq)
      | none =>
        simp only [hg]
        cases hc : env.connectError w.nextHandle with
        | some err => rfl
        | none => simp only [hc]; exact JSMap.get_set_ne _ _ _ _ (Ne.symm hq)
    generalize (getSQLiteConnection env t1 p w).2 = w1 at hfresh hother ⊢
    unfold getSQLiteConnection
    simp only [hother]
    cases hc : env2.connectError w1.nextHandle with
    | some err => simp [World.startConnect]
    | none =>
      simp only [World.startConnect, true_and]
      intro e
      have e' : w1.nextHandle = h := Except.ok.inj e
      rw [e'] at hfresh
      exact Nat.lt_irrefl _ hfresh

theorem sqlite_key_is_path_as_given_witness :
    World.init.WF ∧
    (getSQLiteConnection Drivers.quiet 1 "./t.db"
        (getSQLiteConnection Drivers.quiet 0 "t.db" World.init).2).2.connectLog =
      (getSQLiteConnection Drivers.quiet 0 "t.db" World.init).2.connectLog ++
        [(getSQLiteConnection Drivers.quiet 0 "t.db" World.init).2.nextHandle] ∧
    (getSQLiteConnection Drivers.quiet 1 "./t.db"
        (getSQLiteConnection Drivers.quiet 0 "t.db" World.init).2).1 ≠ .ok 0 :=
  ⟨World.init_WF,
    (sqlite_key_is_path_as_given Drivers.quiet Drivers.quiet 0 1 "t.db" "./t.db" World.init 0
      World.init_WF rfl).2 (by decide) rfl⟩

/-! ## A forced new connection of the document store -/

/-- C26: for every registry (a `Map` has distinct keys) and config,
`getMongoConnection` with `forceNew = true` starts a handshake on a new driver
object, also when the key is registered.  When the handshake succeeds, the
call returns the new client, the registry holds exactly one entry for the key,
which carries the new client and `lastUsed = now`, the entries of all other
keys are the ones from before, and the other three maps are unchanged. -/
theorem getMongoConnection_forceNew (env : Drivers) (now : Int) (config : MongoConfig)
    (w : World) (hk : JSMap.KeysNodup w.connections.mongodb) :
    (getMongoConnection env now config true w).2.connectLog =
      w.connectLog ++ [w.nextHandle] ∧
    (env.connectError w.nextHandle = none →
      (getMongoConnection env now config true w).1 =
        .ok { client := w.nextHandle, db := w.nextHandle + 1 } ∧
      JSMap.get (getMongoConnection env now config true w).2.connections.mongodb
          (mongoConnId config) =
        some { client := w.nextHandle, db := w.nextHandle + 1, config := config,
               lastUsed := now } ∧
      (((getMongoConnection env now config true w).2.connections.mongodb.map Prod.fst).count
        (mongoConnId config) = 1) ∧
      (∀ k, k ≠ mongoConnId config →
        JSMap.get (getMongoConnection env now config true w).2.connections.mongodb k =
          JSMap.get w.connections.mongodb k) ∧
      (getMongoConnection env now config true w).2.connections.sqlite = w.connections.sqlite ∧
      (getMongoConnection env now config true w).2.connections.postgres =
        w.connections.postgres ∧
      (getMongoConnection env now config true w).2.connections.mysql = w.connections.mysql) := by
  constructor
  · simp only [getMongoConnection, if_true]
    cases env.connectError w.nextHandle <;> simp [World.startConnect]
  · intro hc
    simp only [getMongoConnection, if_true, hc]
    refine ⟨rfl, JSMap.get_set_self _ _ _, ?_, ?_, rfl, rfl, rfl⟩
    · apply List.count_eq_one_of_mem (JSMap.keysNodup_set hk _ _)
      have hne : JSMap.get (JSMap.set w.connections.mongodb (mongoConnId config)
          ({ client := w.nextHandle, db := w.nextHandle + 1, config := config,
             lastUsed := now } : MongoConn)) (mongoConnId config) ≠ none := by
        rw [JSMap.get_set_self]
        exact Option.some_ne_none _
      by_contra hmem
      exact hne ((JSMap.get_eq_none_iff _ _).2 hmem)
    · intro k hne
      exact JSMap.get_set_ne _ _ _ _ (Ne.symm hne)

theorem getMongoConnection_forceNew_witness :
    JSMap.KeysNodup
      (getMongoConnection Drivers.quiet 0 (sampleMongoArgs "find").config false
        World.init).2.connections.mongodb ∧
    (getMongoConnection Drivers.quiet 5 (sampleMongoArgs "find").config true
        (getMongoConnection Drivers.quiet 0 (sampleMongoArgs "find").config false
          World.init).2).2.connectLog = [0] ++ [2] :=
  ⟨by decide,
    (getMongoConnection_forceNew Drivers.quiet 5 (sampleMongoArgs "find").config
      (getMongoConnection Drivers.quiet 0 (sampleMongoArgs "find").config false World.init).2
      (by decide)).1⟩

/-! ## `close_connections` with a connection id and no database type -/

/-- C29: for every registry and every `connection_id`, `close_connections`
called with a `connection_id` and without a `database_type` takes the branch
of the call without arguments: a close call is made on every entry of all four
maps, all four maps are left empty, and the response reports the number of
close calls that did not throw.  The `connection_id` plays no part. -/
theorem close_connections_id_without_type (env : Drivers) (w : World) (connection_id : String) :
    close_connections env none (some connection_id) w =
      (closedResponse (closedCount env w.connections.handles),
        { w with
          connections := { sqlite := [], postgres := [], mongodb := [], mysql := [] }
          closeLog := w.closeLog ++ w.connections.handles }) ∧
    close_connections env none (some connection_id) w = close_connections env none none w := by
  constructor
  · simp [close_connections, argTruthy, closeEach_eq, Connections.handles, Connections.stamps,
      JSMap.clear, closedCount, List.countP_append, Nat.add_assoc, Function.comp_def]
  · simp [close_connections, argTruthy]

/-! ## The columns of a rendered table -/

theorem Row.get_restrict (keys : List String) (row : Row) (col : String) (h : col ∈ keys) :
    Row.get (Row.restrict keys row) col = Row.get row col := by
  induction row with
  | nil => rfl
  | cons p r ih =>
    obtain ⟨k, v⟩ := p
    by_cases hk : k ∈ keys
    · have e : Row.restrict keys ((k, v) :: r) = (k, v) :: Row.restrict keys r := by
        simp [Row.restrict, hk]
      rw [e]
      by_cases hc : k = col
      · simp [Row.get, hc]
      · simp [Row.get, hc, ih]
    · have e : Row.restrict keys ((k, v) :: r) = Row.restrict keys r := by
        simp [Row.restrict, hk]
      have hc : ¬ k = col := fun e' => hk (e' ▸ h)
      rw [e, ih]
      simp [Row.get, hc]

theorem map_eq_of_forall₂ {α β : Type} (f g : α → β) (l l' : List α)
    (h : List.Forall₂ (fun a b => f a = g b) l l') : l.map f = l'.map g := by
  induction h with
  | nil => rfl
  | cons hab _ ih => simp [hab, ih]

theorem maxWidth_congr (rows rows' : List Row) (col : String)
    (h : List.Forall₂ (fun r r' => cellText r col = cellText r' col) rows rows') :
    maxWidth rows col = maxWidth rows' col := by
  unfold maxWidth computedWidth
  rw [map_eq_of_forall₂ (fun row => jsLength (cellText row col))
    (fun row => jsLength (cellText row col)) rows rows']
  exact h.imp (fun _ _ hab => by rw [hab])

/-- The rendered table is a function of the first record and, for the later
records, of their cells in the columns of the first record alone. -/
theorem formatTableResults_congr (first : Row) (more more' : List Row)
    (h : List.Forall₂ (fun r r' => ∀ col ∈ first.map Prod.fst, cellText r col = cellText r' col)
      more more') :
    formatTableResults (some (first :: more)) = formatTableResults (some (first :: more')) := by
  have hW : ∀ col ∈ first.map Prod.fst,
      maxWidth (first :: more) col = maxWidth (first :: more') col := by
    intro col hcol
    apply maxWidth_congr
    exact List.Forall₂.cons rfl (h.imp (fun _ _ hab => hab col hcol))
  have hrow : ∀ r r', (∀ col ∈ first.map Prod.fst, cellText r col = cellText r' col) →
      tableDataRow (first :: more) (first.map Prod.fst) r =
        tableDataRow (first :: more') (first.map Prod.fst) r' := by
    intro r r' hr
    unfold tableDataRow
    congr 1
    apply List.map_congr_left
    intro col hcol
    rw [hW col hcol, hr col hcol]
  rw [formatTableResults_cons, formatTableResults_cons]
  congr 2
  · unfold tableHeader
    congr 1
    apply List.map_congr_left
    intro col hcol
    rw [hW col hcol]
  · congr 1
    · unfold tableSeparator
      congr 1
      apply List.map_congr_left
      intro col hcol
      rw [hW col hcol]
    · rw [List.map_cons, List.map_cons]
      congr 1
      · exact hrow first first (fun _ _ => rfl)
      · exact map_eq_of_forall₂ _ _ more more' (h.imp (fun _ _ hab => hrow _ _ hab))

/-- The columns are the keys of the first record, in its key order (see also
`formatTableResults_lines`), and a key that only a later record has plays no
part: cutting every later record down to the keys of the first record leaves
the output as it is. -/
theorem formatTableResults_ignores_other_keys (first : Row) (more : List Row) :
    formatTableResults (some (first :: more)) =
      formatTableResults (some (first :: more.map (Row.restrict (first.map Prod.fst)))) := by
  apply formatTableResults_congr
  induction more with
  | nil => exact List.Forall₂.nil
  | cons r rs ih =>
    refine List.Forall₂.cons ?_ ih
    intro col hcol
    unfold cellText
    rw [Row.get_restrict _ _ _ hcol]

/-- The property read of a key that is not among the record's own
properties. -/
theorem Row.get_of_missing (row : Row) (col : String) (hmiss : col ∉ row.map Prod.fst) :
    Row.get row col =
      if col ∈ objectPrototypeKeys then .str (inheritedText col) else .undefined := by
  induction row with
  | nil => rfl
  | cons p r ih =>
    obtain ⟨k, v⟩ := p
    simp only [List.map_cons, List.mem_cons, not_or] at hmiss
    have hk : ¬ k = col := fun e => hmiss.1 e.symm
    simp only [Row.get, hk, if_false]
    exact ih hmiss.2

/-- A record that lacks a key, when the key is not a property name inherited
from `Object.prototype`: its cell is the empty string, padded to the width of
the column with spaces only. -/
theorem cell_of_missing_key (row : Row) (col : String) (width : Nat)
    (hmiss : col ∉ row.map Prod.fst) (hown : col ∉ objectPrototypeKeys) :
    cellText row col = "" ∧ padEnd (cellText row col) width = spaces width := by
  have hget : Row.get row col = .undefined := by
    rw [Row.get_of_missing row col hmiss, if_neg hown]
  have hcell : cellText row col = "" := by
    rw [cellText_eq, hget]
    rfl
  refine ⟨hcell, ?_⟩
  rw [hcell]
  simp [padEnd, spaces, jsLength, String.toList]

/-- A record that lacks a key named like a property inherited from
`Object.prototype`: its cell is the string form of the inherited value. -/
theorem cell_of_inherited_key (row : Row) (col : String)
    (hmiss : col ∉ row.map Prod.fst) (hin : col ∈ objectPrototypeKeys) :
    cellText row col = inheritedText col := by
  rw [cellText_eq, Row.get_of_missing row col hmiss, if_pos hin]
  by_cases he : inheritedText col = ""
  · simp [JSVal.truthy, JSVal.toStr, he]
  · simp [JSVal.truthy, JSVal.toStr, he]

/-- C30, as stated, fails for a key named like a property that every object
inherits: for the records `{toString: 1}` and `{a: 2}` the column is
`toString`, and the second record, which lacks that key, does not get an empty
cell: the property read finds the inherited function, and the cell holds its
text. -/
theorem missing_key_inherited_counterexample :
    "toString" ∉ ([("a", .num 2)] : Row).map Prod.fst ∧
    ¬ (cellText [("a", .num 2)] "toString" = "") ∧
    cellText [("a", .num 2)] "toString" = "function toString() \x7b [native code] \x7d" ∧
    formatTableResults (some [[("toString", .num 1)], [("a", .num 2)]]) =
      "toString                             \n" ++
      "-------------------------------------\n" ++
      "1                                    \n" ++
      "function toString() \x7b [native code] \x7d" := by
  decide

/-- C30, amended: for a non-empty list of records the columns are the keys of
the first record, in its key order: the output is the header, the separator
and one line per record, each over exactly these columns.  A key that only a
later record has plays no part: cutting every later record down to the keys of
the first leaves the output as it is.  A record lacking a key gets the empty
cell, padded with spaces only, unless the key is the name of a property that
every object inherits from `Object.prototype`; then the cell holds the string
form of the inherited value. -/
theorem formatTableResults_columns_of_first (first : Row) (more : List Row) :
    formatTableResults (some (first :: more)) =
      "\n".intercalate
        (tableHeader (first :: more) (first.map Prod.fst) ::
          tableSeparator (first :: more) (first.map Prod.fst) ::
          (first :: more).map (tableDataRow (first :: more) (first.map Prod.fst))) ∧
    formatTableResults (some (first :: more)) =
      formatTableResults (some (first :: more.map (Row.restrict (first.map Prod.fst)))) ∧
    (∀ (row : Row) (col : String) (width : Nat), col ∉ row.map Prod.fst →
      col ∉ objectPrototypeKeys →
      cellText row col = "" ∧ padEnd (cellText row col) width = spaces width) ∧
    (∀ (row : Row) (col : String), col ∉ row.map Prod.fst → col ∈ objectPrototypeKeys →
      cellText row col = inheritedText col) :=
  ⟨formatTableResults_cons first more, formatTableResults_ignores_other_keys first more,
    cell_of_missing_key, cell_of_inherited_key⟩

theorem formatTableResults_columns_of_first_witness :
    "id" ∉ ([("extra", .str "x")] : Row).map Prod.fst ∧ "id" ∉ objectPrototypeKeys ∧
    formatTableResults (some [[("id", .num 7)], [("extra", .str "x")]]) =
      formatTableResults (some [[("id", .num 7)], []]) ∧
    padEnd (cellText [("extra", .str "x")] "id") 2 = spaces 2 ∧
    formatTableResults (some [[("id", .num 7)], [("extra", .str "x")]]) = "id\n--\n7 \n  " :=
  ⟨by decide, by decide,
    (formatTableResults_columns_of_first [("id", .num 7)] [[("extra", .str "x")]]).2.1,
    ((formatTableResults_columns_of_first [("id", .num 7)] [[("extra", .str "x")]]).2.2.1
      [("extra", .str "x")] "id" 2 (by decide) (by decide)).2,
    by decide⟩

/-! ## Two overlapping acquisitions -/

/-- Run without interruption, the two steps of an acquisition are the
operation `acquire`. -/
theorem acquireSteps_eq_acquire (env : Drivers) (now : Int) (req : AcquireReq) (w : World) :
    acquireSteps env now req w = acquire env now req w := by
  cases req with
  | sqlite dbPath =>
    simp only [acquireSteps, acquireBegin, acquire, getSQLiteConnection]
    cases JSMap.get w.connections.sqlite dbPath with
    | some conn => rfl
    | none =>
      simp only [acquireResume, World.startConnect]
      cases env.connectError w.nextHandle <;> rfl
  | postgres config =>
    simp only [acquireSteps, acquireBegin, acquire, getPostgresConnection]
    cases JSMap.get w.connections.postgres (sqlConnId config) with
    | some conn => rfl
    | none =>
      simp only [acquireResume, World.startConnect]
      cases env.connectError w.nextHandle <;> rfl
  | mongodb config forceNew =>
    simp only [acquireSteps, acquireBegin, acquire, getMongoConnection]
    cases (if forceNew then none else JSMap.get w.connections.mongodb (mongoConnId config)) with
    | some conn => rfl
    | none =>
      simp only [acquireResume, World.startConnect]
      cases env.connectError w.nextHandle <;> rfl
  | mysql config =>
    simp only [acquireSteps, acquireBegin, acquire, getMySQLConnection]
    cases JSMap.get w.connections.mysql (sqlConnId config) with
    | some conn => rfl
    | none =>
      simp only [acquireResume, World.startConnect]
      cases env.connectError w.nextHandle <;> rfl

/-- An acquisition that finishes in its first step is an `acquire` call that
succeeds with the same result and state. -/
theorem acquire_of_acquireBegin_done (env : Drivers) (now : Int) (req : AcquireReq)
    (w w1 : World) (a : Acquired) (hb : acquireBegin now req w = (.done a, w1)) :
    acquire env now req w = (.ok a, w1) := by
  rw [← acquireSteps_eq_acquire, acquireSteps, hb]

/-- A registered key, without `forceNew`, finishes in the first step. -/
theorem acquireBegin_done_of_hit (now : Int) (req : AcquireReq) (w : World) (h : Handle)
    (t : Int) (hhit : w.connections.lookup req.dbType req.key = some (h, t))
    (hforce : req.forceNew = false) :
    ∃ a w1, acquireBegin now req w = (.done a, w1) := by
  cases req with
  | sqlite dbPath =>
    simp only [Connections.lookup, AcquireReq.dbType, AcquireReq.key] at hhit
    cases hg : JSMap.get w.connections.sqlite dbPath with
    | none => simp [hg] at hhit
    | some conn => exact ⟨_, _, by simp only [acquireBegin, hg]; rfl⟩
  | postgres config =>
    simp only [Connections.lookup, AcquireReq.dbType, AcquireReq.key] at hhit
    cases hg : JSMap.get w.connections.postgres (sqlConnId config) with
    | none => simp [hg] at hhit
    | some conn => exact ⟨_, _, by simp only [acquireBegin, hg]; rfl⟩
  | mongodb config forceNew =>
    simp only [AcquireReq.forceNew] at hforce
    subst hforce
    simp only [Connections.lookup, AcquireReq.dbType, AcquireReq.key] at hhit
    cases hg : JSMap.get w.connections.mongodb (mongoConnId config) with
    | none => simp [hg] at hhit
    | some conn => exact ⟨_, _, by simp only [acquireBegin, hg, Bool.false_eq_true, if_false]; rfl⟩
  | mysql config =>
    simp only [Connections.lookup, AcquireReq.dbType, AcquireReq.key] at hhit
    cases hg : JSMap.get w.connections.mysql (sqlConnId config) with
    | none => simp [hg] at hhit
    | some conn => exact ⟨_, _, by simp only [acquireBegin, hg]; rfl⟩

/-- When the first acquisition finds its key registered, it is never
suspended, and the interleaved run is the two `acquire` calls in sequence. -/
theorem acquireInterleaved_of_hit (env : Drivers) (now : Int) (reqA reqB : AcquireReq)
    (w : World) (h : Handle) (t : Int)
    (hhit : w.connections.lookup reqA.dbType reqA.key = some (h, t))
    (hforce : reqA.forceNew = false) :
    acquireInterleaved env now reqA reqB w =
      (((acquire env now reqA w).1, (acquire env now reqB (acquire env now reqA w).2).1),
        (acquire env now reqB (acquire env now reqA w).2).2) := by
  obtain ⟨a, w1, hb⟩ := acquireBegin_done_of_hit now reqA w h t hhit hforce
  rw [acquire_of_acquireBegin_done env now reqA w w1 a hb, acquireInterleaved, hb]
  simp only [acquireSteps_eq_acquire]

/-- Two overlapping acquisitions of one key that is not registered, both
handshakes succeeding: both start a handshake, on two different driver
objects; each caller receives its own object; the registry keeps the second
one; nothing is closed. -/
theorem acquireInterleaved_new_key (env : Drivers) (now : Int) (req : AcquireReq) (w : World)
    (hnew : w.connections.lookup req.dbType req.key = none)
    (hA : env.connectError w.nextHandle = none)
    (hB : env.connectError (w.nextHandle + 1) = none) :
    (acquireInterleaved env now req req w).2.connectLog =
        w.connectLog ++ [w.nextHandle, w.nextHandle + 1] ∧
      (∃ a b, (acquireInterleaved env now req req w).1.1 = .ok a ∧
        (acquireInterleaved env now req req w).1.2 = .ok b ∧
        a.conn = w.nextHandle ∧ b.conn = w.nextHandle + 1) ∧
      (acquireInterleaved env now req req w).2.connections.lookup req.dbType req.key =
        some (w.nextHandle + 1, now) ∧
      (acquireInterleaved env now req req w).2.closeLog = w.closeLog := by
  cases req with
  | sqlite dbPath =>
    have hg : JSMap.get w.connections.sqlite dbPath = none := by
      simpa [Connections.lookup, AcquireReq.dbType, AcquireReq.key] using hnew
    simp [acquireInterleaved, acquireBegin, acquireResume, hg, hA, hB, World.startConnect,
      Acquired.conn, Connections.lookup, AcquireReq.dbType, AcquireReq.key, JSMap.get_set_self]
  | postgres config =>
    have hg : JSMap.get w.connections.postgres (sqlConnId config) = none := by
      simpa [Connections.lookup, AcquireReq.dbType, AcquireReq.key] using hnew
    simp [acquireInterleaved, acquireBegin, acquireResume, hg, hA, hB, World.startConnect,
      Acquired.conn, Connections.lookup, AcquireReq.dbType, AcquireReq.key, JSMap.get_set_self]
  | mongodb config forceNew =>
    have hg : (if forceNew then none else JSMap.get w.connections.mongodb (mongoConnId config))
        = none := by
      cases forceNew with
      | true => simp
      | false => simpa [Connections.lookup, AcquireReq.dbType, AcquireReq.key] using hnew
    simp [acquireInterleaved, acquireBegin, acquireResume, hg, hA, hB, World.startConnect,
      Acquired.conn, Connections.lookup, AcquireReq.dbType, AcquireReq.key, JSMap.get_set_self]
  | mysql config =>
    have hg : JSMap.get w.connections.mysql (sqlConnId config) = none := by
      simpa [Connections.lookup, AcquireReq.dbType, AcquireReq.key] using hnew
    simp [acquireInterleaved, acquireBegin, acquireResume, hg, hA, hB, World.startConnect,
      Acquired.conn, Connections.lookup, AcquireReq.dbType, AcquireReq.key, JSMap.get_set_self]

/-- Writing a key twice keeps only the second value. -/
theorem JSMap.set_set {α : Type} (m : JSMap α) (k : String) (a b : α) :
    JSMap.set (JSMap.set m k a) k b = JSMap.set m k b := by
  induction m with
  | nil => simp [JSMap.set]
  | cons p m ih =>
    obtain ⟨k0, v0⟩ := p
    by_cases h0 : k0 = k
    · simp [JSMap.set, h0]
    · simp [JSMap.set, h0, ih]

/-- After two overlapping acquisitions of a key that was not registered, the
driver object of the first is not in the registry. -/
theorem acquireInterleaved_first_unregistered (env : Drivers) (now : Int) (req : AcquireReq)
    (w : World) (hwf : w.WF)
    (hnew : w.connections.lookup req.dbType req.key = none)
    (hA : env.connectError w.nextHandle = none)
    (hB : env.connectError (w.nextHandle + 1) = none) :
    w.nextHandle ∉ (acquireInterleaved env now req req w).2.connections.handles := by
  obtain ⟨-, -, hlt⟩ := hwf
  rw [Connections.handles_eq] at hlt
  rw [Connections.handles_eq]
  intro hmem
  have hold : ∀ x, x = w.nextHandle + 1 ∨ x ∈ w.connections.sqlite.map (fun p => p.2.db) ++
      (w.connections.postgres.map (fun p => p.2.client) ++
        (w.connections.mongodb.map (fun p => p.2.client) ++
          w.connections.mysql.map (fun p => p.2.connection))) → x ≠ w.nextHandle := by
    intro x hx
    rcases hx with e | e
    · omega
    · exact Nat.ne_of_lt (hlt x e)
  refine hold _ ?_ rfl
  cases req with
  | sqlite dbPath =>
    have hg : JSMap.get w.connections.sqlite dbPath = none := by
      simpa [Connections.lookup, AcquireReq.dbType, AcquireReq.key] using hnew
    simp only [acquireInterleaved, acquireBegin, acquireResume, hg, hA, hB, World.startConnect,
      JSMap.set_set] at hmem
    simp only [List.mem_append] at hmem ⊢
    rcases hmem with h1 | h1
    · rcases JSMap.mem_map_set (fun e : SQLiteConn => e.db) _ _ _ _ h1 with e | e
      · exact Or.inl e
      · exact Or.inr (Or.inl e)
    · exact Or.inr (Or.inr h1)
  | postgres config =>
    have hg : JSMap.get w.connections.postgres (sqlConnId config) = none := by
      simpa [Connections.lookup, AcquireReq.dbType, AcquireReq.key] using hnew
    simp only [acquireInterleaved, acquireBegin, acquireResume, hg, hA, hB, World.startConnect,
      JSMap.set_set] at hmem
    simp only [List.mem_append] at hmem ⊢
    rcases hmem with h1 | h1 | h1
    · exact Or.inr (Or.inl h1)
    · rcases JSMap.mem_map_set (fun e : PostgresConn => e.client) _ _ _ _ h1 with e | e
      · exact Or.inl e
      · exact Or.inr (Or.inr (Or.inl e))
    · exact Or.inr (Or.inr (Or.inr h1))
  | mongodb config forceNew =>
    have hg : (if forceNew then none else JSMap.get w.connections.mongodb (mongoConnId config))
        = none := by
      cases forceNew with
      | true => simp
      | false => simpa [Connections.lookup, AcquireReq.dbType, AcquireReq.key] using hnew
    simp only [acquireInterleaved, acquireBegin, acquireResume, hg, hA, hB, World.startConnect,
      JSMap.set_set] at hmem
    simp only [List.mem_append] at hmem ⊢
    rcases hmem with h1 | h1 | h1 | h1
    · exact Or.inr (Or.inl h1)
    · exact Or.inr (Or.inr (Or.inl h1))
    · rcases JSMap.mem_map_set (fun e : MongoConn => e.client) _ _ _ _ h1 with e | e
      · exact Or.inl e
      · exact Or.inr (Or.inr (Or.inr (Or.inl e)))
    · exact Or.inr (Or.inr (Or.inr (Or.inr h1)))
  | mysql config =>
    have hg : JSMap.get w.connections.mysql (sqlConnId config) = none := by
      simpa [Connections.lookup, AcquireReq.dbType, AcquireReq.key] using hnew
    simp only [acquireInterleaved, acquireBegin, acquireResume, hg, hA, hB, World.startConnect,
      JSMap.set_set] at hmem
    simp only [List.mem_append] at hmem ⊢
    rcases hmem with h1 | h1 | h1 | h1
    · exact Or.inr (Or.inl h1)
    · exact Or.inr (Or.inr (Or.inl h1))
    · exact Or.inr (Or.inr (Or.inr (Or.inl h1)))
    · rcases JSMap.mem_map_set (fun e : MySQLConn => e.connection) _ _ _ _ h1 with e | e
      · exact Or.inl e
      · exact Or.inr (Or.inr (Or.inr (Or.inr e)))

/-- C28 (fails in the code): two acquisitions of one key that is not
registered, the second starting while the first awaits its handshake, do not
share a connection.  Both start a handshake, so two connections are opened;
the callers receive two different driver objects; the registry keeps only the
second; the first is not registered, and no connection was closed. -/
theorem concurrent_acquire_opens_two (env : Drivers) (now : Int) (req : AcquireReq)
    (w : World) (hwf : w.WF)
    (hnew : w.connections.lookup req.dbType req.key = none)
    (hA : env.connectError w.nextHandle = none)
    (hB : env.connectError (w.nextHandle + 1) = none) :
    (acquireInterleaved env now req req w).2.connectLog =
        w.connectLog ++ [w.nextHandle, w.nextHandle + 1] ∧
      (∃ a b, (acquireInterleaved env now req req w).1.1 = .ok a ∧
        (acquireInterleaved env now req req w).1.2 = .ok b ∧
        a.conn = w.nextHandle ∧ b.conn = w.nextHandle + 1 ∧ a.conn ≠ b.conn) ∧
      (acquireInterleaved env now req req w).2.connections.lookup req.dbType req.key =
        some (w.nextHandle + 1, now) ∧
      w.nextHandle ∉ (acquireInterleaved env now req req w).2.connections.handles ∧
      (acquireInterleaved env now req req w).2.closeLog = w.closeLog := by
  obtain ⟨hlog, ⟨a, b, ha, hb, hca, hcb⟩, hlook, hclose⟩ :=
    acquireInterleaved_new_key env now req w hnew hA hB
  refine ⟨hlog, ⟨a, b, ha, hb, hca, hcb, by rw [hca, hcb]; exact Nat.ne_of_lt (Nat.lt_succ_self _)⟩, hlook,
    acquireInterleaved_first_unregistered env now req w hwf hnew hA hB, hclose⟩

theorem concurrent_acquire_opens_two_witness :
    World.init.WF ∧
      World.init.connections.lookup .sqlite "app.db" = none ∧
      (acquireInterleaved Drivers.quiet 1000 (.sqlite "app.db")
        (.sqlite "app.db") World.init).2.connectLog = [0, 1] ∧
      (acquireInterleaved Drivers.quiet 1000 (.sqlite "app.db")
        (.sqlite "app.db") World.init).1 = (.ok (.handle 0), .ok (.handle 1)) ∧
      (acquireInterleaved Drivers.quiet 1000 (.sqlite "app.db")
        (.sqlite "app.db") World.init).2.connections.handles = [1] ∧
      (acquireInterleaved Drivers.quiet 1000 (.sqlite "app.db")
        (.sqlite "app.db") World.init).2.closeLog = [] :=
  have h := concurrent_acquire_opens_two Drivers.quiet 1000 (.sqlite "app.db")
    World.init (by decide) (by decide) rfl rfl
  ⟨by decide, by decide, h.1, rfl, by decide, h.2.2.2.2⟩

/-! ## Live connections and the creation of a document database -/

/-- The `try` block of `createMongoDatabase` leaves the registry, the
allocator and the record of handshakes as they are. -/
theorem createMongoTry_keeps (env : Drivers) (adm : AdminDrivers) (args : CreateMongoArgs)
    (hs : MongoHandles) (w : World) :
    (createMongoTry env adm args hs w).2.connections = w.connections ∧
    (createMongoTry env adm args hs w).2.nextHandle = w.nextHandle ∧
    (createMongoTry env adm args hs w).2.connectLog = w.connectLog := by
  have hclose : ∀ text, (closeThenReturn env adm hs.client text w).2.connections = w.connections ∧
      (closeThenReturn env adm hs.client text w).2.nextHandle = w.nextHandle ∧
      (closeThenReturn env adm hs.client text w).2.connectLog = w.connectLog := by
    intro text
    unfold closeThenReturn closeHandle
    cases env.closeRaises hs.client <;> exact ⟨rfl, rfl, rfl⟩
  unfold createMongoTry
  cases adm.listDatabases hs.client with
  | error err => exact ⟨rfl, rfl, rfl⟩
  | ok names =>
    simp only
    split_ifs <;> (repeat' split) <;> first | exact ⟨rfl, rfl, rfl⟩ | exact hclose _

/-- The close calls of the `try` block of `createMongoDatabase`: none when it
throws before its `close()` statement, else one on the client. -/
theorem createMongoTry_closeLog (env : Drivers) (adm : AdminDrivers) (args : CreateMongoArgs)
    (hs : MongoHandles) (w : World) :
    ((createMongoTry env adm args hs w).2.closeLog = w.closeLog ∧
      ∃ err, (createMongoTry env adm args hs w).1 = .error err) ∨
    (createMongoTry env adm args hs w).2.closeLog = w.closeLog ++ [hs.client] := by
  have hclose : ∀ text,
      (closeThenReturn env adm hs.client text w).2.closeLog = w.closeLog ++ [hs.client] := by
    intro text
    unfold closeThenReturn closeHandle
    cases env.closeRaises hs.client <;> rfl
  unfold createMongoTry
  cases adm.listDatabases hs.client with
  | error err => exact Or.inl ⟨rfl, err, rfl⟩
  | ok names =>
    simp only
    split_ifs <;> (repeat' split) <;>
      first | exact Or.inr (hclose _) | exact Or.inl ⟨rfl, _, rfl⟩

/-- Whatever `createMongoDatabase` does after it obtained its connection, it
leaves the registry as `getMongoConnection` left it, and it has called
`close()` on the client. -/
theorem createMongoDatabase_after_acquire (env : Drivers) (adm : AdminDrivers) (now : Int)
    (args : CreateMongoArgs) (w : World) (hs : MongoHandles)
    (hacq : (getMongoConnection env now args.config args.force_new_connection w).1 = .ok hs) :
    (createMongoDatabase env adm now args w).2.connections =
      (getMongoConnection env now args.config args.force_new_connection w).2.connections ∧
    (createMongoDatabase env adm now args w).2.nextHandle =
      (getMongoConnection env now args.config args.force_new_connection w).2.nextHandle ∧
    (createMongoDatabase env adm now args w).2.connectLog =
      (getMongoConnection env now args.config args.force_new_connection w).2.connectLog ∧
    (∃ more, (createMongoDatabase env adm now args w).2.closeLog =
      (getMongoConnection env now args.config args.force_new_connection w).2.closeLog ++
        hs.client :: more ∧ ∀ x ∈ more, x = hs.client) := by
  unfold createMongoDatabase
  generalize getMongoConnection env now args.config args.force_new_connection w = r at hacq ⊢
  obtain ⟨r1, w1⟩ := r
  simp only at hacq
  subst hacq
  simp only
  have hk := createMongoTry_keeps env adm args hs w1
  have hc := createMongoTry_closeLog env adm args hs w1
  generalize createMongoTry env adm args hs w1 = t at hk hc ⊢
  obtain ⟨t1, w2⟩ := t
  simp only at hk hc
  obtain ⟨hk1, hk2, hk3⟩ := hk
  cases t1 with
  | ok text =>
    simp only
    rcases hc with ⟨_, err, herr⟩ | hc
    · cases herr
    · exact ⟨hk1, hk2, hk3, [], hc, by simp⟩
  | error err =>
    simp only [closeHandle]
    cases env.closeRaises hs.client with
    | true =>
      simp only
      refine ⟨hk1, hk2, hk3, ?_⟩
      rcases hc with ⟨hc, _⟩ | hc
      · exact ⟨[], by rw [hc], by simp⟩
      · exact ⟨[hs.client], by rw [hc]; simp, by simp⟩
    | false =>
      simp only
      refine ⟨hk1, hk2, hk3, ?_⟩
      rcases hc with ⟨hc, _⟩ | hc
      · exact ⟨[], by rw [hc], by simp⟩
      · exact ⟨[hs.client], by rw [hc]; simp, by simp⟩

/-- C27 (fails in the code): the registry does not always carry live
connections.  It does at startup, but every call of `createMongoDatabase`
that obtains its connection from the Connection Manager, on a backend whose
`close()` on that client returns normally, ends with the client registered
under the key of its arguments and closed: the entry is not live. -/
theorem createMongoDatabase_leaves_closed_client (env : Drivers) (adm : AdminDrivers)
    (now : Int) (args : CreateMongoArgs) (w : World) (hs : MongoHandles)
    (hacq : (getMongoConnection env now args.config args.force_new_connection w).1 = .ok hs)
    (hclose : env.closeRaises hs.client = false) :
    World.init.RegistryLive env ∧
    (createMongoDatabase env adm now args w).2.connections.lookup .mongodb
        (mongoConnId args.config) = some (hs.client, now) ∧
    hs.client ∈ (createMongoDatabase env adm now args w).2.closeLog ∧
    ¬ (createMongoDatabase env adm now args w).2.Live env hs.client ∧
    ¬ (createMongoDatabase env adm now args w).2.RegistryLive env := by
  obtain ⟨hconn, -, -, more, hlog, -⟩ :=
    createMongoDatabase_after_acquire env adm now args w hs hacq
  have hok : (acquire env now (.mongodb args.config args.force_new_connection) w).1 =
      .ok (.mongo hs) := by
    simp only [acquire, hacq]
    rfl
  have hlook := acquire_ok_lookup env now (.mongodb args.config args.force_new_connection) w
    (.mongo hs) hok
  have hlook2 : (createMongoDatabase env adm now args w).2.connections.lookup .mongodb
      (mongoConnId args.config) = some (hs.client, now) := by
    rw [hconn]
    exact hlook
  have hmem : hs.client ∈ (createMongoDatabase env adm now args w).2.closeLog := by
    rw [hlog]
    simp
  have hdead : ¬ (createMongoDatabase env adm now args w).2.Live env hs.client :=
    fun hl => hl.2.2 ⟨hmem, hclose⟩
  refine ⟨?_, hlook2, hmem, hdead, ?_⟩
  · intro h hh
    simp [World.init, Connections.handles, Connections.stamps] at hh
  · intro hall
    apply hdead
    apply hall
    have := lookup_mem_stamps hlook2
    exact List.mem_map.mpr ⟨_, this, rfl⟩

theorem createMongoDatabase_leaves_closed_client_witness :
    World.init.RegistryLive Drivers.quiet ∧
    (createMongoDatabase Drivers.quiet AdminDrivers.quiet 1000 sampleCreateMongoArgs
      World.init).1 = .ok ("🎉 MongoDB database created successfully!\n" ++
        "📍 Connection: mongodb://localhost:27017\n🗄️ Database: shop\n" ++
        "📊 Collections: 1\n📝 Sample Data: None\n🤖 Generated from description: No") ∧
    (createMongoDatabase Drivers.quiet AdminDrivers.quiet 1000 sampleCreateMongoArgs
      World.init).2.connections.lookup .mongodb "localhost:27017:shop" = some (0, 1000) ∧
    (createMongoDatabase Drivers.quiet AdminDrivers.quiet 1000 sampleCreateMongoArgs
      World.init).2.closeLog = [0] ∧
    ¬ (createMongoDatabase Drivers.quiet AdminDrivers.quiet 1000 sampleCreateMongoArgs
      World.init).2.RegistryLive Drivers.quiet :=
  have h := createMongoDatabase_leaves_closed_client Drivers.quiet AdminDrivers.quiet 1000
    sampleCreateMongoArgs World.init { client := 0, db := 1 } rfl rfl
  ⟨h.1, rfl, h.2.1, by decide, h.2.2.2.2⟩

/-! ## Liveness through the operations of the Connection Manager -/

/-- At startup the invariant holds: the registry is empty. -/
theorem World.init_Sound (env : Drivers) : World.init.Sound env := by
  refine ⟨World.init_WF, ?_, ?_⟩
  · intro h hh
    simp [World.init] at hh
  · intro h hh
    simp [World.init, Connections.handles, Connections.stamps] at hh

/-- A step keeps the invariant when it keeps the registry well formed, never
takes back an allocation or a started handshake, closes only registered driver
objects, keeps an entry whose close it called only if that close threw, and
registers only the driver object it allocated, after its handshake
succeeded. -/
theorem Sound_of_step (env : Drivers) (w w' : World) (hs : w.Sound env) (hwf : w'.WF)
    (hn : w.nextHandle ≤ w'.nextHandle)
    (hco : ∀ h ∈ w.connectLog, h ∈ w'.connectLog)
    (hcl : ∀ h ∈ w'.closeLog, h ∈ w.closeLog ∨
      (h ∈ w.connections.handles ∧ (h ∈ w'.connections.handles → env.closeRaises h = true)))
    (hh : ∀ h ∈ w'.connections.handles, h ∈ w.connections.handles ∨
      (h = w.nextHandle ∧ h ∈ w'.connectLog ∧ env.connectError h = none)) :
    w'.Sound env := by
  obtain ⟨⟨-, -, hlt⟩, hcb, hlive⟩ := hs
  refine ⟨hwf, ?_, ?_⟩
  · intro h hmem
    rcases hcl h hmem with h1 | ⟨h1, -⟩
    · exact Nat.lt_of_lt_of_le (hcb h h1) hn
    · exact Nat.lt_of_lt_of_le (hlt h h1) hn
  · intro h hmem
    rcases hh h hmem with h1 | ⟨h1, h2, h3⟩
    · obtain ⟨l1, l2, l3⟩ := hlive h h1
      refine ⟨hco h l1, l2, ?_⟩
      rintro ⟨c1, c2⟩
      rcases hcl h c1 with c3 | ⟨-, c3⟩
      · exact l3 ⟨c3, c2⟩
      · rw [c3 hmem] at c2
        exact Bool.noConfusion c2
    · refine ⟨h2, h3, ?_⟩
      rintro ⟨c1, -⟩
      rcases hcl h c1 with c3 | ⟨c3, -⟩
      · exact Nat.lt_irrefl _ (h1 ▸ hcb h c3)
      · exact Nat.lt_irrefl _ (h1 ▸ hlt h c3)

/-- An acquisition makes no close call and takes back no allocation and no
started handshake. -/
theorem acquire_logs (env : Drivers) (now : Int) (req : AcquireReq) (w : World) :
    (acquire env now req w).2.closeLog = w.closeLog ∧
    w.nextHandle ≤ (acquire env now req w).2.nextHandle ∧
    ∀ h ∈ w.connectLog, h ∈ (acquire env now req w).2.connectLog := by
  cases req with
  | sqlite dbPath =>
    simp only [acquire, getSQLiteConnection]
    cases JSMap.get w.connections.sqlite dbPath with
    | some conn => exact ⟨rfl, Nat.le_refl _, fun _ h => h⟩
    | none =>
      cases env.connectError w.nextHandle <;>
        exact ⟨rfl, Nat.le_succ _, fun _ h => List.mem_append_left _ h⟩
  | postgres config =>
    simp only [acquire, getPostgresConnection]
    cases JSMap.get w.connections.postgres (sqlConnId config) with
    | some conn => exact ⟨rfl, Nat.le_refl _, fun _ h => h⟩
    | none =>
      cases env.connectError w.nextHandle <;>
        exact ⟨rfl, Nat.le_succ _, fun _ h => List.mem_append_left _ h⟩
  | mongodb config forceNew =>
    simp only [acquire, getMongoConnection]
    cases (if forceNew then none else JSMap.get w.connections.mongodb (mongoConnId config)) with
    | some conn => exact ⟨rfl, Nat.le_refl _, fun _ h => h⟩
    | none =>
      cases env.connectError w.nextHandle with
      | some err => exact ⟨rfl, Nat.le_succ _, fun _ h => List.mem_append_left _ h⟩
      | none =>
        exact ⟨rfl, Nat.le_succ_of_le (Nat.le_succ _), fun _ h => List.mem_append_left _ h⟩
  | mysql config =>
    simp only [acquire, getMySQLConnection]
    cases JSMap.get w.connections.mysql (sqlConnId config) with
    | some conn => exact ⟨rfl, Nat.le_refl _, fun _ h => h⟩
    | none =>
      cases env.connectError w.nextHandle <;>
        exact ⟨rfl, Nat.le_succ _, fun _ h => List.mem_append_left _ h⟩

/-- The driver objects registered after an acquisition: those registered
before, and the one it allocated if its handshake succeeded. -/
theorem acquire_handles (env : Drivers) (now : Int) (req : AcquireReq) (w : World) :
    ∀ h ∈ (acquire env now req w).2.connections.handles, h ∈ w.connections.handles ∨
      (h = w.nextHandle ∧ h ∈ (acquire env now req w).2.connectLog ∧
        env.connectError h = none) := by
  intro h
  rw [Connections.handles_eq, Connections.handles_eq]
  cases req with
  | sqlite dbPath =>
    simp only [acquire, getSQLiteConnection]
    cases hg : JSMap.get w.connections.sqlite dbPath with
    | some conn =>
      have hm := JSMap.map_set_of_get SQLiteConn.db (v := { conn with lastUsed := now }) hg rfl
      simp only [hm]
      exact Or.inl
    | none =>
      cases hc : env.connectError w.nextHandle with
      | some err => exact Or.inl
      | none =>
        simp only [World.startConnect]
        intro hmem
        rcases mem_replace_part (A := []) (fun x hx => JSMap.mem_map_set SQLiteConn.db _ _ _ x hx)
          hmem with e | e
        · exact Or.inr ⟨e, by simp [e], e ▸ hc⟩
        · exact Or.inl e
  | postgres config =>
    simp only [acquire, getPostgresConnection]
    cases hg : JSMap.get w.connections.postgres (sqlConnId config) with
    | some conn =>
      have hm := JSMap.map_set_of_get PostgresConn.client (v := { conn with lastUsed := now })
        hg rfl
      simp only [hm]
      exact Or.inl
    | none =>
      cases hc : env.connectError w.nextHandle with
      | some err => exact Or.inl
      | none =>
        simp only [World.startConnect]
        intro hmem
        rcases mem_replace_part
          (fun x hx => JSMap.mem_map_set PostgresConn.client _ _ _ x hx) hmem with e | e
        · exact Or.inr ⟨e, by simp [e], e ▸ hc⟩
        · exact Or.inl e
  | mongodb config forceNew =>
    simp only [acquire, getMongoConnection]
    cases hg0 : (if forceNew then none else JSMap.get w.connections.mongodb (mongoConnId config))
      with
    | some conn =>
      have hg : JSMap.get w.connections.mongodb (mongoConnId config) = some conn := by
        cases forceNew with
        | true => simp at hg0
        | false => simpa using hg0
      have hm := JSMap.map_set_of_get MongoConn.client (v := { conn with lastUsed := now }) hg rfl
      simp only [hm]
      exact Or.inl
    | none =>
      cases hc : env.connectError w.nextHandle with
      | some err => exact Or.inl
      | none =>
        simp only [World.startConnect]
        intro hmem
        simp only [List.mem_append] at hmem ⊢
        rcases hmem with h1 | h1 | h1 | h1
        · exact Or.inl (Or.inl h1)
        · exact Or.inl (Or.inr (Or.inl h1))
        · rcases JSMap.mem_map_set MongoConn.client _ _ _ _ h1 with e | e
          · exact Or.inr ⟨e, by simp [e], e ▸ hc⟩
          · exact Or.inl (Or.inr (Or.inr (Or.inl e)))
        · exact Or.inl (Or.inr (Or.inr (Or.inr h1)))
  | mysql config =>
    simp only [acquire, getMySQLConnection]
    cases hg : JSMap.get w.connections.mysql (sqlConnId config) with
    | some conn =>
      have hm := JSMap.map_set_of_get MySQLConn.connection (v := { conn with lastUsed := now })
        hg rfl
      simp only [hm]
      exact Or.inl
    | none =>
      cases hc : env.connectError w.nextHandle with
      | some err => exact Or.inl
      | none =>
        simp only [World.startConnect]
        intro hmem
        simp only [List.mem_append] at hmem ⊢
        rcases hmem with h1 | h1 | h1 | h1
        · exact Or.inl (Or.inl h1)
        · exact Or.inl (Or.inr (Or.inl h1))
        · exact Or.inl (Or.inr (Or.inr (Or.inl h1)))
        · rcases JSMap.mem_map_set MySQLConn.connection _ _ _ _ h1 with e | e
          · exact Or.inr ⟨e, by simp [e], e ▸ hc⟩
          · exact Or.inl (Or.inr (Or.inr (Or.inr e)))

/-- An acquisition, for every backend and whatever its outcome, keeps every
registered connection live. -/
theorem acquire_Sound (env : Drivers) (now : Int) (req : AcquireReq) (w : World)
    (hs : w.Sound env) : (acquire env now req w).2.Sound env := by
  obtain ⟨hcl, hn, hco⟩ := acquire_logs env now req w
  refine Sound_of_step env w _ hs (acquire_WF env now req w hs.1) hn hco ?_
    (acquire_handles env now req w)
  intro h hmem
  rw [hcl] at hmem
  exact Or.inl hmem

/-- In a list of stamps with distinct driver objects, no driver object is on
both sides of a partition. -/
theorem nodup_fst_filter_disjoint (l : List (Handle × Int)) (hn : (l.map Prod.fst).Nodup)
    (p q : Handle × Int → Bool) (hpq : ∀ s, p s = true → q s = true → False) (x : Handle)
    (h1 : x ∈ (l.filter p).map Prod.fst) (h2 : x ∈ (l.filter q).map Prod.fst) : False := by
  obtain ⟨s1, hs1, e1⟩ := List.mem_map.1 h1
  obtain ⟨s2, hs2, e2⟩ := List.mem_map.1 h2
  obtain ⟨m1, p1⟩ := List.mem_filter.1 hs1
  obtain ⟨m2, p2⟩ := List.mem_filter.1 hs2
  have e : s1 = s2 := List.inj_on_of_nodup_map hn m1 m2 (e1.trans e2.symm)
  subst e
  exact hpq s1 p1 p2

/-- The stamps left by a sweeper tick are the recent ones. -/
theorem sweeper_stamps (env : Drivers) (now : Int) (w : World) (hk : w.connections.KeysNodup) :
    (sweeper env now w).connections.stamps =
      w.connections.stamps.filter (fun s => decide (now - s.2 ≤ 300000)) := by
  rw [sweeper_eq env now w hk]
  simp only [Connections.stamps, List.filter_append, List.filter_map, Function.comp_def]

/-- A sweeper tick keeps every registered connection live: what it closes it
also removes. -/
theorem sweeper_Sound (env : Drivers) (now : Int) (w : World) (hs : w.Sound env) :
    (sweeper env now w).Sound env := by
  have hk := hs.1.1
  have hnd : (w.connections.stamps.map Prod.fst).Nodup := hs.1.2.1
  have hst := sweeper_stamps env now w hk
  refine Sound_of_step env w _ hs (sweeper_WF env now w hs.1) ?_ ?_ ?_ ?_
  · rw [sweeper_eq env now w hk]
  · rw [sweeper_eq env now w hk]
    exact fun _ h => h
  · intro h hmem
    have hlog : (sweeper env now w).closeLog = w.closeLog ++
        (w.connections.stamps.filter (fun s => decide (now - s.2 > 300000))).map Prod.fst := by
      rw [sweeper_eq env now w hk]
    rw [hlog, List.mem_append] at hmem
    rcases hmem with h1 | h1
    · exact Or.inl h1
    · refine Or.inr ⟨?_, ?_⟩
      · obtain ⟨s, hs1, e⟩ := List.mem_map.1 h1
        exact List.mem_map.2 ⟨s, (List.mem_filter.1 hs1).1, e⟩
      · intro h2
        simp only [Connections.handles, hst] at h2
        exact (nodup_fst_filter_disjoint _ hnd _ _
          (fun s a b => by
            have a' := of_decide_eq_true a
            have b' := of_decide_eq_true b
            omega) h h2 h1).elim
  · intro h hmem
    simp only [Connections.handles, hst] at hmem
    obtain ⟨s, hs1, e⟩ := List.mem_map.1 hmem
    exact Or.inl (List.mem_map.2 ⟨s, (List.mem_filter.1 hs1).1, e⟩)

/-- Deleting a key removes the driver object stored under it, when driver
objects are distinct. -/
theorem JSMap.not_mem_map_delete {α : Type} (f : α → Handle) (m : JSMap α) (k : String)
    (conn : α) (hg : JSMap.get m k = some conn) (hn : (m.map (fun p => f p.2)).Nodup) :
    f conn ∉ (JSMap.delete m k).map (fun p => f p.2) := by
  induction m with
  | nil => simp [JSMap.get] at hg
  | cons p m ih =>
    obtain ⟨k0, v0⟩ := p
    simp only [List.map_cons, List.nodup_cons] at hn
    by_cases h0 : k0 = k
    · simp only [JSMap.get, h0, if_true, Option.some.injEq] at hg
      simp only [JSMap.delete, h0, if_true]
      rw [← hg]
      exact hn.1
    · simp only [JSMap.get, h0, if_false] at hg
      simp only [JSMap.delete, h0, if_false, List.map_cons, List.mem_cons, not_or]
      refine ⟨?_, ih hg hn.2⟩
      intro e
      apply hn.1
      rw [← e]
      exact List.mem_map.2 ⟨(k, conn), JSMap.mem_of_get hg, rfl⟩

/-- The close call of the single-connection branch: it is made on a driver
object of the map, and the entry stays only when the call threw. -/
theorem closeOne_closed {α : Type} (env : Drivers) (handle : α → Handle) (m : JSMap α)
    (id : String) (log : List Handle) (hn : (m.map (fun p => handle p.2)).Nodup) :
    ∀ h ∈ (closeOne env handle m id log).2.1, h ∈ log ∨
      (h ∈ m.map (fun p => handle p.2) ∧
        (h ∈ (closeOne env handle m id log).1.map (fun p => handle p.2) →
          env.closeRaises h = true)) := by
  intro h
  unfold closeOne
  cases hg : JSMap.get m id with
  | none => exact Or.inl
  | some conn =>
    have hin : handle conn ∈ m.map (fun p => handle p.2) :=
      List.mem_map.2 ⟨(id, conn), JSMap.mem_of_get hg, rfl⟩
    cases hc : env.closeRaises (handle conn) with
    | true =>
      simp only [closeHandle, hc, List.mem_append, List.mem_singleton]
      rintro (h1 | h1)
      · exact Or.inl h1
      · subst h1
        exact Or.inr ⟨hin, fun _ => hc⟩
    | false =>
      simp only [closeHandle, hc, List.mem_append, List.mem_singleton]
      rintro (h1 | h1)
      · exact Or.inl h1
      · subst h1
        exact Or.inr ⟨hin, fun h2 => (JSMap.not_mem_map_delete handle m id conn hg hn h2).elim⟩

/-- `close_connections` allocates nothing and starts no handshake. -/
theorem close_connections_keeps (env : Drivers) (database_type connection_id : Option String)
    (w : World) :
    (close_connections env database_type connection_id w).2.nextHandle = w.nextHandle ∧
    (close_connections env database_type connection_id w).2.connectLog = w.connectLog := by
  unfold close_connections
  split_ifs
  · split <;> exact ⟨rfl, rfl⟩
  · split <;> exact ⟨rfl, rfl⟩
  · exact ⟨rfl, rfl⟩

/-- The close calls of `close_connections`: each is made on a registered
driver object, and the entry stays registered only when the call threw. -/
theorem close_connections_closed (env : Drivers) (database_type connection_id : Option String)
    (w : World) (hwf : w.WF) :
    ∀ h ∈ (close_connections env database_type connection_id w).2.closeLog, h ∈ w.closeLog ∨
      (h ∈ w.connections.handles ∧
        (h ∈ (close_connections env database_type connection_id w).2.connections.handles →
          env.closeRaises h = true)) := by
  obtain ⟨-, hnd, -⟩ := hwf
  rw [Connections.handles_eq] at hnd
  have hd := hnd
  simp only [List.nodup_append, List.disjoint_left, List.mem_append] at hd
  obtain ⟨n1, ⟨n2, ⟨n3, n4, d34⟩, d2⟩, d1⟩ := hd
  intro h
  rw [Connections.handles_eq, Connections.handles_eq]
  unfold close_connections
  simp only [List.mem_append]
  split_ifs
  · split
    · exact Or.inl
    · exact Or.inl
    · intro hmem
      rcases closeOne_closed env SQLiteConn.db _ _ _ n1 h hmem with h1 | ⟨h1, h2⟩
      · exact Or.inl h1
      · refine Or.inr ⟨Or.inl h1, ?_⟩
        rintro (a | a)
        · exact h2 a
        · exact (d1 h1 a).elim
    · intro hmem
      rcases closeOne_closed env PostgresConn.client _ _ _ n2 h hmem with h1 | ⟨h1, h2⟩
      · exact Or.inl h1
      · refine Or.inr ⟨Or.inr (Or.inl h1), ?_⟩
        rintro (a | a | a)
        · exact (d1 a (Or.inl h1)).elim
        · exact h2 a
        · exact (d2 h1 a).elim
    · intro hmem
      rcases closeOne_closed env MongoConn.client _ _ _ n3 h hmem with h1 | ⟨h1, h2⟩
      · exact Or.inl h1
      · refine Or.inr ⟨Or.inr (Or.inr (Or.inl h1)), ?_⟩
        rintro (a | a | a | a)
        · exact (d1 a (Or.inr (Or.inl h1))).elim
        · exact (d2 a (Or.inl h1)).elim
        · exact h2 a
        · exact (d34 h1 a).elim
    · intro hmem
      rcases closeOne_closed env MySQLConn.connection _ _ _ n4 h hmem with h1 | ⟨h1, h2⟩
      · exact Or.inl h1
      · refine Or.inr ⟨Or.inr (Or.inr (Or.inr h1)), ?_⟩
        rintro (a | a | a | a)
        · exact (d1 a (Or.inr (Or.inr h1))).elim
        · exact (d2 a (Or.inr h1)).elim
        · exact (d34 a h1).elim
        · exact h2 a
  · split
    · exact Or.inl
    · exact Or.inl
    · simp only [closeEach_eq, List.mem_append, JSMap.clear, List.map_nil, List.not_mem_nil,
        false_or]
      rintro (h1 | h1)
      · exact Or.inl h1
      · exact Or.inr ⟨Or.inl h1, fun a => (d1 h1 a).elim⟩
    · simp only [closeEach_eq, List.mem_append, JSMap.clear, List.map_nil, List.not_mem_nil,
        false_or]
      rintro (h1 | h1)
      · exact Or.inl h1
      · refine Or.inr ⟨Or.inr (Or.inl h1), ?_⟩
        rintro (a | a)
        · exact (d1 a (Or.inl h1)).elim
        · exact (d2 h1 a).elim
    · simp only [closeEach_eq, List.mem_append, JSMap.clear, List.map_nil, List.not_mem_nil,
        false_or]
      rintro (h1 | h1)
      · exact Or.inl h1
      · refine Or.inr ⟨Or.inr (Or.inr (Or.inl h1)), ?_⟩
        rintro (a | a | a)
        · exact (d1 a (Or.inr (Or.inl h1))).elim
        · exact (d2 a (Or.inl h1)).elim
        · exact (d34 h1 a).elim
    · simp only [closeEach_eq, List.mem_append, JSMap.clear, List.map_nil, List.not_mem_nil,
        or_false]
      rintro (h1 | h1)
      · exact Or.inl h1
      · refine Or.inr ⟨Or.inr (Or.inr (Or.inr h1)), ?_⟩
        rintro (a | a | a)
        · exact (d1 a (Or.inr (Or.inr h1))).elim
        · exact (d2 a (Or.inr h1)).elim
        · exact (d34 a h1).elim
  · simp only [closeEach_eq, List.mem_append, JSMap.clear, List.map_nil, List.not_mem_nil,
      or_false, false_imp_iff, and_true]
    rintro ((((h1 | h1) | h1) | h1) | h1)
    · exact Or.inl h1
    · exact Or.inr (Or.inl h1)
    · exact Or.inr (Or.inr (Or.inl h1))
    · exact Or.inr (Or.inr (Or.inr (Or.inl h1)))
    · exact Or.inr (Or.inr (Or.inr (Or.inr h1)))

/-- `close_connections` registers nothing. -/
theorem close_connections_handles (env : Drivers) (database_type connection_id : Option String)
    (w : World) :
    List.Sublist (close_connections env database_type connection_id w).2.connections.handles
      w.connections.handles := by
  rw [Connections.handles_eq, Connections.handles_eq]
  have key : ∀ w' : World,
      List.Sublist w'.connections.sqlite w.connections.sqlite →
      List.Sublist w'.connections.postgres w.connections.postgres →
      List.Sublist w'.connections.mongodb w.connections.mongodb →
      List.Sublist w'.connections.mysql w.connections.mysql →
      List.Sublist
        (w'.connections.sqlite.map (fun p => p.2.db) ++
          (w'.connections.postgres.map (fun p => p.2.client) ++
            (w'.connections.mongodb.map (fun p => p.2.client) ++
              w'.connections.mysql.map (fun p => p.2.connection))))
        (w.connections.sqlite.map (fun p => p.2.db) ++
          (w.connections.postgres.map (fun p => p.2.client) ++
            (w.connections.mongodb.map (fun p => p.2.client) ++
              w.connections.mysql.map (fun p => p.2.connection)))) :=
    fun w' h1 h2 h3 h4 => List.Sublist.append (List.Sublist.map _ h1)
      (List.Sublist.append (List.Sublist.map _ h2)
        (List.Sublist.append (List.Sublist.map _ h3) (List.Sublist.map _ h4)))
  apply key
  all_goals unfold close_connections
  all_goals split_ifs
  all_goals first
    | exact List.nil_sublist _
    | (split <;> first
        | exact closeOne_sublist _ _ _ _ _
        | exact List.nil_sublist _
        | exact List.Sublist.refl _)

/-- Every form of `close_connections` keeps every registered connection
live: an entry whose close returned normally is removed. -/
theorem close_connections_Sound (env : Drivers) (database_type connection_id : Option String)
    (w : World) (hs : w.Sound env) :
    (close_connections env database_type connection_id w).2.Sound env := by
  obtain ⟨hn, hco⟩ := close_connections_keeps env database_type connection_id w
  refine Sound_of_step env w _ hs (close_connections_WF env database_type connection_id w hs.1)
    (Nat.le_of_eq hn.symm) (fun h hh => by rw [hco]; exact hh)
    (close_connections_closed env database_type connection_id w hs.1) ?_
  intro h hmem
  exact Or.inl ((close_connections_handles env database_type connection_id w).subset hmem)

end DatabaseMCP

